import Mathlib

/-!
# Cache simulator: the browser fallback engine

A shallow embedding of `simulateResponse`, the fallback simulation of
`src/gui/web/interface/script.js`, and of the statistics functions of the page
(`updateStatisticsFromAPI`, `updateStatistics`, `resetStatistics`), followed by the
properties proved about them.

Conventions of the embedding.

* A JavaScript integer is an `Int`; a value that `parseInt` could not read (`NaN`)
  or that is absent from `params` is `none`.
* The quotient of two integers (`numSets`, `hit_rate`) is kept exactly, as the pair
  `Frac` of its numerator and denominator.
* `Math.log2` is exact on powers of two.  On other positive arguments the model
  keeps the real logarithm, of which the code only ever uses the truncation.
  The sum of two logarithms is kept exactly too, while the code adds two doubles:
  where neither logarithm is an integer the truncated sum of the code can be one
  less than the model's (block size 9 with `numSets` 16/9: the code shifts by 3,
  the model by 4).  Where both logarithms are integers, as for sizes that are
  powers of two, the two agree.
* The bitwise operators work on 32-bit two's complement integers, as in
  JavaScript: operands go through `ToInt32` and shift counts are taken modulo 32.
* An uncaught `TypeError` is the outcome `threw`; the state it leaves behind is
  the state at the point of the throw.
* The counters are natural numbers (no access count reaches `2^53`).
-/

namespace CacheSim

/-! ## JavaScript numbers -/

/-- The exact quotient `num / den` of two JavaScript integers. -/
structure Frac where
  num : Int
  den : Int
deriving DecidableEq

/-- An integer seen as a quotient. -/
def Frac.ofInt (x : Int) : Frac := ⟨x, 1⟩

/-- Number of iterations of `for (let i = 0; i < bound; i++)`: the count of the
natural numbers below `bound`.  A zero denominator, which `simulateResponse`
never produces (both factors of its only divisor are non-zero), counts as none. -/
def loopCount (bound : Frac) : Nat :=
  if 0 < bound.den then
    if 0 < bound.num then ((bound.num + bound.den - 1) / bound.den).toNat else 0
  else if bound.den < 0 then
    if bound.num < 0 then ((-bound.num + -bound.den - 1) / -bound.den).toNat else 0
  else 0

/-- The value of `Math.log2 x`, or of a sum of two such values. -/
inductive Log2 where
  /-- `NaN`, `Infinity` or `-Infinity`: each one shifts by zero and absorbs sums. -/
  | nonFinite : Log2
  /-- The logarithm of the positive quotient `num / den`. -/
  | ofPos (num den : Nat) : Log2
deriving DecidableEq

/-- `Math.log2 x`. -/
def Math_log2 (x : Frac) : Log2 :=
  if (0 < x.num ∧ 0 < x.den) ∨ (x.num < 0 ∧ x.den < 0) then
    Log2.ofPos x.num.natAbs x.den.natAbs
  else Log2.nonFinite

/-- The sum `a + b` of two logarithms, kept exactly: the logarithm of the
product.  It is the sum of the code whenever both logarithms are integers. -/
def Log2.add : Log2 → Log2 → Log2
  | Log2.ofPos n d, Log2.ofPos m e => Log2.ofPos (n * m) (d * e)
  | _, _ => Log2.nonFinite

/-- The number of halvings that bring `n` below two, within `fuel` steps. -/
def halvings : Nat → Nat → Nat
  | 0, _ => 0
  | fuel + 1, n => if n < 2 then 0 else halvings fuel (n / 2) + 1

/-- The integer part of the base-2 logarithm of `n ≥ 1`. -/
def floorLog2 (n : Nat) : Nat := halvings n n

/-- The logarithm of `num / den` truncated toward zero. -/
def truncLog2 (num den : Nat) : Int :=
  if den ≤ num then (floorLog2 (num / den) : Int) else -(floorLog2 (den / num) : Int)

/-- The shift count a bitwise shift takes from its right operand: `ToUint32 v & 31`. -/
def shiftCount : Log2 → Nat
  | Log2.nonFinite => 0
  | Log2.ofPos n d => (truncLog2 n d % 32).toNat

/-- The operation `ToUint32` on an integer. -/
def toUint32 (x : Int) : Nat := (x % 4294967296).toNat

/-- The operation `ToInt32` on an integer. -/
def toInt32 (x : Int) : Int :=
  if toUint32 x < 2147483648 then (toUint32 x : Int) else (toUint32 x : Int) - 4294967296

/-- `ToInt32` on a parsed number: `NaN` becomes `0`. -/
def toInt32? (x : Option Int) : Int :=
  match x with
  | some v => toInt32 v
  | none => 0

/-- The operator `a >> n` (sign-propagating right shift). -/
def jsShr (a : Int) (n : Log2) : Int := toInt32 a / 2 ^ shiftCount n

/-- The operator `a << n`. -/
def jsShl (a : Int) (n : Log2) : Int := toInt32 (toInt32 a * 2 ^ shiftCount n)

/-- Bitwise AND of the low `width` bits of `a` and `b`. -/
def bitAnd : Nat → Nat → Nat → Nat
  | 0, _, _ => 0
  | width + 1, a, b =>
    (if a % 2 = 1 ∧ b % 2 = 1 then 1 else 0) + 2 * bitAnd width (a / 2) (b / 2)

/-- Bitwise OR of the low `width` bits of `a` and `b`. -/
def bitOr : Nat → Nat → Nat → Nat
  | 0, _, _ => 0
  | width + 1, a, b =>
    (if a % 2 = 1 ∨ b % 2 = 1 then 1 else 0) + 2 * bitOr width (a / 2) (b / 2)

/-- The operator `a & b`. -/
def jsAnd (a b : Int) : Int := toInt32 (bitAnd 32 (toUint32 a) (toUint32 b))

/-- The operator `a | b`. -/
def jsOr (a b : Int) : Int := toInt32 (bitOr 32 (toUint32 a) (toUint32 b))

/-- The array read `xs[i]`: `undefined` (here `none`) outside `0 .. length - 1`. -/
def jsIndex {α : Type} (xs : List α) (i : Int) : Option α :=
  match i with
  | Int.ofNat n => xs.get? n
  | Int.negSucc _ => none

/-! ## Data model -/

/-- One cache block, `{ valid, dirty, tag, lastAccessed }`. -/
structure Block where
  valid : Bool
  dirty : Bool
  tag : Int
  lastAccessed : Nat
deriving DecidableEq

/-- The block literal `{ valid: false, dirty: false, tag: 0, lastAccessed: 0 }`. -/
def emptyBlock : Block := ⟨false, false, 0, 0⟩

/-- The object `simulationState.cacheConfig`. -/
structure CacheConfig where
  cacheSize : Int
  blockSize : Int
  associativity : Int
  numSets : Frac
  writePolicy : String
  replacementPolicy : String
deriving DecidableEq

/-- The object `simulationState`; `null` is `none`. -/
structure SimulationState where
  cache : Option (List (List Block))
  accessCount : Nat
  hitCount : Nat
  missCount : Nat
  cacheConfig : Option CacheConfig
deriving DecidableEq

/-- The initial value of `simulationState`. -/
def initialState : SimulationState := ⟨none, 0, 0, 0, none⟩

/-- The object `params`.  The numeric fields hold what `parseInt` reads from them
(`none` for `NaN` or a missing field); `operation` holds the upper-cased text. -/
structure Params where
  cache_size : Option Int
  block_size : Option Int
  associativity : Option Int
  replacement_policy : Option String
  write_policy : Option String
  write_miss_policy : Option String
  address : Option Int
  operation : Option String
  trace_data : Option String

/-- The empty `params` object. -/
def noParams : Params := ⟨none, none, none, none, none, none, none, none, none⟩

/-- The `params` object `CacheSimulator.create` sends. -/
def createParams (cacheSize blockSize associativity : Option Int)
    (replacementPolicy writePolicy writeMissPolicy : Option String) : Params :=
  ⟨cacheSize, blockSize, associativity, replacementPolicy, writePolicy, writeMissPolicy,
    none, none, none⟩

/-- The `params` object `CacheSimulator.access` sends. -/
def accessParams (address : Option Int) (operation : String) : Params :=
  ⟨none, none, none, none, none, none, address, some operation, none⟩

/-- The `statistics` object of a response. -/
structure Statistics where
  total_accesses : Nat
  hits : Nat
  misses : Nat
  hit_rate : Frac
deriving DecidableEq

/-- One block of a `/contents` response. -/
structure BlockView where
  block : Nat
  valid : Bool
  dirty : Bool
  tag : String
deriving DecidableEq

/-- One set of a `/contents` response. -/
structure SetView where
  set : Nat
  blocks : List BlockView
deriving DecidableEq

/-- One entry of the `results` of a `/trace` response. -/
structure TraceResult where
  address : String
  operation : String
  result : String
deriving DecidableEq

/-- The objects `simulateResponse` returns. -/
inductive Response where
  | message (status : String) (message : String) : Response
  | access (status : String) (result : String) (statistics : Statistics) : Response
  | contents (status : String) (cache_size block_size associativity : Int)
      (num_sets : Frac) (contents : List SetView) : Response
  | info (status : String) (cache_size block_size associativity : Int)
      (num_sets : Frac) (statistics : Statistics) : Response
  | trace (status : String) (processed_count : Nat) (results : List TraceResult)
      (statistics : Statistics) : Response
deriving DecidableEq

/-- How a call ends: with a returned object or with an uncaught `TypeError`. -/
inductive Outcome where
  | returned (r : Response) : Outcome
  | threw : Outcome
deriving DecidableEq

/-! ## The loops of `simulateResponse` -/

/-- The expression `parseInt(x) || d`: `NaN` and `0` are both replaced by `d`. -/
def parseIntOr (x : Option Int) (d : Int) : Int :=
  match x with
  | some v => if v = 0 then d else v
  | none => d

/-- The expression `x || d` on a string: missing and empty are replaced by `d`. -/
def stringOr (x : Option String) (d : String) : String :=
  match x with
  | some v => if v = "" then d else v
  | none => d

/-- The hit loop of `/access`, from slot `i` on: the first slot whose block is
valid and carries `tag`; `none` is `hitIndex === -1`. -/
def findHit (tag : Int) : List Block → Nat → Option Nat
  | [], _ => none
  | b :: bs, i => if b.valid = true ∧ b.tag = tag then some i else findHit tag bs (i + 1)

/-- The first loop of the miss branch, from slot `i` on: the first invalid slot;
`none` is `victimIndex === -1`. -/
def findInvalid : List Block → Nat → Option Nat
  | [], _ => none
  | b :: bs, i => if b.valid = false then some i else findInvalid bs (i + 1)

/-- The eviction loop of the miss branch, from slot `i` on, with the running
`oldestAccess` and `victimIndex`. -/
def findOldest : List Block → Nat → Nat → Option Nat → Option Nat
  | [], _, _, victim => victim
  | b :: bs, i, oldestAccess, victim =>
    if b.lastAccessed < oldestAccess then findOldest bs (i + 1) b.lastAccessed (some i)
    else findOldest bs (i + 1) oldestAccess victim

/-- The slot the miss branch writes: the first invalid slot, else the result of
the eviction loop started at `oldestAccess = accessCount`. -/
def victimIndex (blocks : List Block) (accessCount : Nat) : Option Nat :=
  match findInvalid blocks 0 with
  | some i => some i
  | none => findOldest blocks 0 accessCount none

/-- The in-place update of the block in slot `i`. -/
def modifyAt (f : Block → Block) : List Block → Nat → List Block
  | [], _ => []
  | b :: bs, 0 => f b :: bs
  | b :: bs, i + 1 => b :: modifyAt f bs i

/-- The update of a hit block: `lastAccessed = accessCount`, and `dirty = true`
for a `WRITE` under `WRITE_BACK`. -/
def touch (operation writePolicy : String) (accessCount : Nat) (b : Block) : Block :=
  if operation = "WRITE" ∧ writePolicy = "WRITE_BACK" then
    { b with lastAccessed := accessCount, dirty := true }
  else { b with lastAccessed := accessCount }

/-- The block literal the miss branch stores. -/
def installed (operation writePolicy : String) (tag : Int) (accessCount : Nat) : Block :=
  ⟨true, decide (operation = "WRITE" ∧ writePolicy = "WRITE_BACK"), tag, accessCount⟩

/-- The assignment `set[victimIndex] = block`.  With `victimIndex === -1` the
assignment creates the property `-1` of the array, which no loop reads: the
slots stay as they are. -/
def storeAt (blocks : List Block) (victim : Option Nat) (b : Block) : List Block :=
  match victim with
  | some i => blocks.set i b
  | none => blocks

/-- The `statistics` object built from the counters. -/
def statisticsOf (s : SimulationState) : Statistics :=
  ⟨s.accessCount, s.hitCount, s.missCount,
    if 0 < s.accessCount then ⟨(s.hitCount : Int) * 100, (s.accessCount : Int)⟩ else ⟨0, 1⟩⟩

/-- Base-16 text of a tag, as `tag.toString(16)`. -/
def toHexString (t : Int) : String :=
  if t < 0 then "-" ++ String.mk (Nat.toDigits 16 t.natAbs) else String.mk (Nat.toDigits 16 t.natAbs)

/-- The inner loop of `/contents` over one set, from slot `i` on. -/
def blockViews : List Block → Nat → List BlockView
  | [], _ => []
  | b :: bs, i => ⟨i, b.valid, b.dirty, toHexString b.tag⟩ :: blockViews bs (i + 1)

/-- The outer loop of `/contents`, from set `i` on. -/
def setViews : List (List Block) → Nat → List SetView
  | [], _ => []
  | blocks :: rest, i => ⟨i, blockViews blocks 0⟩ :: setViews rest (i + 1)

/-! ## `simulateResponse` -/

/-- The branch `endpoint === '/create'`. -/
def create (params : Params) (_s : SimulationState) : Outcome × SimulationState :=
  let cacheSize := parseIntOr params.cache_size 1024
  let blockSize := parseIntOr params.block_size 32
  let associativity := parseIntOr params.associativity 4
  let numSets : Frac :=
    if associativity = 0 then Frac.ofInt 1 else ⟨cacheSize, blockSize * associativity⟩
  let cacheConfig : CacheConfig :=
    ⟨cacheSize, blockSize, associativity, numSets,
      stringOr params.write_policy "WRITE_THROUGH",
      stringOr params.replacement_policy "LRU"⟩
  let blocksPerSet : Frac :=
    if associativity = 0 then ⟨cacheSize, blockSize⟩ else Frac.ofInt associativity
  let cache := List.replicate (loopCount numSets) (List.replicate (loopCount blocksPerSet) emptyBlock)
  (Outcome.returned (Response.message "success" "Cache created (simulated)"),
    ⟨some cache, 0, 0, 0, some cacheConfig⟩)

/-- The set index `/access` computes. -/
def setIndexOf (config : CacheConfig) (address : Option Int) : Int :=
  let offsetBits := Math_log2 (Frac.ofInt config.blockSize)
  let indexBits := Math_log2 config.numSets
  jsAnd (jsShr (toInt32? address) offsetBits) (jsShl 1 indexBits - 1)

/-- The tag `/access` computes. -/
def tagOf (config : CacheConfig) (address : Option Int) : Int :=
  let offsetBits := Math_log2 (Frac.ofInt config.blockSize)
  let indexBits := Math_log2 config.numSets
  jsShr (toInt32? address) (offsetBits.add indexBits)

/-- The branch `endpoint === '/access'`. -/
def access (params : Params) (s : SimulationState) : Outcome × SimulationState :=
  match s.cache with
  | none => (Outcome.returned (Response.message "error" "No cache created"), s)
  | some cache =>
    match s.cacheConfig with
    | none => (Outcome.threw, s)
    | some config =>
      let address := params.address
      let operation := stringOr params.operation "READ"
      let setIndex := setIndexOf config address
      let tag := tagOf config address
      let accessCount := s.accessCount + 1
      match jsIndex cache setIndex with
      | none => (Outcome.threw, { s with accessCount := accessCount })
      | some blocks =>
        match findHit tag blocks 0 with
        | some hitIndex =>
          let s1 : SimulationState :=
            ⟨some (cache.set setIndex.toNat
                (modifyAt (touch operation config.writePolicy accessCount) blocks hitIndex)),
              accessCount, s.hitCount + 1, s.missCount, some config⟩
          (Outcome.returned (Response.access "success"
              (if operation = "READ" then "HIT" else "WRITE_HIT") (statisticsOf s1)), s1)
        | none =>
          let s1 : SimulationState :=
            ⟨some (cache.set setIndex.toNat
                (storeAt blocks (victimIndex blocks accessCount)
                  (installed operation config.writePolicy tag accessCount))),
              accessCount, s.hitCount, s.missCount + 1, some config⟩
          (Outcome.returned (Response.access "success"
              (if operation = "READ" then "MISS" else "WRITE_MISS") (statisticsOf s1)), s1)

/-- The branch `endpoint === '/reset'`. -/
def reset (s : SimulationState) : Outcome × SimulationState :=
  match s.cache with
  | some cache =>
    (Outcome.returned (Response.message "success" "Cache reset (simulated)"),
      ⟨some (cache.map (fun blocks => blocks.map (fun _ => emptyBlock))), 0, 0, 0, s.cacheConfig⟩)
  | none => (Outcome.returned (Response.message "success" "Cache reset (simulated)"), s)

/-- The branch `endpoint === '/contents'`. -/
def contents (s : SimulationState) : Outcome × SimulationState :=
  match s.cache, s.cacheConfig with
  | some cache, some config =>
    (Outcome.returned (Response.contents "success" config.cacheSize config.blockSize
      config.associativity config.numSets (setViews cache 0)), s)
  | _, _ => (Outcome.returned (Response.message "error" "No cache created"), s)

/-- The branch `endpoint === '/info'`. -/
def info (s : SimulationState) : Outcome × SimulationState :=
  match s.cacheConfig with
  | some config =>
    (Outcome.returned (Response.info "success" config.cacheSize config.blockSize
      config.associativity config.numSets (statisticsOf s)), s)
  | none => (Outcome.returned (Response.message "error" "No cache created"), s)

/-- The branch `endpoint === '/trace'`: a fixed object. -/
def trace (s : SimulationState) : Outcome × SimulationState :=
  (Outcome.returned (Response.trace "success" 5
    [⟨"0x1000", "R", "MISS"⟩, ⟨"0x2000", "W", "MISS"⟩, ⟨"0x1000", "R", "HIT"⟩]
    ⟨13, 7, 6, ⟨538, 10⟩⟩), s)

/-- The function `simulateResponse(endpoint, params)` acting on `simulationState`. -/
def simulateResponse (endpoint : String) (params : Params) (s : SimulationState) :
    Outcome × SimulationState :=
  if endpoint = "/create" then create params s
  else if endpoint = "/access" then access params s
  else if endpoint = "/reset" then reset s
  else if endpoint = "/contents" then contents s
  else if endpoint = "/info" then info s
  else if endpoint = "/trace" then trace s
  else (Outcome.returned (Response.message "error" "Unknown endpoint"), s)

/-! ## Sequences of calls and vocabulary of the properties -/

/-- The state `simulateResponse('/create', params)` leaves behind. -/
def createdFrom (params : Params) (s : SimulationState) : SimulationState :=
  (simulateResponse "/create" params s).2

/-- A call of `/access` or of `/reset`. -/
inductive Call where
  | access (params : Params) : Call
  | reset : Call

/-- The outcome and the state after one call. -/
def Call.run : Call → SimulationState → Outcome × SimulationState
  | Call.access params, s => simulateResponse "/access" params s
  | Call.reset, s => simulateResponse "/reset" noParams s

/-- The state after a sequence of calls, whatever their outcomes. -/
def runCalls : List Call → SimulationState → SimulationState
  | [], s => s
  | c :: cs, s => runCalls cs (c.run s).2

/-- The state after a sequence of calls each of which returned a response;
`none` as soon as one call threw. -/
def runReturning : List Call → SimulationState → Option SimulationState
  | [], s => some s
  | c :: cs, s =>
    match (c.run s).1 with
    | Outcome.returned _ => runReturning cs (c.run s).2
    | Outcome.threw => none

/-- The `result` field of an `/access` response. -/
def Outcome.result? : Outcome → Option String
  | Outcome.returned (Response.access _ result _) => some result
  | _ => none

/-- The `statistics` field of an `/access` response. -/
def Outcome.statistics? : Outcome → Option Statistics
  | Outcome.returned (Response.access _ _ statistics) => some statistics
  | _ => none

/-- The `contents` field of a `/contents` response. -/
def Outcome.contents? : Outcome → Option (List SetView)
  | Outcome.returned (Response.contents _ _ _ _ _ contents) => some contents
  | _ => none

/-- Valid geometry of a `/create` request: block size, associativity and total
size are positive powers of two and the size is a multiple of their product. -/
def ValidGeometry (params : Params) : Prop :=
  ∃ b a k : Nat, params.block_size = some (2 ^ b) ∧ params.associativity = some (2 ^ a) ∧
    params.cache_size = some (2 ^ (b + a + k))

/-- The set `address` selects in state `s`, when there is one. -/
def selectedSet (s : SimulationState) (address : Option Int) : Option (List Block) :=
  match s.cache, s.cacheConfig with
  | some cache, some config => jsIndex cache (setIndexOf config address)
  | _, _ => none

/-- The tag `address` decodes to in state `s`. -/
def selectedTag (s : SimulationState) (address : Option Int) : Int :=
  match s.cacheConfig with
  | some config => tagOf config address
  | none => 0

/-- A set holds a valid block carrying `tag`. -/
def Holds (blocks : List Block) (tag : Int) : Prop :=
  ∃ b ∈ blocks, b.valid = true ∧ b.tag = tag

/-- The block of `address` is resident in state `s`. -/
def Resident (s : SimulationState) (address : Option Int) : Prop :=
  ∃ blocks, selectedSet s address = some blocks ∧ Holds blocks (selectedTag s address)

/-- The selected set after an `/access` that found it as `blocks`: the hit block
touched, or else the new block stored in the victim slot. -/
def nextSet (blocks : List Block) (tag : Int) (operation writePolicy : String)
    (accessCount : Nat) : List Block :=
  match findHit tag blocks 0 with
  | some hitIndex => modifyAt (touch operation writePolicy accessCount) blocks hitIndex
  | none =>
    storeAt blocks (victimIndex blocks accessCount)
      (installed operation writePolicy tag accessCount)

/-- In state `s`, configured by `config` and with `accessCount` accesses counted,
the set that `address` selects is `blocks`. -/
def SetIs (config : CacheConfig) (s : SimulationState) (address : Option Int)
    (accessCount : Nat) (blocks : List Block) : Prop :=
  s.cacheConfig = some config ∧ s.accessCount = accessCount ∧
    selectedSet s address = some blocks

/-- The state after one `/access` call. -/
def afterAccess (params : Params) (s : SimulationState) : SimulationState :=
  (simulateResponse "/access" params s).2

/-- The state after one `/access` READ of `address`. -/
def afterRead (address : Option Int) (s : SimulationState) : SimulationState :=
  afterAccess (accessParams address "READ") s

/-- The configuration `/create` stores for `params`. -/
def configOf (params : Params) : CacheConfig :=
  ⟨parseIntOr params.cache_size 1024, parseIntOr params.block_size 32,
    parseIntOr params.associativity 4,
    if parseIntOr params.associativity 4 = 0 then Frac.ofInt 1
    else ⟨parseIntOr params.cache_size 1024,
      parseIntOr params.block_size 32 * parseIntOr params.associativity 4⟩,
    stringOr params.write_policy "WRITE_THROUGH",
    stringOr params.replacement_policy "LRU"⟩

/-- The counters add up: every access counted is a hit or a miss. -/
def Balanced (s : SimulationState) : Prop :=
  s.accessCount = s.hitCount + s.missCount

/-- The number of slots `/create` gives each set under `config`. -/
def waysOf (config : CacheConfig) : Nat :=
  loopCount (if config.associativity = 0 then ⟨config.cacheSize, config.blockSize⟩
    else Frac.ofInt config.associativity)

/-- The state holds a cache built for `config`: as many sets as `/create` made,
each with as many slots, and no block stamped later than the access count. -/
def Shaped (config : CacheConfig) (s : SimulationState) : Prop :=
  s.cacheConfig = some config ∧ ∃ cache, s.cache = some cache ∧
    cache.length = loopCount config.numSets ∧
    ∀ blocks ∈ cache, blocks.length = waysOf config ∧
      ∀ b ∈ blocks, b.lastAccessed ≤ s.accessCount

/-- A configuration `/create` derives from valid geometry. -/
def ValidConfig (config : CacheConfig) : Prop :=
  ∃ b a k : Nat, config.blockSize = 2 ^ b ∧ config.associativity = 2 ^ a ∧
    config.cacheSize = 2 ^ (b + a + k) ∧
    config.numSets = ⟨config.cacheSize, config.blockSize * config.associativity⟩

/-- No two slots of a set hold valid blocks with the same tag. -/
def DistinctTags (blocks : List Block) : Prop :=
  ∀ (i j : Nat) (b c : Block), blocks[i]? = some b → blocks[j]? = some c →
    b.valid = true → c.valid = true → b.tag = c.tag → i = j

/-- The tags of the valid blocks of a set, in slot order. -/
def validTags (blocks : List Block) : List Int :=
  (blocks.filter (fun b => b.valid)).map Block.tag

/-- The state after a sequence of `/access` calls. -/
def runAccesses : List Params → SimulationState → SimulationState
  | [], s => s
  | p :: ps, s => runAccesses ps (afterAccess p s)

/-- The pair of set number and tag an access decodes to under `config`. -/
def keyOf (config : CacheConfig) (params : Params) : Nat × Int :=
  ((setIndexOf config params.address).toNat, tagOf config params.address)

/-- The `status` field of a response. -/
def Outcome.status? : Outcome → Option String
  | Outcome.returned (Response.message status _) => some status
  | Outcome.returned (Response.access status _ _) => some status
  | Outcome.returned (Response.contents status _ _ _ _ _) => some status
  | Outcome.returned (Response.info status _ _ _ _ _) => some status
  | Outcome.returned (Response.trace status _ _ _) => some status
  | Outcome.threw => none

/-- The `result` fields of the `results` of a `/trace` response, in order. -/
def Outcome.traceResults? : Outcome → Option (List String)
  | Outcome.returned (Response.trace _ _ results _) => some (results.map TraceResult.result)
  | _ => none

/-- The `statistics` field of a `/trace` response. -/
def Outcome.traceStatistics? : Outcome → Option Statistics
  | Outcome.returned (Response.trace _ _ _ statistics) => some statistics
  | _ => none

/-- One entry of a trace as the specification has it: an address and an
operation. -/
structure TraceEntry where
  address : Option Int
  operation : String

/-- The trace runner in the words of the specification, not of the code: the
entries are issued one by one, in input order, through `/access`; the value is
the result of each entry, in order, with the state reached at the end. -/
def traceBySpec : List TraceEntry → SimulationState → List (Option String) × SimulationState
  | [], s => ([], s)
  | e :: es, s =>
    ((simulateResponse "/access" (accessParams e.address e.operation) s).1.result? ::
        (traceBySpec es (afterAccess (accessParams e.address e.operation) s)).1,
      (traceBySpec es (afterAccess (accessParams e.address e.operation) s)).2)

/-- The quotient `q` is the integer `n`. -/
def Frac.Equals (q : Frac) (n : Int) : Prop :=
  q.den ≠ 0 ∧ q.num = n * q.den

/-- The expression `x || 0` on a number: nothing changes but the way zero is
written. -/
def Frac.orZero (q : Frac) : Frac :=
  if q.num = 0 then ⟨0, 1⟩ else q

/-- The expression `100 - x`. -/
def Frac.complement (q : Frac) : Frac :=
  ⟨100 * q.den - q.num, q.den⟩

/-- The numbers `updateStatisticsFromAPI` puts into the elements `total-accesses`,
`hits`, `misses`, `hit-rate` and `miss-rate`; the two rates are the numbers that
`toFixed(2)` then turns into text, which the model leaves out. -/
structure StatisticsView where
  totalAccesses : Nat
  hits : Nat
  misses : Nat
  hitRate : Frac
  missRate : Frac
deriving DecidableEq

/-- The function `updateStatisticsFromAPI(apiStats)`. -/
def updateStatisticsFromAPI (apiStats : Statistics) : StatisticsView :=
  ⟨apiStats.total_accesses, apiStats.hits, apiStats.misses,
    apiStats.hit_rate.orZero, apiStats.hit_rate.orZero.complement⟩

/-- The tags, in order, of the accesses of `accs` that select set `i`. -/
def tagsFor (config : CacheConfig) (i : Nat) (accs : List Params) : List Int :=
  (accs.filter (fun q => (keyOf config q).1 = i)).map (fun q => (keyOf config q).2)

/-- The state `s` holds exactly what the accesses `accs` brought in: in every
set the valid blocks carry distinct tags, which are the tags of the accesses that
selected the set, and the misses counted are the distinct pairs of set and tag. -/
def Tracks (config : CacheConfig) (accs : List Params) (s : SimulationState) : Prop :=
  ∃ cache, s.cache = some cache ∧
    s.missCount = (accs.map (keyOf config)).dedup.length ∧
    ∀ (i : Nat) (blocks : List Block), cache[i]? = some blocks →
      (validTags blocks).Nodup ∧ ∀ t : Int, t ∈ validTags blocks ↔ t ∈ tagsFor config i accs

/-- The object `stats` of the page: its local counters. -/
structure Stats where
  totalAccesses : Nat
  hits : Nat
  misses : Nat
deriving DecidableEq

/-- The function `updateStatistics(result)`, the same in both scripts, acting on
`stats`: the new `stats` and the numbers written to the five elements.  A call
without argument has `result` undefined, here `none`. -/
def updateStatistics (result : Option String) (stats : Stats) : Stats × StatisticsView :=
  let totalAccesses := stats.totalAccesses + 1
  let hits := if result = some "HIT" then stats.hits + 1 else stats.hits
  let misses :=
    if result = some "HIT" then stats.misses
    else if result = some "MISS" then stats.misses + 1 else stats.misses
  (⟨totalAccesses, hits, misses⟩,
    ⟨totalAccesses, hits, misses, ⟨(hits : Int) * 100, (totalAccesses : Int)⟩,
      ⟨(misses : Int) * 100, (totalAccesses : Int)⟩⟩)

/-- The function `resetStatistics()`, the same in both scripts: `stats` is
replaced by zeroes and `updateStatistics()` is called without argument. -/
def resetStatistics (_stats : Stats) : Stats × StatisticsView :=
  updateStatistics none ⟨0, 0, 0⟩

/-! ## Lemmas on the loops and on the branches of `/access` -/

theorem findHit_none_iff (tag : Int) (bs : List Block) (i : Nat) :
    findHit tag bs i = none ↔ ¬ Holds bs tag := by
  induction bs generalizing i with
  | nil => simp [findHit, Holds]
  | cons b bs ih =>
    by_cases h : b.valid = true ∧ b.tag = tag
    · simp [findHit, Holds, h]
    · have := ih (i + 1)
      simp only [findHit, h, if_false, this, Holds, List.mem_cons]
      constructor
      · rintro h1 ⟨x, rfl | hx, hv⟩
        · exact h hv
        · exact h1 ⟨x, hx, hv⟩
      · rintro h1 ⟨x, hx, hv⟩
        exact h1 ⟨x, Or.inr hx, hv⟩

theorem findHit_some (tag : Int) (bs : List Block) (i j : Nat) (h : findHit tag bs i = some j) :
    ∃ k b, j = i + k ∧ bs[k]? = some b ∧ b.valid = true ∧ b.tag = tag ∧
      ∀ m c, m < k → bs[m]? = some c → ¬ (c.valid = true ∧ c.tag = tag) := by
  induction bs generalizing i with
  | nil => simp [findHit] at h
  | cons b bs ih =>
    by_cases hb : b.valid = true ∧ b.tag = tag
    · simp only [findHit, hb, and_self, if_true, Option.some.injEq] at h
      exact ⟨0, b, by omega, by simp, hb.1, hb.2, by intro m c hm; omega⟩
    · simp only [findHit, hb, if_false] at h
      obtain ⟨k, c, hj, hk, hv, ht, hfirst⟩ := ih (i + 1) h
      refine ⟨k + 1, c, by omega, by simpa using hk, hv, ht, ?_⟩
      intro m d hm hd
      cases m with
      | zero => simp at hd; subst hd; exact hb
      | succ m => exact hfirst m d (by omega) (by simpa using hd)

theorem simulateResponse_create (p : Params) (s : SimulationState) :
    simulateResponse "/create" p s = create p s := by
  simp [simulateResponse]

theorem simulateResponse_access (p : Params) (s : SimulationState) :
    simulateResponse "/access" p s = access p s := by
  simp [simulateResponse]

theorem simulateResponse_reset (p : Params) (s : SimulationState) :
    simulateResponse "/reset" p s = reset s := by
  simp [simulateResponse]

theorem simulateResponse_contents (p : Params) (s : SimulationState) :
    simulateResponse "/contents" p s = contents s := by
  simp [simulateResponse]

theorem findInvalid_none_iff (bs : List Block) (i : Nat) :
    findInvalid bs i = none ↔ ∀ b ∈ bs, b.valid = true := by
  induction bs generalizing i with
  | nil => simp [findInvalid]
  | cons b bs ih =>
    by_cases h : b.valid = false
    · simp [findInvalid, h]
    · simp [findInvalid, h, ih (i + 1)]

theorem findInvalid_some (bs : List Block) (i j : Nat) (h : findInvalid bs i = some j) :
    ∃ k b, j = i + k ∧ bs[k]? = some b ∧ b.valid = false ∧
      ∀ m c, m < k → bs[m]? = some c → c.valid = true := by
  induction bs generalizing i with
  | nil => simp [findInvalid] at h
  | cons b bs ih =>
    by_cases hb : b.valid = false
    · simp only [findInvalid, hb, if_true, Option.some.injEq] at h
      exact ⟨0, b, by omega, by simp, hb, by intro m c hm; omega⟩
    · simp only [findInvalid, hb, if_false] at h
      obtain ⟨k, c, hj, hk, hv, hfirst⟩ := ih (i + 1) h
      refine ⟨k + 1, c, by omega, by simpa using hk, hv, ?_⟩
      intro m d hm hd
      cases m with
      | zero => simp at hd; subst hd; simpa using hb
      | succ m => exact hfirst m d (by omega) (by simpa using hd)

theorem findOldest_spec (bs : List Block) (i oldest : Nat) (v : Option Nat) :
    (findOldest bs i oldest v = v ∧ ∀ b ∈ bs, oldest ≤ b.lastAccessed) ∨
    (∃ k b, findOldest bs i oldest v = some (i + k) ∧ bs[k]? = some b ∧
      b.lastAccessed < oldest ∧
      (∀ (m : Nat) (c : Block), bs[m]? = some c → b.lastAccessed ≤ c.lastAccessed) ∧
      (∀ m c, m < k → bs[m]? = some c → b.lastAccessed < c.lastAccessed)) := by
  induction bs generalizing i oldest v with
  | nil => left; simp [findOldest]
  | cons b bs ih =>
    by_cases hb : b.lastAccessed < oldest
    · simp only [findOldest, hb, if_true]
      rcases ih (i + 1) b.lastAccessed (some i) with ⟨hr, hall⟩ | ⟨k, c, hr, hk, hlt, hmin, hfirst⟩
      · right
        refine ⟨0, b, by simpa using hr, by simp, hb, ?_, by intro m c hm; omega⟩
        intro m c hc
        cases m with
        | zero => simp at hc; subst hc; exact le_refl _
        | succ m =>
          have hc1 : bs[m]? = some c := by simpa using hc
          exact hall c (List.getElem?_mem hc1)
      · right
        refine ⟨k + 1, c, by rw [hr]; congr 1; omega, by simpa using hk, by omega, ?_, ?_⟩
        · intro m d hd
          cases m with
          | zero => simp at hd; subst hd; omega
          | succ m => exact hmin m d (by simpa using hd)
        · intro m d hm hd
          cases m with
          | zero => simp at hd; subst hd; exact hlt
          | succ m => exact hfirst m d (by omega) (by simpa using hd)
    · simp only [findOldest, hb, if_false]
      rcases ih (i + 1) oldest v with ⟨hr, hall⟩ | ⟨k, c, hr, hk, hlt, hmin, hfirst⟩
      · left
        refine ⟨hr, ?_⟩
        intro c hc
        rcases List.mem_cons.1 hc with rfl | hc
        · omega
        · exact hall c hc
      · right
        refine ⟨k + 1, c, by rw [hr]; congr 1; omega, by simpa using hk, hlt, ?_, ?_⟩
        · intro m d hd
          cases m with
          | zero => simp at hd; subst hd; omega
          | succ m => exact hmin m d (by simpa using hd)
        · intro m d hm hd
          cases m with
          | zero => simp at hd; subst hd; omega
          | succ m => exact hfirst m d (by omega) (by simpa using hd)

theorem length_modifyAt (f : Block → Block) (bs : List Block) (i : Nat) :
    (modifyAt f bs i).length = bs.length := by
  induction bs generalizing i with
  | nil => simp [modifyAt]
  | cons b bs ih => cases i <;> simp [modifyAt, ih]

theorem getElem?_modifyAt (f : Block → Block) (bs : List Block) (i j : Nat) :
    (modifyAt f bs i)[j]? = if i = j then bs[j]?.map f else bs[j]? := by
  induction bs generalizing i j with
  | nil => simp [modifyAt]
  | cons b bs ih =>
    cases i with
    | zero => cases j <;> simp [modifyAt]
    | succ i => cases j <;> simp [modifyAt, ih]

theorem access_no_cache (p : Params) (s : SimulationState) (hc : s.cache = none) :
    access p s = (Outcome.returned (Response.message "error" "No cache created"), s) := by
  unfold access
  simp only [hc]

theorem access_no_set (p : Params) (s : SimulationState) (c : List (List Block))
    (cfg : CacheConfig) (hc : s.cache = some c) (hcfg : s.cacheConfig = some cfg)
    (hset : jsIndex c (setIndexOf cfg p.address) = none) :
    access p s = (Outcome.threw, { s with accessCount := s.accessCount + 1 }) := by
  unfold access
  simp only [hc, hcfg, hset]

theorem access_hit (p : Params) (s : SimulationState) (c : List (List Block))
    (cfg : CacheConfig) (blocks : List Block) (i : Nat)
    (hc : s.cache = some c) (hcfg : s.cacheConfig = some cfg)
    (hset : jsIndex c (setIndexOf cfg p.address) = some blocks)
    (hhit : findHit (tagOf cfg p.address) blocks 0 = some i) :
    access p s =
      (Outcome.returned (Response.access "success"
          (if stringOr p.operation "READ" = "READ" then "HIT" else "WRITE_HIT")
          ⟨s.accessCount + 1, s.hitCount + 1, s.missCount,
            ⟨((s.hitCount + 1 : Nat) : Int) * 100, ((s.accessCount + 1 : Nat) : Int)⟩⟩),
        ⟨some (c.set (setIndexOf cfg p.address).toNat
            (modifyAt (touch (stringOr p.operation "READ") cfg.writePolicy (s.accessCount + 1))
              blocks i)),
          s.accessCount + 1, s.hitCount + 1, s.missCount, some cfg⟩) := by
  unfold access
  simp only [hc, hcfg, hset, hhit, statisticsOf]
  simp

theorem access_miss (p : Params) (s : SimulationState) (c : List (List Block))
    (cfg : CacheConfig) (blocks : List Block)
    (hc : s.cache = some c) (hcfg : s.cacheConfig = some cfg)
    (hset : jsIndex c (setIndexOf cfg p.address) = some blocks)
    (hhit : findHit (tagOf cfg p.address) blocks 0 = none) :
    access p s =
      (Outcome.returned (Response.access "success"
          (if stringOr p.operation "READ" = "READ" then "MISS" else "WRITE_MISS")
          ⟨s.accessCount + 1, s.hitCount, s.missCount + 1,
            ⟨(s.hitCount : Int) * 100, ((s.accessCount + 1 : Nat) : Int)⟩⟩),
        ⟨some (c.set (setIndexOf cfg p.address).toNat
            (storeAt blocks (victimIndex blocks (s.accessCount + 1))
              (installed (stringOr p.operation "READ") cfg.writePolicy (tagOf cfg p.address)
                (s.accessCount + 1)))),
          s.accessCount + 1, s.hitCount, s.missCount + 1, some cfg⟩) := by
  unfold access
  simp only [hc, hcfg, hset, hhit, statisticsOf]
  simp

theorem victimIndex_some (blocks : List Block) (n : Nat) (hne : blocks ≠ [])
    (htime : ∀ b ∈ blocks, b.lastAccessed ≤ n) :
    ∃ v, victimIndex blocks (n + 1) = some v ∧ v < blocks.length := by
  unfold victimIndex
  cases hinv : findInvalid blocks 0 with
  | some j =>
    obtain ⟨k, b, hj, hk, -, -⟩ := findInvalid_some blocks 0 j hinv
    refine ⟨j, rfl, ?_⟩
    have := (List.getElem?_eq_some_iff.1 hk).1
    omega
  | none =>
    simp only
    rcases findOldest_spec blocks 0 (n + 1) none with ⟨-, hall⟩ | ⟨k, b, hr, hk, -, -, -⟩
    · exfalso
      obtain ⟨b, hb⟩ := List.exists_mem_of_ne_nil blocks hne
      have h1 := hall b hb
      have h2 := htime b hb
      omega
    · refine ⟨0 + k, hr, ?_⟩
      have := (List.getElem?_eq_some_iff.1 hk).1
      omega

theorem create_state (p : Params) (s : SimulationState) :
    (create p s).2 =
      ⟨some (List.replicate (loopCount (configOf p).numSets)
          (List.replicate (waysOf (configOf p)) emptyBlock)), 0, 0, 0, some (configOf p)⟩ := by
  rfl

theorem shaped_create (p : Params) (s : SimulationState) :
    Shaped (configOf p) (create p s).2 := by
  rw [create_state]
  refine ⟨rfl, _, rfl, by simp, ?_⟩
  intro blocks hb
  obtain ⟨-, rfl⟩ := List.mem_replicate.1 hb
  refine ⟨by simp, ?_⟩
  intro b hb
  obtain ⟨-, rfl⟩ := List.mem_replicate.1 hb
  simp [emptyBlock]

theorem balanced_create (p : Params) (s : SimulationState) : Balanced (create p s).2 := by
  rw [create_state]
  simp [Balanced]

theorem jsIndex_some {α : Type} (xs : List α) (i : Int) (x : α) (h : jsIndex xs i = some x) :
    0 ≤ i ∧ xs[i.toNat]? = some x := by
  cases i with
  | ofNat n => simpa [jsIndex] using h
  | negSucc n => simp [jsIndex] at h

theorem mem_storeAt (blocks : List Block) (v : Option Nat) (nb b : Block)
    (h : b ∈ storeAt blocks v nb) : b ∈ blocks ∨ b = nb := by
  cases v with
  | none => exact Or.inl h
  | some i => exact List.mem_or_eq_of_mem_set h

theorem length_storeAt (blocks : List Block) (v : Option Nat) (nb : Block) :
    (storeAt blocks v nb).length = blocks.length := by
  cases v <;> simp [storeAt]

theorem mem_modifyAt (f : Block → Block) (blocks : List Block) (i : Nat) (b : Block)
    (h : b ∈ modifyAt f blocks i) : b ∈ blocks ∨ ∃ c ∈ blocks, b = f c := by
  induction blocks generalizing i with
  | nil => simp [modifyAt] at h
  | cons x xs ih =>
    cases i with
    | zero =>
      simp only [modifyAt, List.mem_cons] at h
      rcases h with rfl | h
      · exact Or.inr ⟨x, by simp, rfl⟩
      · exact Or.inl (by simp [h])
    | succ i =>
      simp only [modifyAt, List.mem_cons] at h
      rcases h with rfl | h
      · exact Or.inl (by simp)
      · rcases ih i h with h1 | ⟨c, hc, rfl⟩
        · exact Or.inl (by simp [h1])
        · exact Or.inr ⟨c, by simp [hc], rfl⟩

theorem touch_lastAccessed (op wp : String) (n : Nat) (b : Block) :
    (touch op wp n b).lastAccessed = n := by
  unfold touch
  split <;> rfl

theorem touch_valid (op wp : String) (n : Nat) (b : Block) :
    (touch op wp n b).valid = b.valid := by
  unfold touch
  split <;> rfl

theorem touch_tag (op wp : String) (n : Nat) (b : Block) :
    (touch op wp n b).tag = b.tag := by
  unfold touch
  split <;> rfl

theorem touch_dirty (op wp : String) (n : Nat) (b : Block) :
    (touch op wp n b).dirty = (b.dirty || decide (op = "WRITE" ∧ wp = "WRITE_BACK")) := by
  unfold touch
  split
  · rename_i h; simp [h]
  · rename_i h; simp [h]

theorem shaped_access (cfg : CacheConfig) (p : Params) (s : SimulationState)
    (h : Shaped cfg s) : Shaped cfg (access p s).2 := by
  obtain ⟨hcfg, c, hc, hlen, hsets⟩ := h
  cases hset : jsIndex c (setIndexOf cfg p.address) with
  | none =>
    rw [access_no_set p s c cfg hc hcfg hset]
    refine ⟨hcfg, c, hc, hlen, ?_⟩
    intro blocks hb
    refine ⟨(hsets blocks hb).1, ?_⟩
    intro b hbb
    have := (hsets blocks hb).2 b hbb
    simp only
    omega
  | some blocks =>
    have hmem : blocks ∈ c := List.getElem?_mem (jsIndex_some c _ blocks hset).2
    cases hhit : findHit (tagOf cfg p.address) blocks 0 with
    | some i =>
      rw [access_hit p s c cfg blocks i hc hcfg hset hhit]
      refine ⟨rfl, _, rfl, by simp [hlen], ?_⟩
      intro bl hbl
      rcases List.mem_or_eq_of_mem_set hbl with hbl | rfl
      · refine ⟨(hsets bl hbl).1, ?_⟩
        intro b hbb
        have := (hsets bl hbl).2 b hbb
        simp only
        omega
      · refine ⟨by rw [length_modifyAt]; exact (hsets blocks hmem).1, ?_⟩
        intro b hbb
        simp only
        rcases mem_modifyAt _ _ _ _ hbb with hb1 | ⟨x, -, rfl⟩
        · have := (hsets blocks hmem).2 b hb1
          omega
        · rw [touch_lastAccessed]
    | none =>
      rw [access_miss p s c cfg blocks hc hcfg hset hhit]
      refine ⟨rfl, _, rfl, by simp [hlen], ?_⟩
      intro bl hbl
      rcases List.mem_or_eq_of_mem_set hbl with hbl | rfl
      · refine ⟨(hsets bl hbl).1, ?_⟩
        intro b hbb
        have := (hsets bl hbl).2 b hbb
        simp only
        omega
      · refine ⟨by rw [length_storeAt]; exact (hsets blocks hmem).1, ?_⟩
        intro b hbb
        simp only
        rcases mem_storeAt _ _ _ _ hbb with hb1 | rfl
        · have := (hsets blocks hmem).2 b hb1
          omega
        · simp [installed]

theorem shaped_reset (cfg : CacheConfig) (s : SimulationState)
    (h : Shaped cfg s) : Shaped cfg (reset s).2 := by
  obtain ⟨hcfg, c, hc, hlen, hsets⟩ := h
  unfold reset
  rw [hc]
  refine ⟨hcfg, _, rfl, by simp [hlen], ?_⟩
  intro bl hbl
  obtain ⟨blocks, hb, rfl⟩ := List.mem_map.1 hbl
  refine ⟨by simp [(hsets blocks hb).1], ?_⟩
  intro b hbb
  obtain ⟨x, -, rfl⟩ := List.mem_map.1 hbb
  simp [emptyBlock]

theorem shaped_run (cfg : CacheConfig) (call : Call) (s : SimulationState)
    (h : Shaped cfg s) : Shaped cfg (call.run s).2 := by
  cases call with
  | access p => simp only [Call.run, simulateResponse_access]; exact shaped_access cfg p s h
  | reset => simp only [Call.run, simulateResponse_reset]; exact shaped_reset cfg s h

theorem shaped_runCalls (cfg : CacheConfig) (calls : List Call) (s : SimulationState)
    (h : Shaped cfg s) : Shaped cfg (runCalls calls s) := by
  induction calls generalizing s with
  | nil => exact h
  | cons c cs ih => exact ih _ (shaped_run cfg c s h)

theorem balanced_access (p : Params) (s : SimulationState) (r : Response)
    (h : Balanced s) (hr : (access p s).1 = Outcome.returned r) : Balanced (access p s).2 := by
  cases hc : s.cache with
  | none => rw [access_no_cache p s hc]; exact h
  | some c =>
    cases hcfg : s.cacheConfig with
    | none =>
      exfalso
      unfold access at hr
      simp only [hc, hcfg] at hr
      cases hr
    | some cfg =>
      cases hset : jsIndex c (setIndexOf cfg p.address) with
      | none =>
        rw [access_no_set p s c cfg hc hcfg hset] at hr
        cases hr
      | some blocks =>
        cases hhit : findHit (tagOf cfg p.address) blocks 0 with
        | some i =>
          rw [access_hit p s c cfg blocks i hc hcfg hset hhit]
          unfold Balanced at *
          simp only
          omega
        | none =>
          rw [access_miss p s c cfg blocks hc hcfg hset hhit]
          unfold Balanced at *
          simp only
          omega

theorem balanced_reset (s : SimulationState) (h : Balanced s) : Balanced (reset s).2 := by
  unfold reset
  cases hc : s.cache with
  | none => exact h
  | some c => simp [Balanced]

theorem balanced_runReturning (calls : List Call) (s t : SimulationState)
    (h : Balanced s) (hrun : runReturning calls s = some t) : Balanced t := by
  induction calls generalizing s with
  | nil =>
    simp only [runReturning, Option.some.injEq] at hrun
    subst hrun
    exact h
  | cons c cs ih =>
    unfold runReturning at hrun
    cases ho : (c.run s).1 with
    | threw => rw [ho] at hrun; cases hrun
    | returned r =>
      rw [ho] at hrun
      simp only at hrun
      refine ih _ ?_ hrun
      cases c with
      | access p =>
        simp only [Call.run, simulateResponse_access] at ho ⊢
        exact balanced_access p s r h ho
      | reset =>
        simp only [Call.run, simulateResponse_reset]
        exact balanced_reset s h

theorem halvings_two_pow (k fuel : Nat) (h : k ≤ fuel) : halvings fuel (2 ^ k) = k := by
  induction k generalizing fuel with
  | zero => cases fuel <;> simp [halvings]
  | succ k ih =>
    cases fuel with
    | zero => omega
    | succ f =>
      have h2 : ¬ (2 ^ (k + 1) < 2) := by
        have : 0 < 2 ^ k := Nat.two_pow_pos _
        rw [pow_succ]; omega
      have h3 : 2 ^ (k + 1) / 2 = 2 ^ k := by
        rw [pow_succ]; simp
      simp only [halvings, h2, if_false, h3]
      rw [ih f (by omega)]

theorem floorLog2_two_pow (k : Nat) : floorLog2 (2 ^ k) = k :=
  halvings_two_pow k (2 ^ k) (Nat.le_of_lt (Nat.lt_two_pow k))

theorem shiftCount_lt (n : Log2) : shiftCount n < 32 := by
  cases n with
  | nonFinite => simp [shiftCount]
  | ofPos n d =>
    simp only [shiftCount]
    have h1 := Int.emod_lt_of_pos (truncLog2 n d) (show (0 : Int) < 32 by decide)
    have h2 := Int.emod_nonneg (truncLog2 n d) (show (32 : Int) ≠ 0 by decide)
    omega

theorem bitAnd_mask (w m u : Nat) (h : m ≤ w) : bitAnd w u (2 ^ m - 1) = u % 2 ^ m := by
  induction w generalizing m u with
  | zero =>
    have : m = 0 := by omega
    subst this
    simp [bitAnd, Nat.mod_one]
  | succ w ih =>
    cases m with
    | zero =>
      have := ih 0 (u / 2) (by omega)
      simp only [pow_zero, Nat.sub_self] at this
      simp [bitAnd, this, Nat.mod_one]
    | succ m =>
      have hpos : 0 < 2 ^ m := Nat.two_pow_pos _
      have h1 : (2 ^ (m + 1) - 1) % 2 = 1 := by rw [pow_succ]; omega
      have h2 : (2 ^ (m + 1) - 1) / 2 = 2 ^ m - 1 := by rw [pow_succ]; omega
      simp only [bitAnd, h1, h2, and_true]
      rw [ih m (u / 2) (by omega), pow_succ', Nat.mod_mul]
      rcases Nat.mod_two_eq_zero_or_one u with h0 | h0 <;> simp [h0]

theorem toUint32_mask (m : Nat) (h : m < 32) :
    toUint32 (toInt32 (toInt32 1 * 2 ^ m) - 1) = 2 ^ m - 1 := by
  interval_cases m <;> decide

theorem jsAnd_mask (x : Int) (n : Log2) :
    jsAnd x (jsShl 1 n - 1) = ((toUint32 x % 2 ^ shiftCount n : Nat) : Int) := by
  have hlt := shiftCount_lt n
  unfold jsAnd jsShl
  rw [toUint32_mask _ hlt, bitAnd_mask 32 _ _ (by omega)]
  have h1 : toUint32 x % 2 ^ shiftCount n < 2 ^ shiftCount n :=
    Nat.mod_lt _ (Nat.two_pow_pos _)
  have h2 : 2 ^ shiftCount n ≤ 2 ^ 31 := Nat.pow_le_pow_right (by decide) (by omega)
  have h3 : toUint32 ((toUint32 x % 2 ^ shiftCount n : Nat) : Int) = toUint32 x % 2 ^ shiftCount n := by
    unfold toUint32
    have : (((x % 4294967296).toNat % 2 ^ shiftCount n : Nat) : Int) % 4294967296
        = (((x % 4294967296).toNat % 2 ^ shiftCount n : Nat) : Int) := by
      apply Int.emod_eq_of_lt
      · exact Int.ofNat_nonneg _
      · have := h1; unfold toUint32 at this; omega
    rw [this]
    omega
  unfold toInt32
  rw [h3]
  have : toUint32 x % 2 ^ shiftCount n < 2147483648 := by omega
  simp [this]

theorem validConfig_configOf (p : Params) (h : ValidGeometry p) : ValidConfig (configOf p) := by
  obtain ⟨b, a, k, hb, ha, hk⟩ := h
  have hb0 : (2 : Int) ^ b ≠ 0 := pow_ne_zero _ (by decide)
  have ha0 : (2 : Int) ^ a ≠ 0 := pow_ne_zero _ (by decide)
  have hk0 : (2 : Int) ^ (b + a + k) ≠ 0 := pow_ne_zero _ (by decide)
  refine ⟨b, a, k, ?_, ?_, ?_, ?_⟩ <;>
    simp [configOf, parseIntOr, hb, ha, hk, hb0, ha0, hk0]

theorem toNat_two_pow (k : Nat) : ((2 : Int) ^ k).toNat = 2 ^ k := by
  have : (2 : Int) ^ k = ((2 ^ k : Nat) : Int) := by push_cast; rfl
  rw [this]
  exact Int.toNat_natCast _

theorem natAbs_two_pow (k : Nat) : ((2 : Int) ^ k).natAbs = 2 ^ k := by
  rw [Int.natAbs_pow]; rfl

theorem numSets_geometry (cfg : CacheConfig) (b a k : Nat)
    (hb : cfg.blockSize = 2 ^ b) (ha : cfg.associativity = 2 ^ a)
    (hk : cfg.cacheSize = 2 ^ (b + a + k))
    (hn : cfg.numSets = ⟨cfg.cacheSize, cfg.blockSize * cfg.associativity⟩) :
    loopCount cfg.numSets = 2 ^ k ∧ waysOf cfg = 2 ^ a ∧
      Math_log2 cfg.numSets = Log2.ofPos (2 ^ (b + a + k)) (2 ^ (b + a)) ∧
      Math_log2 (Frac.ofInt cfg.blockSize) = Log2.ofPos (2 ^ b) 1 := by
  have hden : (0 : Int) < 2 ^ (b + a) := pow_pos (by decide) _
  have hnum : (0 : Int) < 2 ^ (b + a + k) := pow_pos (by decide) _
  have hbp : (0 : Int) < 2 ^ b := pow_pos (by decide) _
  have hap : (0 : Int) < 2 ^ a := pow_pos (by decide) _
  have hmul : (2 : Int) ^ b * 2 ^ a = 2 ^ (b + a) := by rw [pow_add]
  refine ⟨?_, ?_, ?_, ?_⟩
  · rw [hn, hb, ha, hk, hmul]
    simp only [loopCount, hden, hnum, if_true]
    have h0 : (2 : Int) ^ (b + a + k) + 2 ^ (b + a) - 1
        = (2 ^ (b + a) - 1) + 2 ^ k * 2 ^ (b + a) := by rw [pow_add]; ring
    rw [h0, Int.add_mul_ediv_right _ _ (ne_of_gt hden),
      Int.ediv_eq_zero_of_lt (by omega) (by omega), zero_add]
    exact toNat_two_pow k
  · have hne : (2 : Int) ^ a ≠ 0 := ne_of_gt hap
    simp only [waysOf, ha, hne, if_false, loopCount, Frac.ofInt]
    simp only [hap, if_true, Int.add_sub_cancel, Int.ediv_one]
    simp
    exact toNat_two_pow a
  · rw [hn, hb, ha, hk, hmul]
    simp only [Math_log2, hnum, hden, and_self, true_or, if_true, natAbs_two_pow]
  · rw [hb]
    simp only [Math_log2, Frac.ofInt, hbp, true_and, natAbs_two_pow]
    simp

theorem shiftCount_geometry (b a k : Nat) :
    shiftCount (Log2.ofPos (2 ^ (b + a + k)) (2 ^ (b + a))) = k % 32 ∧
    shiftCount (Log2.ofPos (2 ^ b) 1) = b % 32 ∧
    shiftCount ((Log2.ofPos (2 ^ b) 1).add (Log2.ofPos (2 ^ (b + a + k)) (2 ^ (b + a))))
      = (b + k) % 32 := by
  have hle : 2 ^ (b + a) ≤ 2 ^ (b + a + k) := Nat.pow_le_pow_right (by decide) (by omega)
  have hdiv : 2 ^ (b + a + k) / 2 ^ (b + a) = 2 ^ k := by
    rw [pow_add (2 : Nat) (b + a) k]
    exact Nat.mul_div_cancel_left _ (Nat.two_pow_pos _)
  have hle2 : 1 * 2 ^ (b + a) ≤ 2 ^ b * 2 ^ (b + a + k) := by
    have : 1 ≤ 2 ^ b := Nat.two_pow_pos _
    exact Nat.mul_le_mul this hle
  have hdiv2 : 2 ^ b * 2 ^ (b + a + k) / (1 * 2 ^ (b + a)) = 2 ^ (b + k) := by
    have : 2 ^ b * 2 ^ (b + a + k) = 2 ^ (b + a) * 2 ^ (b + k) := by
      rw [← pow_add, ← pow_add]; congr 1; omega
    rw [this, one_mul]
    exact Nat.mul_div_cancel_left _ (Nat.two_pow_pos _)
  refine ⟨?_, ?_, ?_⟩
  · simp only [shiftCount, truncLog2, hle, if_true, hdiv, floorLog2_two_pow]
    omega
  · have : 1 ≤ 2 ^ b := Nat.two_pow_pos _
    simp only [shiftCount, truncLog2, this, if_true, Nat.div_one, floorLog2_two_pow]
    omega
  · simp only [Log2.add, shiftCount, truncLog2, hle2, if_true, hdiv2, floorLog2_two_pow]
    omega

theorem setIndexOf_lt (cfg : CacheConfig) (a : Option Int) (h : ValidConfig cfg) :
    ∃ n : Nat, setIndexOf cfg a = Int.ofNat n ∧ n < loopCount cfg.numSets := by
  obtain ⟨b, w, k, hb, hw, hk, hn⟩ := h
  obtain ⟨hcount, -, hlog, -⟩ := numSets_geometry cfg b w k hb hw hk hn
  refine ⟨_, jsAnd_mask _ _, ?_⟩
  rw [hcount, hlog, (shiftCount_geometry b w k).1]
  calc _ < 2 ^ (k % 32) := Nat.mod_lt _ (Nat.two_pow_pos _)
    _ ≤ 2 ^ k := Nat.pow_le_pow_right (by decide) (Nat.mod_le _ _)

theorem selected_of_valid (cfg : CacheConfig) (s : SimulationState) (a : Option Int)
    (hv : ValidConfig cfg) (hs : Shaped cfg s) :
    ∃ cache blocks, s.cache = some cache ∧ jsIndex cache (setIndexOf cfg a) = some blocks ∧
      blocks ≠ [] ∧ ∀ b ∈ blocks, b.lastAccessed ≤ s.accessCount := by
  obtain ⟨-, cache, hc, hlen, hsets⟩ := hs
  obtain ⟨n, hn, hlt⟩ := setIndexOf_lt cfg a hv
  have hlt2 : n < cache.length := by omega
  obtain ⟨blocks, hbl⟩ : ∃ blocks, cache[n]? = some blocks :=
    ⟨_, List.getElem?_eq_getElem hlt2⟩
  have hmem : blocks ∈ cache := List.getElem?_mem hbl
  refine ⟨cache, blocks, hc, ?_, ?_, (hsets blocks hmem).2⟩
  · rw [hn]
    simpa [jsIndex] using hbl
  · obtain ⟨b, w, k, hb, hw, hk, hnum⟩ := hv
    have h1 := (hsets blocks hmem).1
    rw [(numSets_geometry cfg b w k hb hw hk hnum).2.1] at h1
    intro h0
    rw [h0] at h1
    have : 0 < 2 ^ w := Nat.two_pow_pos _
    simp at h1
    omega

theorem access_returns (p : Params) (s : SimulationState) (cache : List (List Block))
    (cfg : CacheConfig) (blocks : List Block)
    (hc : s.cache = some cache) (hcfg : s.cacheConfig = some cfg)
    (hset : jsIndex cache (setIndexOf cfg p.address) = some blocks) :
    ∃ r, (access p s).1 = Outcome.returned r := by
  cases hhit : findHit (tagOf cfg p.address) blocks 0 with
  | some i => rw [access_hit p s cache cfg blocks i hc hcfg hset hhit]; exact ⟨_, rfl⟩
  | none => rw [access_miss p s cache cfg blocks hc hcfg hset hhit]; exact ⟨_, rfl⟩

theorem run_returns (cfg : CacheConfig) (call : Call) (s : SimulationState)
    (hv : ValidConfig cfg) (hs : Shaped cfg s) : ∃ r, (call.run s).1 = Outcome.returned r := by
  cases call with
  | access p =>
    obtain ⟨cache, blocks, hc, hset, -, -⟩ := selected_of_valid cfg s p.address hv hs
    simp only [Call.run, simulateResponse_access]
    exact access_returns p s cache cfg blocks hc hs.1 hset
  | reset =>
    simp only [Call.run, simulateResponse_reset]
    unfold reset
    cases s.cache <;> exact ⟨_, rfl⟩

theorem runReturning_of_valid (cfg : CacheConfig) (calls : List Call) (s : SimulationState)
    (hv : ValidConfig cfg) (hs : Shaped cfg s) :
    runReturning calls s = some (runCalls calls s) := by
  induction calls generalizing s with
  | nil => rfl
  | cons c cs ih =>
    obtain ⟨r, hr⟩ := run_returns cfg c s hv hs
    unfold runReturning runCalls
    rw [hr]
    exact ih _ (shaped_run cfg c s hs)

theorem createdFrom_eq (p : Params) (s : SimulationState) : createdFrom p s = (create p s).2 := by
  unfold createdFrom
  rw [simulateResponse_create]

theorem selectedSet_some (s : SimulationState) (a : Option Int) (blocks : List Block)
    (h : selectedSet s a = some blocks) :
    ∃ cache cfg, s.cache = some cache ∧ s.cacheConfig = some cfg ∧
      jsIndex cache (setIndexOf cfg a) = some blocks ∧ selectedTag s a = tagOf cfg a := by
  unfold selectedSet at h
  cases hc : s.cache with
  | none => simp [hc] at h
  | some cache =>
    cases hcfg : s.cacheConfig with
    | none => simp [hc, hcfg] at h
    | some cfg =>
      simp only [hc, hcfg] at h
      exact ⟨cache, cfg, rfl, rfl, h, by simp [selectedTag, hcfg]⟩

theorem hit_or_miss_ne :
    ("MISS" : String) ≠ "HIT" ∧ ("MISS" : String) ≠ "WRITE_HIT" ∧
    ("WRITE_MISS" : String) ≠ "HIT" ∧ ("WRITE_MISS" : String) ≠ "WRITE_HIT" := by
  decide

theorem toUint32_natCast (n : Nat) (h : n < 4294967296) : toUint32 (n : Int) = n := by
  unfold toUint32
  omega

theorem toInt32_natCast (n : Nat) (h : n < 2147483648) : toInt32 (n : Int) = n := by
  unfold toInt32
  rw [toUint32_natCast n (by omega)]
  simp [h]

theorem bitOr_zero_right (w t : Nat) : bitOr w t 0 = t % 2 ^ w := by
  induction w generalizing t with
  | zero => simp [bitOr, Nat.mod_one]
  | succ w ih =>
    simp only [bitOr, Nat.zero_mod, Nat.zero_div, ih, pow_succ', Nat.mod_mul]
    rcases Nat.mod_two_eq_zero_or_one t with h0 | h0 <;> simp [h0]

theorem bitOr_disjoint (m w t y : Nat) (hy : y < 2 ^ m) (hlt : 2 ^ m * t + y < 2 ^ w) :
    bitOr w (2 ^ m * t) y = 2 ^ m * t + y := by
  induction m generalizing w t y with
  | zero =>
    have : y = 0 := by simpa using hy
    subst this
    rw [bitOr_zero_right]
    simp only [pow_zero, one_mul, add_zero] at hlt ⊢
    exact Nat.mod_eq_of_lt hlt
  | succ m ih =>
    cases w with
    | zero =>
      have hp : 0 < 2 ^ (m + 1) := Nat.two_pow_pos _
      simp only [pow_zero, Nat.lt_one_iff, Nat.add_eq_zero] at hlt
      simp [bitOr, hlt.1, hlt.2]
    | succ w =>
      have h1 : 2 ^ (m + 1) * t % 2 = 0 := by rw [pow_succ']; simp [Nat.mul_assoc]
      have h2 : 2 ^ (m + 1) * t / 2 = 2 ^ m * t := by
        rw [pow_succ', Nat.mul_assoc]; simp
      have h3 : y / 2 < 2 ^ m := by rw [pow_succ'] at hy; omega
      have h4 : 2 ^ m * t + y / 2 < 2 ^ w := by
        rw [pow_succ'] at hlt
        rw [pow_succ', Nat.mul_assoc] at hlt
        omega
      simp only [bitOr, h1, h2, ih w t (y / 2) h3 h4]
      rw [pow_succ', Nat.mul_assoc]
      rcases Nat.mod_two_eq_zero_or_one y with h0 | h0 <;> simp [h0] <;> omega

theorem truncLog2_pow2 (e d : Nat) (hd : 0 < d) : truncLog2 (2 ^ e * d) d = e := by
  have h1 : d ≤ 2 ^ e * d := Nat.le_mul_of_pos_left d (Nat.two_pow_pos e)
  have h2 : 2 ^ e * d / d = 2 ^ e := Nat.mul_div_cancel _ hd
  simp [truncLog2, h1, h2, floorLog2_two_pow]

theorem log2_pow2 (q : Frac) (e : Nat) (hd : 0 < q.den) (hn : q.num = 2 ^ e * q.den) :
    Math_log2 q = Log2.ofPos (2 ^ e * q.den.natAbs) q.den.natAbs := by
  have hnum : 0 < q.num := by
    rw [hn]; exact Int.mul_pos (pow_pos (by decide) _) hd
  simp only [Math_log2, hnum, hd, and_self, true_or, if_true]
  rw [hn, Int.natAbs_mul, natAbs_two_pow]

theorem decode_shifts (cfg : CacheConfig) (ob ib : Nat) (hb : cfg.blockSize = 2 ^ ob)
    (hd : 0 < cfg.numSets.den) (hn : cfg.numSets.num = 2 ^ ib * cfg.numSets.den) :
    shiftCount (Math_log2 (Frac.ofInt cfg.blockSize)) = ob % 32 ∧
    shiftCount (Math_log2 cfg.numSets) = ib % 32 ∧
    shiftCount ((Math_log2 (Frac.ofInt cfg.blockSize)).add (Math_log2 cfg.numSets))
      = (ob + ib) % 32 := by
  have hD : 0 < cfg.numSets.den.natAbs := Int.natAbs_pos.2 (ne_of_gt hd)
  have h1 : Math_log2 (Frac.ofInt cfg.blockSize) = Log2.ofPos (2 ^ ob * 1) 1 := by
    have := log2_pow2 (Frac.ofInt cfg.blockSize) ob (by simp [Frac.ofInt])
      (by simp [Frac.ofInt, hb])
    simpa [Frac.ofInt] using this
  have h2 := log2_pow2 cfg.numSets ib hd hn
  rw [h1, h2]
  refine ⟨?_, ?_, ?_⟩
  · simp only [shiftCount, truncLog2_pow2 ob 1 (by decide)]
    omega
  · simp only [shiftCount, truncLog2_pow2 ib _ hD]
    omega
  · have h3 : 2 ^ ob * 1 * (2 ^ ib * cfg.numSets.den.natAbs)
        = 2 ^ (ob + ib) * (1 * cfg.numSets.den.natAbs) := by
      rw [pow_add]; ring
    simp only [Log2.add, shiftCount, h3, truncLog2_pow2 (ob + ib) _ (by omega : 0 < 1 * cfg.numSets.den.natAbs)]
    omega

theorem jsShr_natCast (A : Nat) (n : Log2) (h : A < 2147483648) :
    jsShr (A : Int) n = ((A / 2 ^ shiftCount n : Nat) : Int) := by
  unfold jsShr
  rw [toInt32_natCast A h]
  push_cast
  rfl

theorem jsShl_natCast (A : Nat) (n : Log2) (h : A * 2 ^ shiftCount n < 2147483648) :
    jsShl (A : Int) n = ((A * 2 ^ shiftCount n : Nat) : Int) := by
  have hA : A < 2147483648 := by
    have : 0 < 2 ^ shiftCount n := Nat.two_pow_pos _
    calc A = A * 1 := (Nat.mul_one A).symm
      _ ≤ A * 2 ^ shiftCount n := Nat.mul_le_mul_left A this
      _ < 2147483648 := h
  unfold jsShl
  rw [toInt32_natCast A hA]
  have : (A : Int) * 2 ^ shiftCount n = ((A * 2 ^ shiftCount n : Nat) : Int) := by
    push_cast; rfl
  rw [this, toInt32_natCast _ h]

theorem jsOr_disjoint (m t y : Nat) (hy : y < 2 ^ m) (hlt : 2 ^ m * t + y < 2147483648) :
    jsOr ((2 ^ m * t : Nat) : Int) (y : Int) = ((2 ^ m * t + y : Nat) : Int) := by
  unfold jsOr
  rw [toUint32_natCast _ (by omega), toUint32_natCast _ (by omega),
    bitOr_disjoint m 32 t y hy (by omega), toInt32_natCast _ hlt]

theorem jsIndex_set {α : Type} (xs : List α) (i : Int) (x y : α)
    (h : jsIndex xs i = some x) : jsIndex (xs.set i.toNat y) i = some y := by
  cases i with
  | ofNat n =>
    simp only [jsIndex, List.get?_eq_getElem?] at h ⊢
    have hlt := (List.getElem?_eq_some_iff.1 h).1
    simp [List.getElem?_set, hlt]
  | negSucc n => simp [jsIndex] at h

theorem holds_modifyAt_touch (op wp : String) (n : Nat) (tag : Int) (blocks : List Block)
    (i : Nat) (h : findHit tag blocks 0 = some i) :
    Holds (modifyAt (touch op wp n) blocks i) tag := by
  obtain ⟨k, b, hk, hb, hv, ht, -⟩ := findHit_some tag blocks 0 i h
  have hik : i = k := by omega
  subst hik
  refine ⟨touch op wp n b, ?_, by rw [touch_valid]; exact hv, by rw [touch_tag]; exact ht⟩
  apply List.getElem?_mem (n := i)
  rw [getElem?_modifyAt, if_pos rfl, hb]
  rfl

theorem holds_storeAt (op wp : String) (n v : Nat) (tag : Int) (blocks : List Block)
    (hv : v < blocks.length) :
    Holds (storeAt blocks (some v) (installed op wp tag n)) tag := by
  refine ⟨installed op wp tag n, ?_, rfl, rfl⟩
  apply List.getElem?_mem (n := v)
  simp [storeAt, List.getElem?_set, hv]

theorem access_then_resident (p : Params) (s : SimulationState) (cache : List (List Block))
    (cfg : CacheConfig) (blocks : List Block)
    (hc : s.cache = some cache) (hcfg : s.cacheConfig = some cfg)
    (hset : jsIndex cache (setIndexOf cfg p.address) = some blocks)
    (hne : blocks ≠ []) (htime : ∀ b ∈ blocks, b.lastAccessed ≤ s.accessCount) :
    ∃ blocks1, (access p s).2.cache
        = some (cache.set (setIndexOf cfg p.address).toNat blocks1) ∧
      (access p s).2.cacheConfig = some cfg ∧ Holds blocks1 (tagOf cfg p.address) := by
  cases hhit : findHit (tagOf cfg p.address) blocks 0 with
  | some i =>
    rw [access_hit p s cache cfg blocks i hc hcfg hset hhit]
    exact ⟨_, rfl, rfl, holds_modifyAt_touch _ _ _ _ _ _ hhit⟩
  | none =>
    rw [access_miss p s cache cfg blocks hc hcfg hset hhit]
    obtain ⟨v, hv, hvlt⟩ := victimIndex_some blocks s.accessCount hne htime
    refine ⟨_, rfl, rfl, ?_⟩
    rw [hv]
    exact holds_storeAt _ _ _ _ _ _ hvlt

theorem access_result_of_holds (p : Params) (s : SimulationState) (cache : List (List Block))
    (cfg : CacheConfig) (blocks : List Block)
    (hc : s.cache = some cache) (hcfg : s.cacheConfig = some cfg)
    (hset : jsIndex cache (setIndexOf cfg p.address) = some blocks)
    (hholds : Holds blocks (tagOf cfg p.address)) :
    (access p s).1.result? =
      some (if stringOr p.operation "READ" = "READ" then "HIT" else "WRITE_HIT") := by
  cases hhit : findHit (tagOf cfg p.address) blocks 0 with
  | some i =>
    rw [access_hit p s cache cfg blocks i hc hcfg hset hhit]
    rfl
  | none => exact absurd hholds ((findHit_none_iff _ _ 0).1 hhit)

theorem access_result_of_not_holds (p : Params) (s : SimulationState)
    (cache : List (List Block)) (cfg : CacheConfig) (blocks : List Block)
    (hc : s.cache = some cache) (hcfg : s.cacheConfig = some cfg)
    (hset : jsIndex cache (setIndexOf cfg p.address) = some blocks)
    (hno : ¬ Holds blocks (tagOf cfg p.address)) :
    (access p s).1.result? =
      some (if stringOr p.operation "READ" = "READ" then "MISS" else "WRITE_MISS") := by
  rw [access_miss p s cache cfg blocks hc hcfg hset ((findHit_none_iff _ _ 0).2 hno)]
  rfl

theorem not_resident_created (p : Params) (s0 : SimulationState) (a : Option Int) :
    ¬ Resident (createdFrom p s0) a := by
  rintro ⟨blocks, hsel, b, hb, hv, -⟩
  obtain ⟨cache, cfg, hc, -, hset, -⟩ := selectedSet_some _ a blocks hsel
  rw [createdFrom_eq, create_state] at hc
  simp only [Option.some.injEq] at hc
  subst hc
  have hmem := List.getElem?_mem (jsIndex_some _ _ blocks hset).2
  obtain ⟨-, rfl⟩ := List.mem_replicate.1 hmem
  obtain ⟨-, rfl⟩ := List.mem_replicate.1 hb
  simp [emptyBlock] at hv

theorem selectedSet_eq (s : SimulationState) (cache : List (List Block)) (cfg : CacheConfig)
    (a : Option Int) (hc : s.cache = some cache) (hcfg : s.cacheConfig = some cfg) :
    selectedSet s a = jsIndex cache (setIndexOf cfg a) := by
  simp [selectedSet, hc, hcfg]

theorem access_state (p : Params) (s : SimulationState) (cache : List (List Block))
    (cfg : CacheConfig) (blocks : List Block)
    (hc : s.cache = some cache) (hcfg : s.cacheConfig = some cfg)
    (hset : jsIndex cache (setIndexOf cfg p.address) = some blocks) :
    (access p s).2.cache = some (cache.set (setIndexOf cfg p.address).toNat
      (nextSet blocks (tagOf cfg p.address) (stringOr p.operation "READ") cfg.writePolicy
        (s.accessCount + 1))) ∧
    (access p s).2.cacheConfig = some cfg ∧
    (access p s).2.accessCount = s.accessCount + 1 := by
  unfold nextSet
  cases hhit : findHit (tagOf cfg p.address) blocks 0 with
  | some i =>
    rw [access_hit p s cache cfg blocks i hc hcfg hset hhit]
    exact ⟨rfl, rfl, rfl⟩
  | none =>
    rw [access_miss p s cache cfg blocks hc hcfg hset hhit]
    exact ⟨rfl, rfl, rfl⟩

theorem setIs_access (cfg : CacheConfig) (s : SimulationState) (a : Option Int) (n : Nat)
    (blocks : List Block) (p : Params) (h : SetIs cfg s a n blocks)
    (hidx : setIndexOf cfg p.address = setIndexOf cfg a) :
    SetIs cfg (simulateResponse "/access" p s).2 a (n + 1)
      (nextSet blocks (tagOf cfg p.address) (stringOr p.operation "READ") cfg.writePolicy
        (n + 1)) := by
  obtain ⟨hcfg, hn, hsel⟩ := h
  obtain ⟨cache, cfg1, hc, hcfg1, hset, -⟩ := selectedSet_some s a blocks hsel
  have : cfg1 = cfg := by rw [hcfg] at hcfg1; exact (Option.some.inj hcfg1).symm
  subst this
  rw [← hidx] at hset
  obtain ⟨h1, h2, h3⟩ := access_state p s cache cfg1 blocks hc hcfg hset
  rw [simulateResponse_access]
  refine ⟨h2, by rw [h3, hn], ?_⟩
  rw [selectedSet_eq _ _ cfg1 a h1 h2, ← hidx, ← hn]
  exact jsIndex_set cache _ blocks _ hset

theorem setIs_created (p0 : Params) (s0 : SimulationState) (a : Option Int)
    (hv : ValidGeometry p0) :
    SetIs (configOf p0) (createdFrom p0 s0) a 0
      (List.replicate (waysOf (configOf p0)) emptyBlock) := by
  have hs : Shaped (configOf p0) (createdFrom p0 s0) := by
    rw [createdFrom_eq]; exact shaped_create p0 s0
  obtain ⟨cache, blocks, hc, hset, -, -⟩ :=
    selected_of_valid (configOf p0) _ a (validConfig_configOf p0 hv) hs
  refine ⟨hs.1, by rw [createdFrom_eq, create_state], ?_⟩
  rw [selectedSet_eq _ cache _ a hc hs.1, hset]
  have hc2 := hc
  rw [createdFrom_eq, create_state] at hc2
  simp only [Option.some.injEq] at hc2
  subst hc2
  have hmem := List.getElem?_mem (jsIndex_some _ _ blocks hset).2
  obtain ⟨-, rfl⟩ := List.mem_replicate.1 hmem
  rfl

theorem read_A_B_A_C (cfg : CacheConfig) (s : SimulationState) (A B C : Option Int)
    (h : SetIs cfg s A 0 [emptyBlock, emptyBlock])
    (hB : setIndexOf cfg B = setIndexOf cfg A) (hC : setIndexOf cfg C = setIndexOf cfg A)
    (hAB : tagOf cfg A ≠ tagOf cfg B) (hAC : tagOf cfg A ≠ tagOf cfg C)
    (hBC : tagOf cfg B ≠ tagOf cfg C) :
    SetIs cfg
      (simulateResponse "/access" (accessParams C "READ")
        (simulateResponse "/access" (accessParams A "READ")
          (simulateResponse "/access" (accessParams B "READ")
            (simulateResponse "/access" (accessParams A "READ") s).2).2).2).2
      A 4 [⟨true, false, tagOf cfg A, 3⟩, ⟨true, false, tagOf cfg C, 4⟩] := by
  have hop : ∀ a, stringOr (accessParams a "READ").operation "READ" = "READ" := by
    intro a; rfl
  have hadr : ∀ a, (accessParams a "READ").address = a := fun _ => rfl
  have hnw : ¬ (("READ" : String) = "WRITE") := by decide
  have h1 := setIs_access cfg s A 0 _ (accessParams A "READ") h rfl
  rw [hop, hadr] at h1
  have e1 : nextSet [emptyBlock, emptyBlock] (tagOf cfg A) "READ" cfg.writePolicy (0 + 1)
      = [⟨true, false, tagOf cfg A, 1⟩, emptyBlock] := by
    simp [nextSet, findHit, emptyBlock, victimIndex, findInvalid, storeAt, installed, hnw]
  rw [e1] at h1
  have h2 := setIs_access cfg _ A _ _ (accessParams B "READ") h1 hB
  rw [hop, hadr] at h2
  have e2 : nextSet [⟨true, false, tagOf cfg A, 1⟩, emptyBlock] (tagOf cfg B) "READ"
      cfg.writePolicy (0 + 1 + 1)
      = [⟨true, false, tagOf cfg A, 1⟩, ⟨true, false, tagOf cfg B, 2⟩] := by
    simp [nextSet, findHit, emptyBlock, victimIndex, findInvalid, storeAt, installed, hnw, hAB]
  rw [e2] at h2
  have h3 := setIs_access cfg _ A _ _ (accessParams A "READ") h2 rfl
  rw [hop, hadr] at h3
  have e3 : nextSet [⟨true, false, tagOf cfg A, 1⟩, ⟨true, false, tagOf cfg B, 2⟩]
      (tagOf cfg A) "READ" cfg.writePolicy (0 + 1 + 1 + 1)
      = [⟨true, false, tagOf cfg A, 3⟩, ⟨true, false, tagOf cfg B, 2⟩] := by
    simp [nextSet, findHit, modifyAt, touch, hnw]
  rw [e3] at h3
  have h4 := setIs_access cfg _ A _ _ (accessParams C "READ") h3 hC
  rw [hop, hadr] at h4
  have e4 : nextSet [⟨true, false, tagOf cfg A, 3⟩, ⟨true, false, tagOf cfg B, 2⟩]
      (tagOf cfg C) "READ" cfg.writePolicy (0 + 1 + 1 + 1 + 1)
      = [⟨true, false, tagOf cfg A, 3⟩, ⟨true, false, tagOf cfg C, 4⟩] := by
    simp [nextSet, findHit, victimIndex, findInvalid, findOldest, storeAt, installed, hnw,
      hAC, hBC]
  rw [e4] at h4
  exact h4

theorem resident_iff_of_setIs (cfg : CacheConfig) (s : SimulationState) (A X : Option Int)
    (n : Nat) (blocks : List Block) (h : SetIs cfg s A n blocks)
    (hidx : setIndexOf cfg X = setIndexOf cfg A) :
    Resident s X ↔ Holds blocks (tagOf cfg X) := by
  obtain ⟨hcfg, -, hsel⟩ := h
  obtain ⟨cache, cfg1, hc, hcfg1, hset, -⟩ := selectedSet_some s A blocks hsel
  have : cfg1 = cfg := by rw [hcfg] at hcfg1; exact (Option.some.inj hcfg1).symm
  subst this
  have hselX : selectedSet s X = some blocks := by
    rw [selectedSet_eq s cache cfg1 X hc hcfg, hidx]; exact hset
  have htag : selectedTag s X = tagOf cfg1 X := by simp [selectedTag, hcfg]
  unfold Resident
  rw [hselX, htag]
  constructor
  · rintro ⟨bl, hbl, hh⟩
    cases hbl
    exact hh
  · intro hh
    exact ⟨blocks, rfl, hh⟩

theorem shaped_reachable (p0 : Params) (s0 : SimulationState) (calls : List Call) :
    Shaped (configOf p0) (runCalls calls (createdFrom p0 s0)) := by
  rw [createdFrom_eq]
  exact shaped_runCalls _ calls _ (shaped_create p0 s0)

theorem evict_oldest (p : Params) (s : SimulationState) (cfg : CacheConfig)
    (blocks : List Block) (hs : Shaped cfg s)
    (hsel : selectedSet s p.address = some blocks) (hne : blocks ≠ [])
    (hfull : ∀ b ∈ blocks, b.valid = true)
    (hmiss : ¬ Holds blocks (selectedTag s p.address)) :
    ∃ v old, blocks[v]? = some old ∧
      (∀ (m : Nat) (c : Block), blocks[m]? = some c → old.lastAccessed ≤ c.lastAccessed) ∧
      (∀ (m : Nat) (c : Block), m < v → blocks[m]? = some c →
        old.lastAccessed < c.lastAccessed) ∧
      selectedSet (simulateResponse "/access" p s).2 p.address =
        some (blocks.set v
          ⟨true, decide (stringOr p.operation "READ" = "WRITE" ∧ cfg.writePolicy = "WRITE_BACK"),
            selectedTag s p.address, s.accessCount + 1⟩) := by
  obtain ⟨cache, cfg1, hc, hcfg1, hset, htag⟩ := selectedSet_some s p.address blocks hsel
  have hcfg := hs.1
  have : cfg1 = cfg := by rw [hcfg] at hcfg1; exact (Option.some.inj hcfg1).symm
  subst this
  have htime : ∀ b ∈ blocks, b.lastAccessed ≤ s.accessCount := by
    obtain ⟨-, cache2, hc2, -, hsets⟩ := hs
    have : cache2 = cache := by rw [hc] at hc2; exact (Option.some.inj hc2).symm
    subst this
    exact (hsets blocks (List.getElem?_mem (jsIndex_some _ _ blocks hset).2)).2
  rw [htag] at hmiss ⊢
  have hhit := (findHit_none_iff _ _ 0).2 hmiss
  have hst := setIs_access cfg1 s p.address s.accessCount blocks p ⟨hcfg, rfl, hsel⟩ rfl
  have hinv : findInvalid blocks 0 = none := (findInvalid_none_iff blocks 0).2 hfull
  rcases findOldest_spec blocks 0 (s.accessCount + 1) none with
    ⟨-, hall⟩ | ⟨k, old, hr, hk, -, hmin, hfirst⟩
  · exfalso
    obtain ⟨b, hb⟩ := List.exists_mem_of_ne_nil blocks hne
    have h1 := hall b hb
    have h2 := htime b hb
    omega
  · refine ⟨k, old, hk, hmin, hfirst, ?_⟩
    rw [hst.2.2]
    simp only [nextSet, hhit, victimIndex, hinv, hr, storeAt, installed, Nat.zero_add]

theorem hit_effect (p : Params) (s : SimulationState) (cfg : CacheConfig)
    (blocks : List Block) (i : Nat) (hcfg : s.cacheConfig = some cfg)
    (hsel : selectedSet s p.address = some blocks)
    (hhit : findHit (selectedTag s p.address) blocks 0 = some i) :
    ∃ old, blocks[i]? = some old ∧ old.valid = true ∧ old.tag = selectedTag s p.address ∧
      selectedSet (simulateResponse "/access" p s).2 p.address =
        some (modifyAt (touch (stringOr p.operation "READ") cfg.writePolicy (s.accessCount + 1))
          blocks i) ∧
      (modifyAt (touch (stringOr p.operation "READ") cfg.writePolicy (s.accessCount + 1))
          blocks i)[i]? =
        some (touch (stringOr p.operation "READ") cfg.writePolicy (s.accessCount + 1) old) := by
  have htag : selectedTag s p.address = tagOf cfg p.address := by simp [selectedTag, hcfg]
  rw [htag] at hhit ⊢
  have hst := setIs_access cfg s p.address s.accessCount blocks p ⟨hcfg, rfl, hsel⟩ rfl
  obtain ⟨k, old, hk, hb, hv, ht, -⟩ := findHit_some _ blocks 0 i hhit
  have hik : i = k := by omega
  subst hik
  refine ⟨old, hb, hv, ht, ?_, ?_⟩
  · rw [hst.2.2]
    simp only [nextSet, hhit]
  · rw [getElem?_modifyAt, if_pos rfl, hb]
    rfl

theorem waysOf_two (p0 : Params) (h : p0.associativity = some 2) :
    waysOf (configOf p0) = 2 := by
  simp [waysOf, configOf, h, parseIntOr, loopCount, Frac.ofInt]

theorem abac_two_way (p0 : Params) (s0 : SimulationState) (A B C : Option Int)
    (hv : ValidGeometry p0) (hw : p0.associativity = some 2)
    (hB : setIndexOf (configOf p0) B = setIndexOf (configOf p0) A)
    (hC : setIndexOf (configOf p0) C = setIndexOf (configOf p0) A)
    (hAB : tagOf (configOf p0) A ≠ tagOf (configOf p0) B)
    (hAC : tagOf (configOf p0) A ≠ tagOf (configOf p0) C)
    (hBC : tagOf (configOf p0) B ≠ tagOf (configOf p0) C) :
    selectedSet (afterRead C (afterRead A (afterRead B (afterRead A (createdFrom p0 s0))))) A =
      some [⟨true, false, tagOf (configOf p0) A, 3⟩, ⟨true, false, tagOf (configOf p0) C, 4⟩] ∧
    Resident (afterRead C (afterRead A (afterRead B (afterRead A (createdFrom p0 s0))))) A ∧
    Resident (afterRead C (afterRead A (afterRead B (afterRead A (createdFrom p0 s0))))) C ∧
    ¬ Resident (afterRead C (afterRead A (afterRead B (afterRead A (createdFrom p0 s0))))) B := by
  have h0 := setIs_created p0 s0 A hv
  rw [waysOf_two p0 hw] at h0
  have h4 := read_A_B_A_C (configOf p0) _ A B C h0 hB hC hAB hAC hBC
  refine ⟨h4.2.2, ?_, ?_, ?_⟩
  · exact (resident_iff_of_setIs _ _ A A _ _ h4 rfl).2 ⟨_, List.mem_cons_self _ _, rfl, rfl⟩
  · exact (resident_iff_of_setIs _ _ A C _ _ h4 hC).2
      ⟨_, List.mem_cons_of_mem _ (List.mem_cons_self _ _), rfl, rfl⟩
  · intro hres
    obtain ⟨b, hb, -, ht⟩ := (resident_iff_of_setIs _ _ A B _ _ h4 hB).1 hres
    simp only [List.mem_cons, List.mem_singleton, List.not_mem_nil, or_false] at hb
    rcases hb with rfl | rfl
    · exact hAB ht
    · exact hBC ht.symm

theorem miss_effect (p : Params) (s : SimulationState) (cfg : CacheConfig)
    (blocks : List Block) (hcfg : s.cacheConfig = some cfg)
    (hsel : selectedSet s p.address = some blocks)
    (hmiss : ¬ Holds blocks (selectedTag s p.address)) :
    selectedSet (afterAccess p s) p.address =
        some (storeAt blocks (victimIndex blocks (s.accessCount + 1))
          (installed (stringOr p.operation "READ") cfg.writePolicy (selectedTag s p.address)
            (s.accessCount + 1))) ∧
      (simulateResponse "/access" p s).1.result? =
        some (if stringOr p.operation "READ" = "READ" then "MISS" else "WRITE_MISS") ∧
      (afterAccess p s).missCount = s.missCount + 1 ∧
      (afterAccess p s).hitCount = s.hitCount := by
  have htag : selectedTag s p.address = tagOf cfg p.address := by simp [selectedTag, hcfg]
  rw [htag] at hmiss ⊢
  have hhit := (findHit_none_iff _ _ 0).2 hmiss
  have hst := setIs_access cfg s p.address s.accessCount blocks p ⟨hcfg, rfl, hsel⟩ rfl
  obtain ⟨cache, cfg1, hc, hcfg1, hset, -⟩ := selectedSet_some s p.address blocks hsel
  have : cfg1 = cfg := by rw [hcfg] at hcfg1; exact (Option.some.inj hcfg1).symm
  subst this
  refine ⟨?_, ?_, ?_, ?_⟩
  · unfold afterAccess
    rw [hst.2.2]
    simp only [nextSet, hhit]
  · rw [simulateResponse_access]
    exact access_result_of_not_holds p s cache cfg1 blocks hc hcfg hset hmiss
  · unfold afterAccess
    rw [simulateResponse_access, access_miss p s cache cfg1 blocks hc hcfg hset hhit]
  · unfold afterAccess
    rw [simulateResponse_access, access_miss p s cache cfg1 blocks hc hcfg hset hhit]

theorem reachable_timed (p0 : Params) (s0 : SimulationState) (calls : List Call)
    (a : Option Int) (blocks : List Block)
    (hsel : selectedSet (runCalls calls (createdFrom p0 s0)) a = some blocks) :
    (runCalls calls (createdFrom p0 s0)).cacheConfig = some (configOf p0) ∧
    ∀ b ∈ blocks, b.lastAccessed ≤ (runCalls calls (createdFrom p0 s0)).accessCount := by
  obtain ⟨hcfg, cache, hc, -, hsets⟩ := shaped_reachable p0 s0 calls
  obtain ⟨cache1, cfg1, hc1, -, hset, -⟩ := selectedSet_some _ a blocks hsel
  have : cache1 = cache := by rw [hc] at hc1; exact (Option.some.inj hc1).symm
  subst this
  exact ⟨hcfg, (hsets blocks (List.getElem?_mem (jsIndex_some _ _ blocks hset).2)).2⟩

theorem create_ignores_write_miss_policy (p0 : Params) (x : Option String)
    (s0 : SimulationState) :
    createdFrom { p0 with write_miss_policy := x } s0 = createdFrom p0 s0 := by
  rw [createdFrom_eq, createdFrom_eq]
  rfl

theorem getElem?_blockViews (blocks : List Block) (k j : Nat) :
    (blockViews blocks k)[j]? =
      blocks[j]?.map (fun b => ⟨k + j, b.valid, b.dirty, toHexString b.tag⟩) := by
  induction blocks generalizing k j with
  | nil => simp [blockViews]
  | cons b bs ih =>
    cases j with
    | zero => simp [blockViews]
    | succ j =>
      simp only [blockViews, List.getElem?_cons_succ, ih]
      congr 1
      funext x
      congr 1
      omega

theorem getElem?_setViews (cache : List (List Block)) (k j : Nat) :
    (setViews cache k)[j]? = cache[j]?.map (fun blocks => ⟨k + j, blockViews blocks 0⟩) := by
  induction cache generalizing k j with
  | nil => simp [setViews]
  | cons b bs ih =>
    cases j with
    | zero => simp [setViews]
    | succ j =>
      simp only [setViews, List.getElem?_cons_succ, ih]
      congr 1
      funext x
      congr 1
      omega

theorem contents_reports (s : SimulationState) (a : Option Int) (blocks : List Block)
    (i : Nat) (b : Block) (hsel : selectedSet s a = some blocks) (hb : blocks[i]? = some b) :
    ∃ cfg views, s.cacheConfig = some cfg ∧
      (simulateResponse "/contents" noParams s).1.contents? = some views ∧
      (views[(setIndexOf cfg a).toNat]?).map SetView.set = some (setIndexOf cfg a).toNat ∧
      ((views[(setIndexOf cfg a).toNat]?).bind (fun v => v.blocks[i]?)) =
        some ⟨i, b.valid, b.dirty, toHexString b.tag⟩ := by
  obtain ⟨cache, cfg, hc, hcfg, hset, -⟩ := selectedSet_some s a blocks hsel
  have hget := (jsIndex_some cache _ blocks hset).2
  refine ⟨cfg, setViews cache 0, hcfg, ?_, ?_, ?_⟩
  · rw [simulateResponse_contents]
    unfold contents
    rw [hc, hcfg]
    rfl
  · rw [getElem?_setViews, hget]
    simp
  · rw [getElem?_setViews, hget]
    simp [getElem?_blockViews, hb]

theorem installed_dirty_iff (op wp : String) (tag : Int) (n : Nat) :
    (installed op wp tag n).dirty = true ↔ op = "WRITE" ∧ wp = "WRITE_BACK" := by
  simp [installed]

theorem testBit_bitAnd (w a b i : Nat) :
    (bitAnd w a b).testBit i = (decide (i < w) && (a.testBit i && b.testBit i)) := by
  induction w generalizing a b i with
  | zero => simp [bitAnd]
  | succ w ih =>
    cases i with
    | zero =>
      simp only [bitAnd, Nat.testBit_zero, Nat.zero_lt_succ, decide_True, Bool.true_and]
      rcases Nat.mod_two_eq_zero_or_one a with ha | ha <;>
        rcases Nat.mod_two_eq_zero_or_one b with hb | hb <;>
        simp [ha, hb, Nat.add_mod]
    | succ i =>
      have hdiv : ((if a % 2 = 1 ∧ b % 2 = 1 then 1 else 0) + 2 * bitAnd w (a / 2) (b / 2)) / 2
          = bitAnd w (a / 2) (b / 2) := by
        split <;> omega
      simp only [bitAnd, Nat.testBit_succ, hdiv, ih, Nat.add_lt_add_iff_right]

theorem bitAnd_eq_land (a b : Nat) (ha : a < 2 ^ 32) : bitAnd 32 a b = a &&& b := by
  apply Nat.eq_of_testBit_eq
  intro i
  rw [testBit_bitAnd, Nat.testBit_and]
  by_cases hi : i < 32
  · simp [hi]
  · have : a.testBit i = false := by
      apply Nat.testBit_lt_two_pow
      calc a < 2 ^ 32 := ha
        _ ≤ 2 ^ i := Nat.pow_le_pow_right (by decide) (by omega)
    simp [hi, this]

theorem testBit_bitOr (w a b i : Nat) :
    (bitOr w a b).testBit i = (decide (i < w) && (a.testBit i || b.testBit i)) := by
  induction w generalizing a b i with
  | zero => simp [bitOr]
  | succ w ih =>
    cases i with
    | zero =>
      simp only [bitOr, Nat.testBit_zero, Nat.zero_lt_succ, decide_True, Bool.true_and]
      rcases Nat.mod_two_eq_zero_or_one a with ha | ha <;>
        rcases Nat.mod_two_eq_zero_or_one b with hb | hb <;>
        simp [ha, hb, Nat.add_mod]
    | succ i =>
      have hdiv : ((if a % 2 = 1 ∨ b % 2 = 1 then 1 else 0) + 2 * bitOr w (a / 2) (b / 2)) / 2
          = bitOr w (a / 2) (b / 2) := by
        split <;> omega
      simp only [bitOr, Nat.testBit_succ, hdiv, ih, Nat.add_lt_add_iff_right]

theorem bitOr_eq_lor (a b : Nat) (ha : a < 2 ^ 32) (hb : b < 2 ^ 32) :
    bitOr 32 a b = a ||| b := by
  apply Nat.eq_of_testBit_eq
  intro i
  rw [testBit_bitOr, Nat.testBit_or]
  by_cases hi : i < 32
  · simp [hi]
  · have h1 : a.testBit i = false := by
      apply Nat.testBit_lt_two_pow
      calc a < 2 ^ 32 := ha
        _ ≤ 2 ^ i := Nat.pow_le_pow_right (by decide) (by omega)
    have h2 : b.testBit i = false := by
      apply Nat.testBit_lt_two_pow
      calc b < 2 ^ 32 := hb
        _ ≤ 2 ^ i := Nat.pow_le_pow_right (by decide) (by omega)
    simp [hi, h1, h2]

theorem toUint32_lt (x : Int) : toUint32 x < 2 ^ 32 := by
  unfold toUint32
  have h1 := Int.emod_lt_of_pos x (show (0 : Int) < 4294967296 by decide)
  have h2 := Int.emod_nonneg x (show (4294967296 : Int) ≠ 0 by decide)
  omega

/-- The operators `&` and `|` of the model are the bitwise operations of the
library on the 32-bit patterns of their operands. -/
theorem jsAnd_jsOr_bitwise (a b : Int) :
    jsAnd a b = toInt32 ((toUint32 a &&& toUint32 b : Nat) : Int) ∧
    jsOr a b = toInt32 ((toUint32 a ||| toUint32 b : Nat) : Int) := by
  unfold jsAnd jsOr
  rw [bitAnd_eq_land _ _ (toUint32_lt a), bitOr_eq_lor _ _ (toUint32_lt a) (toUint32_lt b)]
  exact ⟨rfl, rfl⟩

theorem halvings_spec (fuel n : Nat) (hf : n ≤ fuel) (hn : 1 ≤ n) :
    2 ^ halvings fuel n ≤ n ∧ n < 2 ^ (halvings fuel n + 1) := by
  induction fuel generalizing n with
  | zero => omega
  | succ f ih =>
    by_cases h2 : n < 2
    · have : n = 1 := by omega
      subst this
      simp [halvings]
    · obtain ⟨h3, h4⟩ := ih (n / 2) (by omega) (by omega)
      simp only [halvings, h2, if_false]
      constructor
      · rw [pow_succ]; omega
      · rw [pow_succ]; omega

/-- The function `floorLog2` is the integer part of the base-2 logarithm. -/
theorem floorLog2_spec (n : Nat) (hn : 1 ≤ n) :
    2 ^ floorLog2 n ≤ n ∧ n < 2 ^ (floorLog2 n + 1) :=
  halvings_spec n n (le_refl n) hn

theorem distinctTags_modifyAt (f : Block → Block) (blocks : List Block) (i : Nat)
    (hv : ∀ b, (f b).valid = b.valid) (ht : ∀ b, (f b).tag = b.tag)
    (h : DistinctTags blocks) : DistinctTags (modifyAt f blocks i) := by
  intro j k b c hb hc hbv hcv htag
  rw [getElem?_modifyAt] at hb hc
  have key : ∀ (m : Nat) (x : Block),
      (if i = m then Option.map f blocks[m]? else blocks[m]?) = some x →
      ∃ y, blocks[m]? = some y ∧ y.valid = x.valid ∧ y.tag = x.tag := by
    intro m x hx
    by_cases him : i = m
    · rw [if_pos him] at hx
      cases hy : blocks[m]? with
      | none => rw [hy] at hx; cases hx
      | some y =>
        rw [hy] at hx
        simp only [Option.map_some', Option.some.injEq] at hx
        subst hx
        exact ⟨y, rfl, (hv y).symm, (ht y).symm⟩
    · rw [if_neg him] at hx
      exact ⟨x, hx, rfl, rfl⟩
  obtain ⟨b1, hb1, hbv1, hbt1⟩ := key j b hb
  obtain ⟨c1, hc1, hcv1, hct1⟩ := key k c hc
  exact h j k b1 c1 hb1 hc1 (by rw [hbv1]; exact hbv) (by rw [hcv1]; exact hcv)
    (by rw [hbt1, hct1]; exact htag)

theorem distinctTags_set (blocks : List Block) (v : Nat) (new : Block)
    (hnew : ¬ Holds blocks new.tag) (h : DistinctTags blocks) :
    DistinctTags (blocks.set v new) := by
  intro j k b c hb hc hbv hcv htag
  rw [List.getElem?_set] at hb hc
  by_cases hj : v = j
  · by_cases hk : v = k
    · omega
    · exfalso
      rw [if_pos hj] at hb
      rw [if_neg hk] at hc
      split at hb
      · cases hb
        exact hnew ⟨c, List.getElem?_mem hc, hcv, htag.symm⟩
      · cases hb
  · rw [if_neg hj] at hb
    by_cases hk : v = k
    · exfalso
      rw [if_pos hk] at hc
      split at hc
      · cases hc
        exact hnew ⟨b, List.getElem?_mem hb, hbv, htag⟩
      · cases hc
    · rw [if_neg hk] at hc
      exact h j k b c hb hc hbv hcv htag

theorem distinctTags_nextSet (blocks : List Block) (tag : Int) (op wp : String) (n : Nat)
    (h : DistinctTags blocks) : DistinctTags (nextSet blocks tag op wp n) := by
  unfold nextSet
  cases hhit : findHit tag blocks 0 with
  | some i =>
    exact distinctTags_modifyAt _ blocks i (touch_valid op wp n) (touch_tag op wp n) h
  | none =>
    have hno := (findHit_none_iff tag blocks 0).1 hhit
    cases victimIndex blocks n with
    | none => exact h
    | some v => exact distinctTags_set blocks v _ hno h

theorem distinctTags_of_invalid (blocks : List Block) (h : ∀ b ∈ blocks, b.valid = false) :
    DistinctTags blocks := by
  intro i j b c hb _ hbv _ _
  have := h b (List.getElem?_mem hb)
  rw [this] at hbv
  cases hbv

theorem distinct_access (p : Params) (s : SimulationState)
    (h : ∀ cache, s.cache = some cache → ∀ blocks ∈ cache, DistinctTags blocks) :
    ∀ cache, (access p s).2.cache = some cache → ∀ blocks ∈ cache, DistinctTags blocks := by
  cases hc : s.cache with
  | none => rw [access_no_cache p s hc]; exact h
  | some cache =>
    cases hcfg : s.cacheConfig with
    | none =>
      have : access p s = (Outcome.threw, s) := by
        unfold access
        simp only [hc, hcfg]
      rw [this]; exact h
    | some cfg =>
      cases hset : jsIndex cache (setIndexOf cfg p.address) with
      | none =>
        rw [access_no_set p s cache cfg hc hcfg hset]
        exact h
      | some blocks =>
        obtain ⟨h1, -, -⟩ := access_state p s cache cfg blocks hc hcfg hset
        intro cache1 hc1 bl hbl
        rw [h1] at hc1
        simp only [Option.some.injEq] at hc1
        subst hc1
        rcases List.mem_or_eq_of_mem_set hbl with hmem | rfl
        · exact h cache hc bl hmem
        · exact distinctTags_nextSet _ _ _ _ _
            (h cache hc blocks (List.getElem?_mem (jsIndex_some _ _ blocks hset).2))

theorem distinct_reset (s : SimulationState) :
    ∀ cache, (reset s).2.cache = some cache → ∀ blocks ∈ cache, DistinctTags blocks := by
  intro cache hc blocks hb
  apply distinctTags_of_invalid
  intro b hbb
  unfold reset at hc
  cases hs : s.cache with
  | none =>
    rw [hs] at hc
    simp only at hc
    rw [hs] at hc
    cases hc
  | some c0 =>
    rw [hs] at hc
    simp only [Option.some.injEq] at hc
    subst hc
    obtain ⟨x, -, rfl⟩ := List.mem_map.1 hb
    obtain ⟨y, -, rfl⟩ := List.mem_map.1 hbb
    rfl

theorem distinct_runCalls (calls : List Call) (s : SimulationState)
    (h : ∀ cache, s.cache = some cache → ∀ blocks ∈ cache, DistinctTags blocks) :
    ∀ cache, (runCalls calls s).cache = some cache → ∀ blocks ∈ cache, DistinctTags blocks := by
  induction calls generalizing s with
  | nil => exact h
  | cons c cs ih =>
    apply ih
    cases c with
    | access p =>
      simp only [Call.run, simulateResponse_access]
      exact distinct_access p s h
    | reset =>
      simp only [Call.run, simulateResponse_reset]
      exact distinct_reset s

theorem distinct_created (p0 : Params) (s0 : SimulationState) :
    ∀ cache, (createdFrom p0 s0).cache = some cache → ∀ blocks ∈ cache, DistinctTags blocks := by
  intro cache hc blocks hb
  rw [createdFrom_eq, create_state] at hc
  simp only [Option.some.injEq] at hc
  subst hc
  obtain ⟨-, rfl⟩ := List.mem_replicate.1 hb
  apply distinctTags_of_invalid
  intro b hbb
  obtain ⟨-, rfl⟩ := List.mem_replicate.1 hbb
  rfl

theorem simulateResponse_info (p : Params) (s : SimulationState) :
    simulateResponse "/info" p s = info s := by
  simp [simulateResponse]

theorem simulateResponse_trace (p : Params) (s : SimulationState) :
    simulateResponse "/trace" p s = trace s := by
  simp [simulateResponse]

theorem reset_of_cache (s : SimulationState) (cache : List (List Block))
    (hc : s.cache = some cache) :
    reset s = (Outcome.returned (Response.message "success" "Cache reset (simulated)"),
      ⟨some (cache.map (fun blocks => blocks.map (fun _ => emptyBlock))), 0, 0, 0,
        s.cacheConfig⟩) := by
  unfold reset
  rw [hc]

theorem loopCount_of_multiple (n : Nat) (d : Int) (hd : 0 < d) :
    loopCount ⟨(n : Int) * d, d⟩ = n := by
  simp only [loopCount, hd, if_true]
  by_cases hn : n = 0
  · subst hn
    simp
  · have hpos : (0 : Int) < (n : Int) * d :=
      Int.mul_pos (by omega) hd
    simp only [hpos, if_true]
    have h0 : (n : Int) * d + d - 1 = (d - 1) + (n : Int) * d := by ring
    rw [h0, Int.add_mul_ediv_right _ _ (ne_of_gt hd),
      Int.ediv_eq_zero_of_lt (by omega) (by omega), zero_add]
    exact Int.toNat_natCast n

theorem loopCount_ofInt (a : Int) : loopCount (Frac.ofInt a) = a.toNat := by
  simp only [loopCount, Frac.ofInt]
  by_cases ha : 0 < a
  · simp [ha]
  · simp [ha]
    omega

/-- The `associativity === 0` branches of `/create` are never taken:
associativity 0 is replaced by 4 before them, and the state built is the one of
a four-way request. -/
theorem create_associativity_zero (p : Params) (s0 : SimulationState)
    (h : p.associativity = some 0) :
    createdFrom p s0 = createdFrom { p with associativity := some 4 } s0 := by
  rw [createdFrom_eq, createdFrom_eq, create_state, create_state]
  simp [configOf, waysOf, h, parseIntOr]

theorem length_nextSet (blocks : List Block) (tag : Int) (op wp : String) (n : Nat) :
    (nextSet blocks tag op wp n).length = blocks.length := by
  unfold nextSet
  cases findHit tag blocks 0 with
  | some i => exact length_modifyAt _ _ _
  | none => exact length_storeAt _ _ _

theorem nextSet_one_slot (blocks : List Block) (tag : Int) (op wp : String) (n : Nat) :
    ∃ slot : Nat, ∀ j : Nat, j ≠ slot → (nextSet blocks tag op wp n)[j]? = blocks[j]? := by
  unfold nextSet
  cases findHit tag blocks 0 with
  | some i =>
    refine ⟨i, fun j hj => ?_⟩
    rw [getElem?_modifyAt, if_neg (Ne.symm hj)]
  | none =>
    cases victimIndex blocks n with
    | none => exact ⟨0, fun j _ => rfl⟩
    | some v =>
      refine ⟨v, fun j hj => ?_⟩
      exact List.getElem?_set_ne (Ne.symm hj)

theorem nextSet_hit_keeps (blocks : List Block) (tag : Int) (op wp : String) (n : Nat)
    (h : Holds blocks tag) (j : Nat) (b c : Block) (hb : blocks[j]? = some b)
    (hc : (nextSet blocks tag op wp n)[j]? = some c) :
    c.valid = b.valid ∧ c.tag = b.tag ∧
      (c.dirty = b.dirty ∨ c.dirty = true) := by
  unfold nextSet at hc
  cases hhit : findHit tag blocks 0 with
  | none => exact absurd h ((findHit_none_iff tag blocks 0).1 hhit)
  | some i =>
    rw [hhit] at hc
    simp only at hc
    rw [getElem?_modifyAt, hb] at hc
    by_cases hij : i = j
    · rw [if_pos hij] at hc
      simp only [Option.map_some', Option.some.injEq] at hc
      subst hc
      refine ⟨touch_valid _ _ _ _, touch_tag _ _ _ _, ?_⟩
      rw [touch_dirty]
      cases b.dirty <;> cases decide (op = "WRITE" ∧ wp = "WRITE_BACK") <;> simp
    · rw [if_neg hij] at hc
      cases hc
      exact ⟨rfl, rfl, Or.inl rfl⟩

theorem holds_nextSet_of_hit (blocks : List Block) (tag : Int) (op wp : String) (n : Nat)
    (h : Holds blocks tag) (t : Int) :
    Holds (nextSet blocks tag op wp n) t ↔ Holds blocks t := by
  have hlen := length_nextSet blocks tag op wp n
  constructor
  · rintro ⟨c, hc, hcv, hct⟩
    obtain ⟨j, hj⟩ := List.mem_iff_getElem?.1 hc
    have hjlt : j < blocks.length := by
      rw [← hlen]; exact (List.getElem?_eq_some_iff.1 hj).1
    obtain ⟨b, hb⟩ : ∃ b, blocks[j]? = some b := ⟨_, List.getElem?_eq_getElem hjlt⟩
    obtain ⟨h1, h2, -⟩ := nextSet_hit_keeps blocks tag op wp n h j b c hb hj
    exact ⟨b, List.getElem?_mem hb, by rw [← h1]; exact hcv, by rw [← h2]; exact hct⟩
  · rintro ⟨b, hb, hbv, hbt⟩
    obtain ⟨j, hj⟩ := List.mem_iff_getElem?.1 hb
    have hjlt : j < (nextSet blocks tag op wp n).length := by
      rw [hlen]; exact (List.getElem?_eq_some_iff.1 hj).1
    obtain ⟨c, hc⟩ : ∃ c, (nextSet blocks tag op wp n)[j]? = some c :=
      ⟨_, List.getElem?_eq_getElem hjlt⟩
    obtain ⟨h1, h2, -⟩ := nextSet_hit_keeps blocks tag op wp n h j b c hj hc
    exact ⟨c, List.getElem?_mem hc, by rw [h1]; exact hbv, by rw [h2]; exact hbt⟩

theorem jsIndex_set_ne {α : Type} (xs : List α) (i j : Int) (x y : α)
    (hi : jsIndex xs i = some x) (hij : j ≠ i) :
    jsIndex (xs.set i.toNat y) j = jsIndex xs j := by
  cases j with
  | negSucc m => rfl
  | ofNat m =>
    cases i with
    | negSucc n => simp [jsIndex] at hi
    | ofNat n =>
      have hne : n ≠ m := by
        intro h
        apply hij
        rw [h]
      simp only [jsIndex, List.get?_eq_getElem?, Int.toNat_ofNat]
      exact List.getElem?_set_ne hne

theorem resident_after_hit (p : Params) (s : SimulationState) (cache : List (List Block))
    (cfg : CacheConfig) (blocks : List Block)
    (hc : s.cache = some cache) (hcfg : s.cacheConfig = some cfg)
    (hset : jsIndex cache (setIndexOf cfg p.address) = some blocks)
    (hhit : Holds blocks (tagOf cfg p.address)) (a : Option Int) :
    Resident (afterAccess p s) a ↔ Resident s a := by
  obtain ⟨h1, h2, -⟩ := access_state p s cache cfg blocks hc hcfg hset
  have hsel : selectedSet s a = jsIndex cache (setIndexOf cfg a) := selectedSet_eq s cache cfg a hc hcfg
  have hsel1 : selectedSet (afterAccess p s) a =
      jsIndex (cache.set (setIndexOf cfg p.address).toNat
        (nextSet blocks (tagOf cfg p.address) (stringOr p.operation "READ") cfg.writePolicy
          (s.accessCount + 1))) (setIndexOf cfg a) := by
    unfold afterAccess
    rw [simulateResponse_access]
    exact selectedSet_eq _ _ cfg a h1 h2
  have htag : selectedTag s a = tagOf cfg a := by simp [selectedTag, hcfg]
  have htag1 : selectedTag (afterAccess p s) a = tagOf cfg a := by
    unfold afterAccess
    rw [simulateResponse_access]
    simp [selectedTag, h2]
  unfold Resident
  rw [hsel, hsel1, htag, htag1]
  by_cases hidx : setIndexOf cfg a = setIndexOf cfg p.address
  · rw [hidx, jsIndex_set cache _ blocks _ hset, hset]
    constructor
    · rintro ⟨bl, hbl, hh⟩
      cases hbl
      exact ⟨blocks, rfl, (holds_nextSet_of_hit _ _ _ _ _ hhit _).1 hh⟩
    · rintro ⟨bl, hbl, hh⟩
      cases hbl
      exact ⟨_, rfl, (holds_nextSet_of_hit _ _ _ _ _ hhit _).2 hh⟩
  · rw [jsIndex_set_ne cache _ _ blocks _ hset hidx]

theorem mem_validTags (blocks : List Block) (t : Int) :
    t ∈ validTags blocks ↔ Holds blocks t := by
  simp only [validTags, Holds, List.mem_map, List.mem_filter]
  constructor
  · rintro ⟨b, ⟨hb, hv⟩, ht⟩
    exact ⟨b, hb, hv, ht⟩
  · rintro ⟨b, hb, hv, ht⟩
    exact ⟨b, ⟨hb, hv⟩, ht⟩

theorem validTags_cons (b : Block) (bs : List Block) :
    validTags (b :: bs) = if b.valid = true then b.tag :: validTags bs else validTags bs := by
  unfold validTags
  by_cases h : b.valid = true
  · simp [List.filter_cons, h]
  · simp [List.filter_cons, h]

theorem validTags_modifyAt (f : Block → Block) (blocks : List Block) (i : Nat)
    (hv : ∀ b, (f b).valid = b.valid) (ht : ∀ b, (f b).tag = b.tag) :
    validTags (modifyAt f blocks i) = validTags blocks := by
  induction blocks generalizing i with
  | nil => rfl
  | cons b bs ih =>
    cases i with
    | zero => simp only [modifyAt, validTags_cons, hv, ht]
    | succ i => simp only [modifyAt, validTags_cons, ih]

theorem validTags_set_perm (blocks : List Block) (v : Nat) (old new : Block)
    (hold : blocks[v]? = some old) (hinv : old.valid = false) (hnew : new.valid = true) :
    (validTags (blocks.set v new)).Perm (new.tag :: validTags blocks) := by
  induction blocks generalizing v with
  | nil => simp at hold
  | cons b bs ih =>
    cases v with
    | zero =>
      simp only [List.getElem?_cons_zero, Option.some.injEq] at hold
      subst hold
      simp only [List.set_cons_zero, validTags_cons, hnew, hinv, if_true]
      simp
    | succ v =>
      simp only [List.getElem?_cons_succ] at hold
      have h := ih v hold
      simp only [List.set_cons_succ, validTags_cons]
      by_cases hb : b.valid = true
      · simp only [hb, if_true]
        exact (List.Perm.cons _ h).trans (List.Perm.swap _ _ _)
      · simp only [hb, if_false]
        exact h

theorem length_validTags_of_valid (blocks : List Block) (h : ∀ b ∈ blocks, b.valid = true) :
    (validTags blocks).length = blocks.length := by
  unfold validTags
  rw [List.length_map, List.filter_eq_self.2 (fun b hb => h b hb)]

theorem length_le_dedup_of_subset (l l1 : List Int) (hnd : l.Nodup) (hsub : ∀ x ∈ l, x ∈ l1) :
    l.length ≤ l1.dedup.length := by
  have h1 : l ⊆ l1.dedup := fun x hx => List.mem_dedup.2 (hsub x hx)
  exact (List.subperm_of_subset hnd h1).length_le

theorem nextSet_tracks (blocks : List Block) (t : Int) (op wp : String) (n : Nat)
    (T : List Int) (hnd : (validTags blocks).Nodup) (hsub : ∀ x ∈ validTags blocks, x ∈ T)
    (ht : t ∈ T) (hcap : T.dedup.length ≤ blocks.length) :
    (validTags (nextSet blocks t op wp n)).Nodup ∧
    (∀ x : Int, x ∈ validTags (nextSet blocks t op wp n) ↔ x = t ∨ x ∈ validTags blocks) ∧
    (¬ Holds blocks t → ∃ v old, blocks[v]? = some old ∧ old.valid = false ∧
      nextSet blocks t op wp n = blocks.set v (installed op wp t n)) := by
  unfold nextSet
  cases hhit : findHit t blocks 0 with
  | some i =>
    have hholds : Holds blocks t := by
      by_contra hno
      rw [(findHit_none_iff _ _ 0).2 hno] at hhit
      cases hhit
    simp only
    rw [validTags_modifyAt _ _ _ (touch_valid op wp n) (touch_tag op wp n)]
    refine ⟨hnd, ?_, fun hno => absurd hholds hno⟩
    intro x
    constructor
    · exact fun hx => Or.inr hx
    · rintro (rfl | hx)
      · exact (mem_validTags blocks _).2 hholds
      · exact hx
  | none =>
    have hno : ¬ Holds blocks t := (findHit_none_iff _ _ 0).1 hhit
    have hnot : t ∉ validTags blocks := fun h => hno ((mem_validTags blocks t).1 h)
    have hinv : ∃ j, findInvalid blocks 0 = some j := by
      cases hfi : findInvalid blocks 0 with
      | some j => exact ⟨j, rfl⟩
      | none =>
        exfalso
        have hall := (findInvalid_none_iff blocks 0).1 hfi
        have hlen := length_validTags_of_valid blocks hall
        have hnd2 : (t :: validTags blocks).Nodup := List.nodup_cons.2 ⟨hnot, hnd⟩
        have hle := length_le_dedup_of_subset (t :: validTags blocks) T hnd2 (by
          intro x hx
          rcases List.mem_cons.1 hx with rfl | hx
          · exact ht
          · exact hsub x hx)
        simp only [List.length_cons] at hle
        omega
    obtain ⟨j, hj⟩ := hinv
    obtain ⟨k, old, hjk, hk, hov, -⟩ := findInvalid_some blocks 0 j hj
    have hjk2 : j = k := by omega
    subst hjk2
    have hvi : victimIndex blocks n = some j := by simp [victimIndex, hj]
    simp only [hvi, storeAt]
    have hperm := validTags_set_perm blocks j old (installed op wp t n) hk hov rfl
    refine ⟨?_, ?_, fun _ => ⟨j, old, hk, hov, rfl⟩⟩
    · exact (hperm.nodup_iff).2 (List.nodup_cons.2 ⟨hnot, hnd⟩)
    · intro x
      rw [hperm.mem_iff]
      simp [installed]

theorem runAccesses_append (pre post : List Params) (s : SimulationState) :
    runAccesses (pre ++ post) s = runAccesses post (runAccesses pre s) := by
  induction pre generalizing s with
  | nil => rfl
  | cons q qs ih => exact ih _

theorem runAccesses_eq_runCalls (accs : List Params) (s : SimulationState) :
    runAccesses accs s = runCalls (accs.map Call.access) s := by
  induction accs generalizing s with
  | nil => rfl
  | cons q qs ih => exact ih _

theorem map_empty_eq_replicate (cache : List (List Block)) (w : Nat)
    (h : ∀ blocks ∈ cache, blocks.length = w) :
    cache.map (fun blocks => blocks.map (fun _ => emptyBlock)) =
      List.replicate cache.length (List.replicate w emptyBlock) := by
  induction cache with
  | nil => rfl
  | cons b bs ih =>
    have hb : b.length = w := h b (List.mem_cons_self _ _)
    have hmap : b.map (fun _ => emptyBlock) = List.replicate w emptyBlock := by
      rw [← hb]
      exact List.map_const' b emptyBlock
    simp only [List.map_cons, List.length_cons, List.replicate_succ, hmap]
    rw [ih (fun x hx => h x (List.mem_cons_of_mem _ hx))]

theorem reset_reachable (p p0 : Params) (s0 : SimulationState) (calls : List Call) :
    (simulateResponse "/reset" p (runCalls calls (createdFrom p0 s0))).2 = createdFrom p0 s0 := by
  obtain ⟨hcfg, cache, hc, hlen, hsets⟩ := shaped_reachable p0 s0 calls
  rw [simulateResponse_reset, reset_of_cache _ cache hc, hcfg,
    map_empty_eq_replicate cache (waysOf (configOf p0)) (fun b hb => (hsets b hb).1), hlen,
    createdFrom_eq, create_state]

theorem tagsFor_append (cfg : CacheConfig) (i : Nat) (pre post : List Params) :
    tagsFor cfg i (pre ++ post) = tagsFor cfg i pre ++ tagsFor cfg i post := by
  simp [tagsFor]

theorem mem_tagsFor (cfg : CacheConfig) (i : Nat) (accs : List Params) (t : Int) :
    t ∈ tagsFor cfg i accs ↔ (i, t) ∈ accs.map (keyOf cfg) := by
  simp only [tagsFor, List.mem_map, List.mem_filter, decide_eq_true_eq]
  constructor
  · rintro ⟨q, ⟨hq, hi⟩, ht⟩
    exact ⟨q, hq, Prod.ext hi ht⟩
  · rintro ⟨q, hq, hk⟩
    exact ⟨q, ⟨hq, by rw [hk]⟩, by rw [hk]⟩

theorem dedup_length_snoc (l : List (Nat × Int)) (a : Nat × Int) :
    (l ++ [a]).dedup.length = if a ∈ l then l.dedup.length else l.dedup.length + 1 := by
  rw [← List.card_toFinset, ← List.card_toFinset, List.toFinset_append]
  simp only [List.toFinset_cons, List.toFinset_nil, insert_emptyc_eq]
  by_cases h : a ∈ l
  · rw [if_pos h]
    congr 1
    rw [Finset.union_eq_left]
    intro x hx
    rw [Finset.mem_singleton] at hx
    subst hx
    exact List.mem_toFinset.2 h
  · rw [if_neg h, Finset.union_comm, ← Finset.insert_eq,
      Finset.card_insert_of_not_mem (fun hx => h (List.mem_toFinset.1 hx))]

theorem tagsFor_singleton (cfg : CacheConfig) (i : Nat) (q : Params) :
    tagsFor cfg i [q] = if (keyOf cfg q).1 = i then [(keyOf cfg q).2] else [] := by
  unfold tagsFor
  by_cases h : (keyOf cfg q).1 = i
  · rw [if_pos h, List.filter_cons_of_pos (by simpa using h)]
    rfl
  · rw [if_neg h, List.filter_cons_of_neg (by simpa using h)]
    rfl

theorem keyOf_eq (cfg : CacheConfig) (q : Params) :
    keyOf cfg q = ((setIndexOf cfg q.address).toNat, tagOf cfg q.address) := by
  unfold keyOf
  exact Prod.ext (Eq.refl _) (Eq.refl _)

theorem tracks_step (cfg : CacheConfig) (pre : List Params) (q : Params)
    (s : SimulationState) (hv : ValidConfig cfg) (hs : Shaped cfg s) (ht : Tracks cfg pre s)
    (hcap : (tagsFor cfg (keyOf cfg q).1 (pre ++ [q])).dedup.length ≤ waysOf cfg) :
    Tracks cfg (pre ++ [q]) (afterAccess q s) ∧
    (keyOf cfg q ∈ pre.map (keyOf cfg) →
      (simulateResponse "/access" q s).1.result? =
        some (if stringOr q.operation "READ" = "READ" then "HIT" else "WRITE_HIT")) ∧
    (keyOf cfg q ∉ pre.map (keyOf cfg) →
      (simulateResponse "/access" q s).1.result? =
        some (if stringOr q.operation "READ" = "READ" then "MISS" else "WRITE_MISS") ∧
      ∃ blocks v old, selectedSet s q.address = some blocks ∧ blocks[v]? = some old ∧
        old.valid = false ∧
        selectedSet (afterAccess q s) q.address =
          some (blocks.set v (installed (stringOr q.operation "READ") cfg.writePolicy
            (tagOf cfg q.address) (s.accessCount + 1)))) := by
  obtain ⟨cache, blocks, hc, hset, -, -⟩ := selected_of_valid cfg s q.address hv hs
  have hcfg := hs.1
  obtain ⟨n, hn, -⟩ := setIndexOf_lt cfg q.address hv
  have hkey : keyOf cfg q = (n, tagOf cfg q.address) := by
    rw [keyOf_eq, hn]
    exact Prod.ext (Int.toNat_ofNat n) (Eq.refl _)
  have hk1 : (keyOf cfg q).1 = n := by rw [hkey]
  have hk2 : (keyOf cfg q).2 = tagOf cfg q.address := by rw [hkey]
  have hget : cache[n]? = some blocks := by
    have := (jsIndex_some cache _ blocks hset).2
    rw [hn] at this
    simpa using this
  have hlt : n < cache.length := (List.getElem?_eq_some_iff.1 hget).1
  have hways : blocks.length = waysOf cfg := by
    obtain ⟨-, cache2, hc2, -, hsets⟩ := hs
    have hcc : cache2 = cache := by rw [hc] at hc2; exact (Option.some.inj hc2).symm
    rw [hcc] at hsets
    exact (hsets blocks (List.getElem?_mem hget)).1
  obtain ⟨cache3, hc3, hmc, hsets⟩ := ht
  have hcc : cache3 = cache := by rw [hc] at hc3; exact (Option.some.inj hc3).symm
  rw [hcc] at hsets
  obtain ⟨hnd, hmem⟩ := hsets n blocks hget
  rw [hk1] at hcap
  have hT : tagsFor cfg n (pre ++ [q]) = tagsFor cfg n pre ++ [tagOf cfg q.address] := by
    rw [tagsFor_append, tagsFor_singleton, if_pos hk1, hk2]
  have hstep := nextSet_tracks blocks (tagOf cfg q.address) (stringOr q.operation "READ")
    cfg.writePolicy (s.accessCount + 1) (tagsFor cfg n (pre ++ [q])) hnd
    (by intro x hx; rw [hT]; exact List.mem_append_left _ ((hmem x).1 hx))
    (by rw [hT]; simp) (by rw [hways]; exact hcap)
  obtain ⟨hnd1, hmem1, hslot⟩ := hstep
  obtain ⟨h1, h2, -⟩ := access_state q s cache cfg blocks hc hcfg hset
  have hseen : Holds blocks (tagOf cfg q.address) ↔ keyOf cfg q ∈ pre.map (keyOf cfg) := by
    rw [← mem_validTags, hmem, mem_tagsFor, hkey]
  have hcache1 : (afterAccess q s).cache =
      some (cache.set n (nextSet blocks (tagOf cfg q.address) (stringOr q.operation "READ")
        cfg.writePolicy (s.accessCount + 1))) := by
    unfold afterAccess
    rw [simulateResponse_access, h1, hn]
    rfl
  have hsel : selectedSet s q.address = some blocks := by
    rw [selectedSet_eq s cache cfg _ hc hcfg]; exact hset
  have htag : selectedTag s q.address = tagOf cfg q.address := by simp [selectedTag, hcfg]
  have hmiss1 : (afterAccess q s).missCount =
      if keyOf cfg q ∈ pre.map (keyOf cfg) then s.missCount else s.missCount + 1 := by
    by_cases hh : Holds blocks (tagOf cfg q.address)
    · rw [if_pos (hseen.1 hh)]
      have hsome : ∃ i, findHit (tagOf cfg q.address) blocks 0 = some i := by
        cases hf : findHit (tagOf cfg q.address) blocks 0 with
        | some i => exact ⟨i, rfl⟩
        | none => exact absurd hh ((findHit_none_iff _ _ 0).1 hf)
      obtain ⟨i, hi⟩ := hsome
      unfold afterAccess
      rw [simulateResponse_access, access_hit q s cache cfg blocks i hc hcfg hset hi]
    · rw [if_neg (fun h => hh (hseen.2 h))]
      exact (miss_effect q s cfg blocks hcfg hsel (by rw [htag]; exact hh)).2.2.1
  refine ⟨⟨_, hcache1, ?_, ?_⟩, ?_, ?_⟩
  · rw [hmiss1, List.map_append, List.map_cons, List.map_nil, dedup_length_snoc, hmc]
  · intro i bl hbl
    by_cases hin : i = n
    · subst hin
      have : bl = nextSet blocks (tagOf cfg q.address) (stringOr q.operation "READ")
          cfg.writePolicy (s.accessCount + 1) := by
        simp [List.getElem?_set, hlt] at hbl
        exact hbl.symm
      subst this
      refine ⟨hnd1, ?_⟩
      intro t
      rw [hmem1, hT, hmem, List.mem_append, List.mem_singleton]
      exact or_comm
    · rw [List.getElem?_set_ne (Ne.symm hin)] at hbl
      obtain ⟨hnd2, hmem2⟩ := hsets i bl hbl
      refine ⟨hnd2, ?_⟩
      intro t
      rw [hmem2, tagsFor_append]
      have : tagsFor cfg i [q] = [] := by
        rw [tagsFor_singleton, if_neg (by rw [hk1]; exact Ne.symm hin)]
      rw [this, List.append_nil]
  · intro hin
    rw [simulateResponse_access]
    exact access_result_of_holds q s cache cfg blocks hc hcfg hset (hseen.2 hin)
  · intro hnot
    have hno : ¬ Holds blocks (tagOf cfg q.address) := fun h => hnot (hseen.1 h)
    obtain ⟨v, old, hold, hinv, hnext⟩ := hslot hno
    refine ⟨?_, blocks, v, old, hsel, hold, hinv, ?_⟩
    · rw [simulateResponse_access]
      exact access_result_of_not_holds q s cache cfg blocks hc hcfg hset hno
    · have hcfg1 : (afterAccess q s).cacheConfig = some cfg := by
        unfold afterAccess
        rw [simulateResponse_access]
        exact h2
      rw [selectedSet_eq _ _ cfg _ hcache1 hcfg1, hn, ← hnext]
      simp [jsIndex, List.getElem?_set, hlt]

theorem validTags_replicate_empty (w : Nat) : validTags (List.replicate w emptyBlock) = [] := by
  induction w with
  | zero => rfl
  | succ w ih =>
    rw [List.replicate_succ, validTags_cons, if_neg (by decide), ih]

theorem tracks_created (p0 : Params) (s0 : SimulationState) :
    Tracks (configOf p0) [] (createdFrom p0 s0) := by
  rw [createdFrom_eq, create_state]
  refine ⟨_, rfl, rfl, ?_⟩
  intro i blocks hb
  obtain ⟨-, rfl⟩ := List.mem_replicate.1 (List.getElem?_mem hb)
  rw [validTags_replicate_empty]
  exact ⟨List.nodup_nil, fun t => by simp [tagsFor]⟩

theorem shaped_runAccesses (p0 : Params) (s0 : SimulationState) (accs : List Params) :
    Shaped (configOf p0) (runAccesses accs (createdFrom p0 s0)) := by
  rw [runAccesses_eq_runCalls]
  exact shaped_reachable p0 s0 _

theorem capacity_initial (cfg : CacheConfig) (accs l post : List Params) (a : Params)
    (h : accs = l ++ [a] ++ post)
    (hfit : ∀ q ∈ accs, (tagsFor cfg (keyOf cfg q).1 accs).dedup.length ≤ waysOf cfg) :
    (tagsFor cfg (keyOf cfg a).1 (l ++ [a])).dedup.length ≤ waysOf cfg := by
  have hmem : a ∈ accs := by rw [h]; simp
  refine le_trans ?_ (hfit a hmem)
  have hnd : (tagsFor cfg (keyOf cfg a).1 (l ++ [a])).dedup.Nodup := List.nodup_dedup _
  have := length_le_dedup_of_subset _ (tagsFor cfg (keyOf cfg a).1 accs) hnd (by
    intro x hx
    rw [h, tagsFor_append]
    exact List.mem_append_left _ (List.mem_dedup.1 hx))
  exact this

theorem tracks_initial (p0 : Params) (s0 : SimulationState) (accs pre post : List Params)
    (hv : ValidGeometry p0)
    (hfit : ∀ q ∈ accs,
      (tagsFor (configOf p0) (keyOf (configOf p0) q).1 accs).dedup.length ≤
        waysOf (configOf p0))
    (h : accs = pre ++ post) :
    Tracks (configOf p0) pre (runAccesses pre (createdFrom p0 s0)) := by
  induction pre using List.reverseRecOn generalizing post with
  | nil => exact tracks_created p0 s0
  | append_singleton l a ih =>
    have ih1 := ih ([a] ++ post) (by rw [h, List.append_assoc])
    rw [runAccesses_append]
    exact (tracks_step (configOf p0) l a _ (validConfig_configOf p0 hv)
      (shaped_runAccesses p0 s0 l) ih1
      (capacity_initial (configOf p0) accs l post a h hfit)).1

/-! ## The properties -/

/-- C1 (as amended): in every state reached from `/create` by `/reset` calls and
`/access` calls that returned a response, the access count is the sum of the hit
and miss counts; and after `/create` with valid geometry every call returns, so
that the equation holds in every state reached by any calls. -/
theorem C1_total_eq_hits_plus_misses :
    (∀ (p : Params) (s0 : SimulationState) (calls : List Call) (s : SimulationState),
      runReturning calls (createdFrom p s0) = some s →
        s.accessCount = s.hitCount + s.missCount) ∧
    (∀ (p : Params) (s0 : SimulationState) (calls : List Call), ValidGeometry p →
      runReturning calls (createdFrom p s0) = some (runCalls calls (createdFrom p s0)) ∧
      (runCalls calls (createdFrom p s0)).accessCount =
        (runCalls calls (createdFrom p s0)).hitCount +
          (runCalls calls (createdFrom p s0)).missCount) := by
  have h1 : ∀ (p : Params) (s0 : SimulationState) (calls : List Call) (s : SimulationState),
      runReturning calls (createdFrom p s0) = some s →
        s.accessCount = s.hitCount + s.missCount := by
    intro p s0 calls s hrun
    rw [createdFrom_eq] at hrun
    exact balanced_runReturning calls _ s (balanced_create p s0) hrun
  refine ⟨h1, ?_⟩
  intro p s0 calls hv
  have hrun : runReturning calls (createdFrom p s0) = some (runCalls calls (createdFrom p s0)) := by
    rw [createdFrom_eq]
    exact runReturning_of_valid (configOf p) calls _ (validConfig_configOf p hv)
      (shaped_create p s0)
  exact ⟨hrun, h1 p s0 calls _ hrun⟩

/-- C1, witness: two reads of address 0 after `/create` with the default geometry. -/
theorem C1_total_eq_hits_plus_misses_witness :
    runReturning [Call.access (accessParams (some 0) "READ"),
        Call.access (accessParams (some 0) "READ")]
        (createdFrom (createParams (some 1024) (some 32) (some 4) none none none) initialState)
      = some (runCalls [Call.access (accessParams (some 0) "READ"),
        Call.access (accessParams (some 0) "READ")]
        (createdFrom (createParams (some 1024) (some 32) (some 4) none none none) initialState))
    ∧ (runCalls [Call.access (accessParams (some 0) "READ"),
        Call.access (accessParams (some 0) "READ")]
        (createdFrom (createParams (some 1024) (some 32) (some 4) none none none)
          initialState)).accessCount = 1 + 1 :=
  ⟨(C1_total_eq_hits_plus_misses.2
      (createParams (some 1024) (some 32) (some 4) none none none) initialState
      [Call.access (accessParams (some 0) "READ"), Call.access (accessParams (some 0) "READ")]
      ⟨5, 2, 3, rfl, rfl, rfl⟩).1,
    (C1_total_eq_hits_plus_misses.1
      (createParams (some 1024) (some 32) (some 4) none none none) initialState
      [Call.access (accessParams (some 0) "READ"), Call.access (accessParams (some 0) "READ")]
      (runCalls [Call.access (accessParams (some 0) "READ"),
        Call.access (accessParams (some 0) "READ")]
        (createdFrom (createParams (some 1024) (some 32) (some 4) none none none) initialState))
      (by decide)).trans (by decide)⟩

/-- C1, counterexample: after `/create` with size 32, block size 32 and
associativity 4 (a quarter of a set), `/access` of address `0x20` selects set 1,
which does not exist; the call throws after counting the access, leaving total 1
and hits 0, misses 0. -/
theorem C1_counterexample :
    (runCalls [Call.access (accessParams (some 32) "READ")]
      (createdFrom (createParams (some 32) (some 32) (some 4) none none none)
        initialState)).accessCount = 1 ∧
    (runCalls [Call.access (accessParams (some 32) "READ")]
      (createdFrom (createParams (some 32) (some 32) (some 4) none none none)
        initialState)).hitCount = 0 ∧
    (runCalls [Call.access (accessParams (some 32) "READ")]
      (createdFrom (createParams (some 32) (some 32) (some 4) none none none)
        initialState)).missCount = 0 ∧
    (runCalls [Call.access (accessParams (some 32) "READ")]
      (createdFrom (createParams (some 32) (some 32) (some 4) none none none)
        initialState)).accessCount ≠
      (runCalls [Call.access (accessParams (some 32) "READ")]
        (createdFrom (createParams (some 32) (some 32) (some 4) none none none)
          initialState)).hitCount +
      (runCalls [Call.access (accessParams (some 32) "READ")]
        (createdFrom (createParams (some 32) (some 32) (some 4) none none none)
          initialState)).missCount := by
  decide

/-- C2 (as amended): an `/access` call whose address selects an existing set
counts one more access; it returns `HIT` or `WRITE_HIT` and counts one more hit,
the misses unchanged, exactly when that set held a valid block with the decoded
tag, and otherwise returns `MISS` or `WRITE_MISS` and counts one more miss, the
hits unchanged; the returned statistics are the new counters.  After `/create`
with valid geometry every address selects an existing set. -/
theorem C2_access_counts :
    (∀ (s : SimulationState) (p : Params) (blocks : List Block),
      selectedSet s p.address = some blocks →
      (simulateResponse "/access" p s).2.accessCount = s.accessCount + 1 ∧
      (simulateResponse "/access" p s).1.statistics? =
        some (statisticsOf (simulateResponse "/access" p s).2) ∧
      (((simulateResponse "/access" p s).1.result? = some "HIT" ∨
          (simulateResponse "/access" p s).1.result? = some "WRITE_HIT") ↔
        Holds blocks (selectedTag s p.address)) ∧
      (Holds blocks (selectedTag s p.address) →
        (simulateResponse "/access" p s).2.hitCount = s.hitCount + 1 ∧
        (simulateResponse "/access" p s).2.missCount = s.missCount) ∧
      (¬ Holds blocks (selectedTag s p.address) →
        ((simulateResponse "/access" p s).1.result? = some "MISS" ∨
          (simulateResponse "/access" p s).1.result? = some "WRITE_MISS") ∧
        (simulateResponse "/access" p s).2.missCount = s.missCount + 1 ∧
        (simulateResponse "/access" p s).2.hitCount = s.hitCount)) ∧
    (∀ (p0 : Params) (s0 : SimulationState) (calls : List Call) (a : Option Int),
      ValidGeometry p0 →
      ∃ blocks, selectedSet (runCalls calls (createdFrom p0 s0)) a = some blocks) := by
  constructor
  · intro s p blocks hsel
    obtain ⟨cache, cfg, hc, hcfg, hset, htag⟩ := selectedSet_some s p.address blocks hsel
    rw [simulateResponse_access, htag]
    cases hhit : findHit (tagOf cfg p.address) blocks 0 with
    | some i =>
      have hholds : Holds blocks (tagOf cfg p.address) := by
        by_contra hno
        rw [(findHit_none_iff _ _ 0).2 hno] at hhit
        cases hhit
      rw [access_hit p s cache cfg blocks i hc hcfg hset hhit]
      refine ⟨rfl, ?_, ?_, fun _ => ⟨rfl, rfl⟩, fun hno => absurd hholds hno⟩
      · simp [Outcome.statistics?, statisticsOf]
      · simp only [Outcome.result?, hholds, iff_true]
        split <;> simp
    | none =>
      have hno : ¬ Holds blocks (tagOf cfg p.address) := (findHit_none_iff _ _ 0).1 hhit
      rw [access_miss p s cache cfg blocks hc hcfg hset hhit]
      refine ⟨rfl, ?_, ?_, fun h => absurd h hno, fun _ => ⟨?_, rfl, rfl⟩⟩
      · simp [Outcome.statistics?, statisticsOf]
      · simp only [Outcome.result?, hno, iff_false, Option.some.injEq]
        split <;> simp [hit_or_miss_ne]
      · simp only [Outcome.result?]
        split <;> simp
  · intro p0 s0 calls a hv
    have hs : Shaped (configOf p0) (runCalls calls (createdFrom p0 s0)) := by
      rw [createdFrom_eq]
      exact shaped_runCalls _ calls _ (shaped_create p0 s0)
    obtain ⟨cache, blocks, hc, hset, -, -⟩ :=
      selected_of_valid (configOf p0) _ a (validConfig_configOf p0 hv) hs
    exact ⟨blocks, by simp [selectedSet, hc, hs.1, hset]⟩

/-- C2, witness: a read of address 0 in the cache `/create` builds by default. -/
theorem C2_access_counts_witness :
    (simulateResponse "/access" (accessParams (some 0) "READ")
      (createdFrom noParams initialState)).2.accessCount = 0 + 1 :=
  (C2_access_counts.1 (createdFrom noParams initialState) (accessParams (some 0) "READ")
    [emptyBlock, emptyBlock, emptyBlock, emptyBlock] (by decide)).1

/-- C2, counterexample: after `/create` with size 32, block size 32 and
associativity 4, `/access` of address `0x20` finds no resident block, yet returns
no result at all (it throws) and counts no miss, although it counts the access. -/
theorem C2_counterexample :
    ¬ Resident (createdFrom (createParams (some 32) (some 32) (some 4) none none none)
        initialState) (some 32) ∧
    (simulateResponse "/access" (accessParams (some 32) "READ")
      (createdFrom (createParams (some 32) (some 32) (some 4) none none none)
        initialState)).1 = Outcome.threw ∧
    (simulateResponse "/access" (accessParams (some 32) "READ")
      (createdFrom (createParams (some 32) (some 32) (some 4) none none none)
        initialState)).2.missCount = 0 ∧
    (simulateResponse "/access" (accessParams (some 32) "READ")
      (createdFrom (createParams (some 32) (some 32) (some 4) none none none)
        initialState)).2.accessCount = 1 := by
  refine ⟨?_, by decide, by decide, by decide⟩
  rintro ⟨blocks, hsel, -⟩
  have : selectedSet (createdFrom (createParams (some 32) (some 32) (some 4) none none none)
      initialState) (some 32) = none := by decide
  rw [this] at hsel
  cases hsel

/-- C3 (as amended): for a configuration whose block size is `2 ^ ob` and whose
number of sets is `2 ^ ib`, the set index `/access` computes lies in
`0 .. numSets - 1` for every address; and for every address `0 ≤ a < 2 ^ 31`,
when `ob + ib ≤ 31`, the index is `(a / 2 ^ ob) % 2 ^ ib`, the tag is
`a / 2 ^ (ob + ib)`, and `(tag << (offsetBits + indexBits)) | (setIndex << offsetBits)`
is `a` with its low `ob` bits cleared. -/
theorem C3_decode_roundtrip (cfg : CacheConfig) (ob ib : Nat)
    (hb : cfg.blockSize = 2 ^ ob) (hd : 0 < cfg.numSets.den)
    (hn : cfg.numSets.num = 2 ^ ib * cfg.numSets.den) :
    (∀ a : Option Int, 0 ≤ setIndexOf cfg a ∧ setIndexOf cfg a < 2 ^ ib) ∧
    (∀ a : Int, 0 ≤ a → a < 2 ^ 31 → ob + ib ≤ 31 →
      setIndexOf cfg (some a) = (a / 2 ^ ob) % 2 ^ ib ∧
      tagOf cfg (some a) = a / 2 ^ (ob + ib) ∧
      jsOr (jsShl (tagOf cfg (some a))
            ((Math_log2 (Frac.ofInt cfg.blockSize)).add (Math_log2 cfg.numSets)))
          (jsShl (setIndexOf cfg (some a)) (Math_log2 (Frac.ofInt cfg.blockSize)))
        = a - a % 2 ^ ob) := by
  obtain ⟨hso, hsi, hss⟩ := decode_shifts cfg ob ib hb hd hn
  constructor
  · intro a
    have h := jsAnd_mask (jsShr (toInt32? a) (Math_log2 (Frac.ofInt cfg.blockSize)))
      (Math_log2 cfg.numSets)
    have hlt : toUint32 (jsShr (toInt32? a) (Math_log2 (Frac.ofInt cfg.blockSize)))
        % 2 ^ shiftCount (Math_log2 cfg.numSets) < 2 ^ ib := by
      rw [hsi]
      calc _ < 2 ^ (ib % 32) := Nat.mod_lt _ (Nat.two_pow_pos _)
        _ ≤ 2 ^ ib := Nat.pow_le_pow_right (by decide) (Nat.mod_le _ _)
    unfold setIndexOf
    simp only
    rw [h]
    refine ⟨Int.ofNat_nonneg _, ?_⟩
    exact_mod_cast hlt
  · intro a h0 hlt hle
    obtain ⟨A, rfl⟩ := Int.eq_ofNat_of_zero_le h0
    have hA : A < 2147483648 := by
      have : (A : Int) < 2147483648 := by simpa using hlt
      omega
    have hob : ob % 32 = ob := Nat.mod_eq_of_lt (by omega)
    have hib : ib % 32 = ib := Nat.mod_eq_of_lt (by omega)
    have hsum : (ob + ib) % 32 = ob + ib := Nat.mod_eq_of_lt (by omega)
    rw [hob] at hso
    rw [hib] at hsi
    rw [hsum] at hss
    have hQ : A / 2 ^ ob ≤ A := Nat.div_le_self _ _
    have hidx : setIndexOf cfg (some (A : Int)) = ((A / 2 ^ ob % 2 ^ ib : Nat) : Int) := by
      unfold setIndexOf
      simp only [toInt32?]
      rw [jsAnd_mask, toInt32_natCast A hA, jsShr_natCast A _ hA, hso, hsi,
        toUint32_natCast _ (by omega)]
    have htag : tagOf cfg (some (A : Int)) = ((A / 2 ^ (ob + ib) : Nat) : Int) := by
      unfold tagOf
      simp only [toInt32?]
      rw [toInt32_natCast A hA, jsShr_natCast A _ hA, hss]
    have hT : A / 2 ^ (ob + ib) * 2 ^ (ob + ib) ≤ A := Nat.div_mul_le_self _ _
    have hS1 : A / 2 ^ ob % 2 ^ ib ≤ A / 2 ^ ob := Nat.mod_le _ _
    have hS2 : A / 2 ^ ob * 2 ^ ob ≤ A := Nat.div_mul_le_self _ _
    have hS : A / 2 ^ ob % 2 ^ ib * 2 ^ ob ≤ A :=
      le_trans (Nat.mul_le_mul_right _ hS1) hS2
    have hSlt : A / 2 ^ ob % 2 ^ ib * 2 ^ ob < 2 ^ (ob + ib) := by
      have : A / 2 ^ ob % 2 ^ ib < 2 ^ ib := Nat.mod_lt _ (Nat.two_pow_pos _)
      rw [pow_add, Nat.mul_comm (2 ^ ob)]
      exact Nat.mul_lt_mul_of_pos_right this (Nat.two_pow_pos _)
    have hsplit : 2 ^ (ob + ib) * (A / 2 ^ (ob + ib)) + A / 2 ^ ob % 2 ^ ib * 2 ^ ob
        = 2 ^ ob * (A / 2 ^ ob) := by
      rw [pow_add, ← Nat.div_div_eq_div_mul]
      have := Nat.div_add_mod (A / 2 ^ ob) (2 ^ ib)
      calc 2 ^ ob * 2 ^ ib * (A / 2 ^ ob / 2 ^ ib) + A / 2 ^ ob % 2 ^ ib * 2 ^ ob
          = 2 ^ ob * (2 ^ ib * (A / 2 ^ ob / 2 ^ ib) + A / 2 ^ ob % 2 ^ ib) := by ring
        _ = 2 ^ ob * (A / 2 ^ ob) := by rw [this]
    refine ⟨?_, ?_, ?_⟩
    · rw [hidx]; push_cast; rfl
    · rw [htag]; push_cast; rfl
    · rw [hidx, htag, jsShl_natCast _ _ (by rw [hss]; omega),
        jsShl_natCast _ _ (by rw [hso]; omega), hss, hso,
        Nat.mul_comm (A / 2 ^ (ob + ib)) (2 ^ (ob + ib)),
        jsOr_disjoint (ob + ib) _ _ hSlt (by rw [hsplit]; rw [Nat.mul_comm]; omega), hsplit]
      have hdm := Nat.div_add_mod A (2 ^ ob)
      have hcast : ((A : Int) % 2 ^ ob) = ((A % 2 ^ ob : Nat) : Int) := by
        push_cast; rfl
      rw [hcast]
      omega

/-- C3, witness: the default geometry (block size 32, 8 sets) and address `0x1000`. -/
theorem C3_decode_roundtrip_witness :
    setIndexOf (configOf noParams) (some 4096) = (4096 / 2 ^ 5) % 2 ^ 3 ∧
    tagOf (configOf noParams) (some 4096) = 4096 / 2 ^ (5 + 3) :=
  ⟨((C3_decode_roundtrip (configOf noParams) 5 3 (by decide) (by decide) (by decide)).2
      4096 (by decide) (by decide) (by decide)).1,
    ((C3_decode_roundtrip (configOf noParams) 5 3 (by decide) (by decide) (by decide)).2
      4096 (by decide) (by decide) (by decide)).2.1⟩

/-- C3, counterexample: with block size 32 and 8 sets, the address `0x100000000`
decodes to tag 0 and set 0, like address 0: the shifts work on 32 bits, and
putting tag and index together again gives 0, not the address. -/
theorem C3_counterexample :
    tagOf (configOf noParams) (some 4294967296) = 0 ∧
    setIndexOf (configOf noParams) (some 4294967296) = 0 ∧
    jsOr (jsShl (tagOf (configOf noParams) (some 4294967296))
          ((Math_log2 (Frac.ofInt (configOf noParams).blockSize)).add
            (Math_log2 (configOf noParams).numSets)))
        (jsShl (setIndexOf (configOf noParams) (some 4294967296))
          (Math_log2 (Frac.ofInt (configOf noParams).blockSize))) = 0 ∧
    (4294967296 : Int) - 4294967296 % 2 ^ 5 = 4294967296 ∧
    jsOr (jsShl (tagOf (configOf noParams) (some 4294967296))
          ((Math_log2 (Frac.ofInt (configOf noParams).blockSize)).add
            (Math_log2 (configOf noParams).numSets)))
        (jsShl (setIndexOf (configOf noParams) (some 4294967296))
          (Math_log2 (Frac.ofInt (configOf noParams).blockSize)))
      ≠ (4294967296 : Int) - 4294967296 % 2 ^ 5 := by
  decide

/-- C4: after `/create` with valid geometry and any calls of `/access` and
`/reset`, two `/access` READ calls in a row on one address make the second one
return `HIT`; when the block of the address was not resident before the first
call, the first call returns `MISS`; and no block is resident in a freshly
created cache. -/
theorem C4_read_twice_hits (p0 : Params) (s0 : SimulationState) (calls : List Call)
    (a : Option Int) (hv : ValidGeometry p0) :
    (simulateResponse "/access" (accessParams a "READ")
      (simulateResponse "/access" (accessParams a "READ")
        (runCalls calls (createdFrom p0 s0))).2).1.result? = some "HIT" ∧
    (¬ Resident (runCalls calls (createdFrom p0 s0)) a →
      (simulateResponse "/access" (accessParams a "READ")
        (runCalls calls (createdFrom p0 s0))).1.result? = some "MISS") ∧
    ¬ Resident (createdFrom p0 s0) a := by
  have hs : Shaped (configOf p0) (runCalls calls (createdFrom p0 s0)) := by
    rw [createdFrom_eq]
    exact shaped_runCalls _ calls _ (shaped_create p0 s0)
  have hvc := validConfig_configOf p0 hv
  obtain ⟨cache, blocks, hc, hset, hne, htime⟩ :=
    selected_of_valid (configOf p0) _ a hvc hs
  have hcfg := hs.1
  refine ⟨?_, ?_, not_resident_created p0 s0 a⟩
  · obtain ⟨blocks1, hc1, hcfg1, hholds⟩ :=
      access_then_resident (accessParams a "READ") _ cache (configOf p0) blocks hc hcfg hset
        hne htime
    rw [simulateResponse_access, simulateResponse_access]
    rw [access_result_of_holds (accessParams a "READ") _ _ (configOf p0) blocks1 hc1 hcfg1
      (jsIndex_set cache _ blocks blocks1 hset) hholds]
    rfl
  · intro hno
    have hno2 : ¬ Holds blocks (tagOf (configOf p0) a) := by
      intro hh
      apply hno
      refine ⟨blocks, by simp [selectedSet, hc, hcfg]; exact hset, ?_⟩
      simpa [selectedTag, hcfg] using hh
    rw [simulateResponse_access]
    rw [access_result_of_not_holds (accessParams a "READ") _ cache (configOf p0) blocks hc hcfg
      hset hno2]
    rfl

/-- C4, witness: address `0x1000` read twice in the default cache. -/
theorem C4_read_twice_hits_witness :
    (simulateResponse "/access" (accessParams (some 4096) "READ")
      (simulateResponse "/access" (accessParams (some 4096) "READ")
        (runCalls [] (createdFrom (createParams (some 1024) (some 32) (some 4) none none none)
          initialState))).2).1.result? = some "HIT" :=
  (C4_read_twice_hits (createParams (some 1024) (some 32) (some 4) none none none)
    initialState [] (some 4096) ⟨5, 2, 3, rfl, rfl, rfl⟩).1

/-- C5: when `/access` misses in a non-empty set all of whose blocks are valid,
in a state reached from `/create` (whatever the policy, LRU included), the block
replaced is the one with the smallest `lastAccessed`, the lowest slot winning
ties; a hit, read or write, stamps the hit block with the new access count, and
so does every installation of a block; and with two blocks per set under LRU,
reading same-set addresses A, B, A, C after `/create` evicts B and leaves A and C
resident. -/
theorem C5_lru_eviction :
    (∀ (p0 : Params) (s0 : SimulationState) (calls : List Call) (p : Params)
        (blocks : List Block),
      selectedSet (runCalls calls (createdFrom p0 s0)) p.address = some blocks →
      blocks ≠ [] → (∀ b ∈ blocks, b.valid = true) →
      ¬ Holds blocks (selectedTag (runCalls calls (createdFrom p0 s0)) p.address) →
      ∃ v old, blocks[v]? = some old ∧
        (∀ (m : Nat) (c : Block), blocks[m]? = some c → old.lastAccessed ≤ c.lastAccessed) ∧
        (∀ (m : Nat) (c : Block), m < v → blocks[m]? = some c →
          old.lastAccessed < c.lastAccessed) ∧
        selectedSet (afterAccess p (runCalls calls (createdFrom p0 s0))) p.address =
          some (blocks.set v
            ⟨true, decide (stringOr p.operation "READ" = "WRITE" ∧
                (configOf p0).writePolicy = "WRITE_BACK"),
              selectedTag (runCalls calls (createdFrom p0 s0)) p.address,
              (runCalls calls (createdFrom p0 s0)).accessCount + 1⟩)) ∧
    (∀ (s : SimulationState) (p : Params) (blocks : List Block) (i : Nat),
      selectedSet s p.address = some blocks →
      findHit (selectedTag s p.address) blocks 0 = some i →
      ∃ old new blocks1, blocks[i]? = some old ∧
        selectedSet (afterAccess p s) p.address = some blocks1 ∧
        blocks1[i]? = some new ∧ new.lastAccessed = s.accessCount + 1 ∧
        new.valid = old.valid ∧ new.tag = old.tag) ∧
    (∀ (p0 : Params) (s0 : SimulationState) (calls : List Call) (p : Params)
        (blocks : List Block),
      selectedSet (runCalls calls (createdFrom p0 s0)) p.address = some blocks →
      blocks ≠ [] →
      ¬ Holds blocks (selectedTag (runCalls calls (createdFrom p0 s0)) p.address) →
      ∃ v new, v < blocks.length ∧
        selectedSet (afterAccess p (runCalls calls (createdFrom p0 s0))) p.address =
          some (blocks.set v new) ∧
        new.lastAccessed = (runCalls calls (createdFrom p0 s0)).accessCount + 1) ∧
    (∀ (p0 : Params) (s0 : SimulationState) (A B C : Option Int),
      ValidGeometry p0 → p0.associativity = some 2 → p0.replacement_policy = some "LRU" →
      setIndexOf (configOf p0) B = setIndexOf (configOf p0) A →
      setIndexOf (configOf p0) C = setIndexOf (configOf p0) A →
      tagOf (configOf p0) A ≠ tagOf (configOf p0) B →
      tagOf (configOf p0) A ≠ tagOf (configOf p0) C →
      tagOf (configOf p0) B ≠ tagOf (configOf p0) C →
      Resident (afterRead C (afterRead A (afterRead B (afterRead A (createdFrom p0 s0))))) A ∧
      Resident (afterRead C (afterRead A (afterRead B (afterRead A (createdFrom p0 s0))))) C ∧
      ¬ Resident (afterRead C (afterRead A (afterRead B (afterRead A (createdFrom p0 s0))))) B) := by
  refine ⟨?_, ?_, ?_, ?_⟩
  · intro p0 s0 calls p blocks hsel hne hfull hmiss
    exact evict_oldest p _ (configOf p0) blocks (shaped_reachable p0 s0 calls) hsel hne hfull
      hmiss
  · intro s p blocks i hsel hhit
    obtain ⟨cache, cfg, -, hcfg, -, -⟩ := selectedSet_some s p.address blocks hsel
    obtain ⟨old, hold, -, -, hnew, hget⟩ := hit_effect p s cfg blocks i hcfg hsel hhit
    exact ⟨old, _, _, hold, hnew, hget, touch_lastAccessed _ _ _ _, touch_valid _ _ _ _,
      touch_tag _ _ _ _⟩
  · intro p0 s0 calls p blocks hsel hne hmiss
    obtain ⟨hcfg, htime⟩ := reachable_timed p0 s0 calls p.address blocks hsel
    obtain ⟨h1, -, -, -⟩ := miss_effect p _ (configOf p0) blocks hcfg hsel hmiss
    obtain ⟨v, hv, hvlt⟩ := victimIndex_some blocks _ hne htime
    rw [hv] at h1
    exact ⟨v, _, hvlt, h1, rfl⟩
  · intro p0 s0 A B C hv hw _ hB hC hAB hAC hBC
    exact (abac_two_way p0 s0 A B C hv hw hB hC hAB hAC hBC).2

/-- C5, witness: size 128, block size 32, two ways, LRU; the addresses `0x00`,
`0x40` and `0x80` all select set 0, with tags 0, 1 and 2. -/
theorem C5_lru_eviction_witness :
    Resident (afterRead (some 128) (afterRead (some 0) (afterRead (some 64) (afterRead (some 0)
      (createdFrom (createParams (some 128) (some 32) (some 2) (some "LRU") none none)
        initialState))))) (some 0) ∧
    Resident (afterRead (some 128) (afterRead (some 0) (afterRead (some 64) (afterRead (some 0)
      (createdFrom (createParams (some 128) (some 32) (some 2) (some "LRU") none none)
        initialState))))) (some 128) ∧
    ¬ Resident (afterRead (some 128) (afterRead (some 0) (afterRead (some 64)
      (afterRead (some 0)
      (createdFrom (createParams (some 128) (some 32) (some 2) (some "LRU") none none)
        initialState))))) (some 64) :=
  C5_lru_eviction.2.2.2 (createParams (some 128) (some 32) (some 2) (some "LRU") none none)
    initialState (some 0) (some 64) (some 128) ⟨5, 1, 1, rfl, rfl, rfl⟩ rfl rfl
    (by decide) (by decide) (by decide) (by decide) (by decide)

/-- C6 (as amended): with `replacement_policy` FIFO and two blocks per set,
reading same-set addresses A, B, A, C after `/create` evicts B, the least
recently used block, exactly as under LRU: afterwards A, re-stamped by its second
read, and C are resident and B is not. -/
theorem C6_fifo_evicts_like_lru (p0 : Params) (s0 : SimulationState) (A B C : Option Int)
    (hv : ValidGeometry p0) (hw : p0.associativity = some 2)
    (_hfifo : p0.replacement_policy = some "FIFO")
    (hB : setIndexOf (configOf p0) B = setIndexOf (configOf p0) A)
    (hC : setIndexOf (configOf p0) C = setIndexOf (configOf p0) A)
    (hAB : tagOf (configOf p0) A ≠ tagOf (configOf p0) B)
    (hAC : tagOf (configOf p0) A ≠ tagOf (configOf p0) C)
    (hBC : tagOf (configOf p0) B ≠ tagOf (configOf p0) C) :
    selectedSet (afterRead C (afterRead A (afterRead B (afterRead A (createdFrom p0 s0))))) A =
      some [⟨true, false, tagOf (configOf p0) A, 3⟩, ⟨true, false, tagOf (configOf p0) C, 4⟩] ∧
    Resident (afterRead C (afterRead A (afterRead B (afterRead A (createdFrom p0 s0))))) A ∧
    Resident (afterRead C (afterRead A (afterRead B (afterRead A (createdFrom p0 s0))))) C ∧
    ¬ Resident (afterRead C (afterRead A (afterRead B (afterRead A (createdFrom p0 s0))))) B :=
  abac_two_way p0 s0 A B C hv hw hB hC hAB hAC hBC

/-- C6, witness: size 128, block size 32, two ways, FIFO; addresses `0x00`, `0x40`
and `0x80`. -/
theorem C6_fifo_evicts_like_lru_witness :
    ¬ Resident (afterRead (some 128) (afterRead (some 0) (afterRead (some 64)
      (afterRead (some 0)
      (createdFrom (createParams (some 128) (some 32) (some 2) (some "FIFO") none none)
        initialState))))) (some 64) :=
  (C6_fifo_evicts_like_lru (createParams (some 128) (some 32) (some 2) (some "FIFO") none none)
    initialState (some 0) (some 64) (some 128) ⟨5, 1, 1, rfl, rfl, rfl⟩ rfl rfl
    (by decide) (by decide) (by decide) (by decide) (by decide)).2.2.2

/-- C6, counterexample: size 128, block size 32, two ways, FIFO.  After reading
`0x00`, `0x40`, `0x00`, `0x80` (tags 0, 1, 2 of set 0) the set holds tag 0 in
slot 0 and tag 2 in slot 1: A, the first block inserted, is still resident and
B is the one evicted. -/
theorem C6_counterexample :
    (configOf (createParams (some 128) (some 32) (some 2) (some "FIFO") none
      none)).replacementPolicy = "FIFO" ∧
    selectedSet (afterRead (some 128) (afterRead (some 0) (afterRead (some 64)
      (afterRead (some 0)
      (createdFrom (createParams (some 128) (some 32) (some 2) (some "FIFO") none none)
        initialState))))) (some 0) = some [⟨true, false, 0, 3⟩, ⟨true, false, 2, 4⟩] ∧
    Resident (afterRead (some 128) (afterRead (some 0) (afterRead (some 64)
      (afterRead (some 0)
      (createdFrom (createParams (some 128) (some 32) (some 2) (some "FIFO") none none)
        initialState))))) (some 0) ∧
    ¬ Resident (afterRead (some 128) (afterRead (some 0) (afterRead (some 64)
      (afterRead (some 0)
      (createdFrom (createParams (some 128) (some 32) (some 2) (some "FIFO") none none)
        initialState))))) (some 64) :=
  ⟨by decide, by decide,
    (abac_two_way (createParams (some 128) (some 32) (some 2) (some "FIFO") none none)
      initialState (some 0) (some 64) (some 128) ⟨5, 1, 1, rfl, rfl, rfl⟩ rfl
      (by decide) (by decide) (by decide) (by decide) (by decide)).2.1,
    (abac_two_way (createParams (some 128) (some 32) (some 2) (some "FIFO") none none)
      initialState (some 0) (some 64) (some 128) ⟨5, 1, 1, rfl, rfl, rfl⟩ rfl
      (by decide) (by decide) (by decide) (by decide) (by decide)).2.2.2⟩

/-- C7 (as amended): `/create` does not read `write_miss_policy`, so the state
it builds is the same for every value of it; under NO_WRITE_ALLOCATE an
`/access` WRITE that misses in a non-empty set of a state reached from `/create`
returns `WRITE_MISS`, counts one more miss and no hit, and installs a valid
block with the decoded tag in the selected set, which therefore changes. -/
theorem C7_write_miss_allocates :
    (∀ (p0 : Params) (x : Option String) (s0 : SimulationState),
      createdFrom { p0 with write_miss_policy := x } s0 = createdFrom p0 s0) ∧
    (∀ (p0 : Params) (s0 : SimulationState) (calls : List Call) (a : Option Int)
        (blocks : List Block),
      p0.write_miss_policy = some "NO_WRITE_ALLOCATE" →
      selectedSet (runCalls calls (createdFrom p0 s0)) a = some blocks →
      blocks ≠ [] →
      ¬ Holds blocks (selectedTag (runCalls calls (createdFrom p0 s0)) a) →
      (simulateResponse "/access" (accessParams a "WRITE")
        (runCalls calls (createdFrom p0 s0))).1.result? = some "WRITE_MISS" ∧
      (afterAccess (accessParams a "WRITE") (runCalls calls (createdFrom p0 s0))).missCount =
        (runCalls calls (createdFrom p0 s0)).missCount + 1 ∧
      (afterAccess (accessParams a "WRITE") (runCalls calls (createdFrom p0 s0))).hitCount =
        (runCalls calls (createdFrom p0 s0)).hitCount ∧
      ∃ blocks1,
        selectedSet (afterAccess (accessParams a "WRITE") (runCalls calls (createdFrom p0 s0)))
          a = some blocks1 ∧
        Holds blocks1 (selectedTag (runCalls calls (createdFrom p0 s0)) a) ∧
        blocks1 ≠ blocks) := by
  refine ⟨create_ignores_write_miss_policy, ?_⟩
  intro p0 s0 calls a blocks _ hsel hne hmiss
  obtain ⟨hcfg, htime⟩ := reachable_timed p0 s0 calls a blocks hsel
  obtain ⟨h1, h2, h3, h4⟩ :=
    miss_effect (accessParams a "WRITE") _ (configOf p0) blocks hcfg hsel hmiss
  obtain ⟨v, hv, hvlt⟩ := victimIndex_some blocks _ hne htime
  refine ⟨h2, h3, h4, _, h1, ?_, ?_⟩
  · rw [hv]
    exact holds_storeAt _ _ _ _ _ _ hvlt
  · intro heq
    apply hmiss
    rw [← heq, hv]
    exact holds_storeAt _ _ _ _ _ _ hvlt

/-- C7, witness: the default cache created with NO_WRITE_ALLOCATE, first write
to address 0. -/
theorem C7_write_miss_allocates_witness :
    (simulateResponse "/access" (accessParams (some 0) "WRITE")
      (runCalls [] (createdFrom
        (createParams none none none none none (some "NO_WRITE_ALLOCATE"))
        initialState))).1.result? = some "WRITE_MISS" :=
  (C7_write_miss_allocates.2
    (createParams none none none none none (some "NO_WRITE_ALLOCATE")) initialState []
    (some 0) [emptyBlock, emptyBlock, emptyBlock, emptyBlock] rfl (by decide) (by decide)
    (by rintro ⟨b, hb, hv, -⟩
        simp only [List.mem_cons, List.mem_singleton, List.not_mem_nil, or_false,
          or_self] at hb
        subst hb
        exact absurd hv (by decide))).1

/-- C7, counterexample: size 1024, block size 32, four ways, WRITE_BACK and
NO_WRITE_ALLOCATE.  The first write to address 0 misses and puts a valid, dirty
block with tag 0 into slot 0 of set 0, which held four invalid blocks. -/
theorem C7_counterexample :
    selectedSet (createdFrom (createParams (some 1024) (some 32) (some 4) (some "LRU")
        (some "WRITE_BACK") (some "NO_WRITE_ALLOCATE")) initialState) (some 0) =
      some [emptyBlock, emptyBlock, emptyBlock, emptyBlock] ∧
    (simulateResponse "/access" (accessParams (some 0) "WRITE")
      (createdFrom (createParams (some 1024) (some 32) (some 4) (some "LRU")
        (some "WRITE_BACK") (some "NO_WRITE_ALLOCATE")) initialState)).1.result?
      = some "WRITE_MISS" ∧
    selectedSet (afterAccess (accessParams (some 0) "WRITE")
      (createdFrom (createParams (some 1024) (some 32) (some 4) (some "LRU")
        (some "WRITE_BACK") (some "NO_WRITE_ALLOCATE")) initialState)) (some 0) =
      some [⟨true, true, 0, 1⟩, emptyBlock, emptyBlock, emptyBlock] := by
  decide

/-- C8: on an `/access` hit the hit block keeps its slot, and its dirty flag
afterwards is the flag before or-ed with "the operation is WRITE and the write
policy is WRITE_BACK": a WRITE hit under WRITE_BACK leaves it set, a READ hit and
a hit under WRITE_THROUGH leave it as it was; the `/contents` snapshot taken next
reports that flag for that set and slot. -/
theorem C8_hit_dirty (s : SimulationState) (p : Params) (cfg : CacheConfig)
    (blocks : List Block) (i : Nat) (hcfg : s.cacheConfig = some cfg)
    (hsel : selectedSet s p.address = some blocks)
    (hhit : findHit (selectedTag s p.address) blocks 0 = some i) :
    ∃ old new blocks1 views, blocks[i]? = some old ∧
      selectedSet (afterAccess p s) p.address = some blocks1 ∧ blocks1[i]? = some new ∧
      new.dirty = (old.dirty ||
        decide (stringOr p.operation "READ" = "WRITE" ∧ cfg.writePolicy = "WRITE_BACK")) ∧
      (stringOr p.operation "READ" = "WRITE" → cfg.writePolicy = "WRITE_BACK" →
        new.dirty = true) ∧
      (stringOr p.operation "READ" = "READ" → new.dirty = old.dirty) ∧
      (cfg.writePolicy = "WRITE_THROUGH" → new.dirty = old.dirty) ∧
      (simulateResponse "/contents" noParams (afterAccess p s)).1.contents? = some views ∧
      (views[(setIndexOf cfg p.address).toNat]?).map SetView.set =
        some (setIndexOf cfg p.address).toNat ∧
      ((views[(setIndexOf cfg p.address).toNat]?).bind (fun v => v.blocks[i]?)) =
        some ⟨i, true, new.dirty, toHexString (selectedTag s p.address)⟩ := by
  obtain ⟨old, hold, hv, ht, hnew, hget⟩ := hit_effect p s cfg blocks i hcfg hsel hhit
  have hcfg1 : (afterAccess p s).cacheConfig = some cfg :=
    (setIs_access cfg s p.address s.accessCount blocks p ⟨hcfg, rfl, hsel⟩ rfl).1
  obtain ⟨cfg1, views, hcfg2, hviews, hsetv, hblockv⟩ :=
    contents_reports (afterAccess p s) p.address _ i _ hnew hget
  have : cfg1 = cfg := by rw [hcfg1] at hcfg2; exact (Option.some.inj hcfg2).symm
  subst this
  have hd := touch_dirty (stringOr p.operation "READ") cfg1.writePolicy (s.accessCount + 1) old
  refine ⟨old, _, _, views, hold, hnew, hget, hd, ?_, ?_, ?_, hviews, hsetv, ?_⟩
  · intro h1 h2
    rw [hd]
    simp [h1, h2]
  · intro h1
    rw [hd]
    have : ¬ (stringOr p.operation "READ" = "WRITE") := by rw [h1]; decide
    simp [this]
  · intro h1
    rw [hd]
    have : ¬ (cfg1.writePolicy = "WRITE_BACK") := by rw [h1]; decide
    simp [this]
  · rw [hblockv, touch_valid, touch_tag, hv, ht]

/-- C8, witness: the default geometry under WRITE_BACK; address 0 is read, then
written, and the write hits slot 0 of set 0. -/
theorem C8_hit_dirty_witness :
    ∃ old new blocks1 views,
      [(⟨true, false, 0, 1⟩ : Block), emptyBlock, emptyBlock, emptyBlock][0]? = some old ∧
      selectedSet (afterAccess (accessParams (some 0) "WRITE")
        (afterRead (some 0) (createdFrom (createParams none none none none (some "WRITE_BACK")
          none) initialState))) (some 0) = some blocks1 ∧
      blocks1[0]? = some new ∧ new.dirty = true ∧
      (simulateResponse "/contents" noParams (afterAccess (accessParams (some 0) "WRITE")
        (afterRead (some 0) (createdFrom (createParams none none none none (some "WRITE_BACK")
          none) initialState)))).1.contents? = some views ∧
      ((views[0]?).bind (fun v => v.blocks[0]?)) = some ⟨0, true, new.dirty, "0"⟩ := by
  obtain ⟨old, new, blocks1, views, h1, h2, h3, -, h5, -, -, h8, -, h10⟩ :=
    C8_hit_dirty (afterRead (some 0) (createdFrom (createParams none none none none
        (some "WRITE_BACK") none) initialState))
      (accessParams (some 0) "WRITE")
      (configOf (createParams none none none none (some "WRITE_BACK") none))
      [⟨true, false, 0, 1⟩, emptyBlock, emptyBlock, emptyBlock] 0
      (by decide) (by decide) (by decide)
  exact ⟨old, new, blocks1, views, h1, h2, h3, h5 (by decide) (by decide), h8, h10⟩

/-- C9 (as amended): when `/access` misses in a state reached from `/create`,
whatever the operation and the write-miss policy, then in a set that has a slot
the new block goes into one slot of the selected set, the other slots staying as
they were; afterwards the set holds a valid block with the decoded tag, and every
valid block of the set with that tag is dirty exactly when the operation is WRITE
and the write policy is WRITE_BACK, so that a READ miss installs a clean block.
In a set without a slot the miss is counted and reported, and the set stays
without a slot, so that it holds no block afterwards. -/
theorem C9_miss_installs (p0 : Params) (s0 : SimulationState) (calls : List Call)
    (p : Params) (blocks : List Block)
    (hsel : selectedSet (runCalls calls (createdFrom p0 s0)) p.address = some blocks)
    (hmiss : ¬ Holds blocks (selectedTag (runCalls calls (createdFrom p0 s0)) p.address)) :
    (blocks ≠ [] →
      ∃ v new, v < blocks.length ∧
        selectedSet (afterAccess p (runCalls calls (createdFrom p0 s0))) p.address =
          some (blocks.set v new) ∧
        new.valid = true ∧
        new.tag = selectedTag (runCalls calls (createdFrom p0 s0)) p.address ∧
        Holds (blocks.set v new) (selectedTag (runCalls calls (createdFrom p0 s0)) p.address) ∧
        (∀ b ∈ blocks.set v new, b.valid = true →
          b.tag = selectedTag (runCalls calls (createdFrom p0 s0)) p.address →
          (b.dirty = true ↔
            stringOr p.operation "READ" = "WRITE" ∧ (configOf p0).writePolicy = "WRITE_BACK")) ∧
        (stringOr p.operation "READ" = "READ" → new.dirty = false)) ∧
    (blocks = [] →
      (simulateResponse "/access" p (runCalls calls (createdFrom p0 s0))).1.result? =
        some (if stringOr p.operation "READ" = "READ" then "MISS" else "WRITE_MISS") ∧
      (afterAccess p (runCalls calls (createdFrom p0 s0))).missCount =
        (runCalls calls (createdFrom p0 s0)).missCount + 1 ∧
      selectedSet (afterAccess p (runCalls calls (createdFrom p0 s0))) p.address = some [] ∧
      ∀ tag, ¬ Holds [] tag) := by
  obtain ⟨hcfg, htime⟩ := reachable_timed p0 s0 calls p.address blocks hsel
  obtain ⟨h1, h2, h3, -⟩ := miss_effect p _ (configOf p0) blocks hcfg hsel hmiss
  refine ⟨?_, ?_⟩
  · intro hne
    obtain ⟨v, hv, hvlt⟩ := victimIndex_some blocks _ hne htime
    rw [hv] at h1
    refine ⟨v, _, hvlt, h1, rfl, rfl, holds_storeAt _ _ _ _ _ _ hvlt, ?_, ?_⟩
    · intro b hb hvalid htag
      rcases List.mem_or_eq_of_mem_set hb with hb1 | rfl
      · exact absurd ⟨b, hb1, hvalid, htag⟩ hmiss
      · exact installed_dirty_iff _ _ _ _
    · intro hop
      have : ¬ (stringOr p.operation "READ" = "WRITE") := by rw [hop]; decide
      simp [installed, this]
  · intro hnil
    subst hnil
    refine ⟨h2, h3, h1, ?_⟩
    rintro tag ⟨b, hb, -⟩
    exact absurd hb (List.not_mem_nil b)

/-- C9, witness: the first read of address 0 in the default cache. -/
theorem C9_miss_installs_witness :
    ∃ v new, v < [emptyBlock, emptyBlock, emptyBlock, emptyBlock].length ∧
      selectedSet (afterAccess (accessParams (some 0) "READ")
        (runCalls [] (createdFrom noParams initialState))) (some 0) =
        some ([emptyBlock, emptyBlock, emptyBlock, emptyBlock].set v new) ∧
      new.valid = true ∧ new.dirty = false := by
  obtain ⟨v, new, h1, h2, h3, -, -, -, h7⟩ :=
    (C9_miss_installs noParams initialState [] (accessParams (some 0) "READ")
      [emptyBlock, emptyBlock, emptyBlock, emptyBlock] (by decide)
      (by rintro ⟨b, hb, hv, -⟩
          simp only [List.mem_cons, List.mem_singleton, List.not_mem_nil, or_false,
            or_self] at hb
          subst hb
          exact absurd hv (by decide))).1 (by decide)
  exact ⟨v, new, h1, h2, h3, h7 (by decide)⟩

/-- C9, counterexample: `/create` with size -1024, block size 32 and
associativity -4 stores `numSets = 8` and builds eight sets without a slot.
The READ of address 0 selects set 0, returns `MISS` and counts one miss; the set
has no slot afterwards, so it holds no valid block with tag 0, and the same READ
misses again. -/
theorem C9_counterexample :
    (createdFrom (createParams (some (-1024)) (some 32) (some (-4)) none none none)
      initialState).cache = some (List.replicate 8 []) ∧
    (createdFrom (createParams (some (-1024)) (some 32) (some (-4)) none none none)
      initialState).cacheConfig.map CacheConfig.numSets = some ⟨-1024, -128⟩ ∧
    selectedSet (createdFrom (createParams (some (-1024)) (some 32) (some (-4)) none none
      none) initialState) (some 0) = some [] ∧
    selectedTag (createdFrom (createParams (some (-1024)) (some 32) (some (-4)) none none
      none) initialState) (some 0) = 0 ∧
    (simulateResponse "/access" (accessParams (some 0) "READ")
      (createdFrom (createParams (some (-1024)) (some 32) (some (-4)) none none none)
        initialState)).1.result? = some "MISS" ∧
    (afterRead (some 0) (createdFrom (createParams (some (-1024)) (some 32) (some (-4)) none
      none none) initialState)).cache = some (List.replicate 8 []) ∧
    (afterRead (some 0) (createdFrom (createParams (some (-1024)) (some 32) (some (-4)) none
      none none) initialState)).missCount = 1 ∧
    selectedSet (afterRead (some 0) (createdFrom (createParams (some (-1024)) (some 32)
      (some (-4)) none none none) initialState)) (some 0) = some [] ∧
    ¬ Resident (afterRead (some 0) (createdFrom (createParams (some (-1024)) (some 32)
      (some (-4)) none none none) initialState)) (some 0) ∧
    (simulateResponse "/access" (accessParams (some 0) "READ")
      (afterRead (some 0) (createdFrom (createParams (some (-1024)) (some 32) (some (-4))
        none none none) initialState))).1.result? = some "MISS" := by
  refine ⟨by decide, by decide, by decide, by decide, by decide, by decide, by decide,
    by decide, ?_, by decide⟩
  rintro ⟨blocks, hsel, b, hb, -⟩
  have h : selectedSet (afterRead (some 0) (createdFrom (createParams (some (-1024)) (some 32)
      (some (-4)) none none none) initialState)) (some 0) = some [] := by decide
  rw [h] at hsel
  cases hsel
  exact absurd hb (List.not_mem_nil b)

/-- C10: when `/access` misses in a set that has an invalid block, whatever
the configured policies, the new block goes into the lowest-index invalid slot,
and every other slot, so every valid block of the set, is left as it was. -/
theorem C10_invalid_slot_first (s : SimulationState) (p : Params) (cfg : CacheConfig)
    (blocks : List Block) (hcfg : s.cacheConfig = some cfg)
    (hsel : selectedSet s p.address = some blocks)
    (hmiss : ¬ Holds blocks (selectedTag s p.address))
    (hinv : ∃ b ∈ blocks, b.valid = false) :
    ∃ v old, blocks[v]? = some old ∧ old.valid = false ∧
      (∀ (m : Nat) (c : Block), m < v → blocks[m]? = some c → c.valid = true) ∧
      selectedSet (afterAccess p s) p.address =
        some (blocks.set v (installed (stringOr p.operation "READ") cfg.writePolicy
          (selectedTag s p.address) (s.accessCount + 1))) ∧
      (∀ (j : Nat), j ≠ v →
        (blocks.set v (installed (stringOr p.operation "READ") cfg.writePolicy
          (selectedTag s p.address) (s.accessCount + 1)))[j]? = blocks[j]?) ∧
      (∀ (j : Nat) (c : Block), blocks[j]? = some c → c.valid = true →
        (blocks.set v (installed (stringOr p.operation "READ") cfg.writePolicy
          (selectedTag s p.address) (s.accessCount + 1)))[j]? = some c) := by
  obtain ⟨h1, -, -, -⟩ := miss_effect p s cfg blocks hcfg hsel hmiss
  cases hfi : findInvalid blocks 0 with
  | none =>
    obtain ⟨b, hb, hbv⟩ := hinv
    have := (findInvalid_none_iff blocks 0).1 hfi b hb
    rw [hbv] at this
    cases this
  | some j =>
    obtain ⟨k, old, hj, hk, hov, hfirst⟩ := findInvalid_some blocks 0 j hfi
    have hjk : j = k := by omega
    subst hjk
    have hvi : victimIndex blocks (s.accessCount + 1) = some j := by
      simp [victimIndex, hfi]
    rw [hvi] at h1
    refine ⟨j, old, hk, hov, hfirst, h1, ?_, ?_⟩
    · intro m hm
      exact List.getElem?_set_ne (Ne.symm hm)
    · intro m c hc hcv
      have hm : j ≠ m := by
        rintro rfl
        rw [hk] at hc
        cases hc
        rw [hov] at hcv
        cases hcv
      rw [List.getElem?_set_ne hm]
      exact hc

/-- C10, witness: address `0x100` (set 0, tag 1) read after address 0 in the
default cache goes to slot 1. -/
theorem C10_invalid_slot_first_witness :
    ∃ v old, [(⟨true, false, 0, 1⟩ : Block), emptyBlock, emptyBlock, emptyBlock][v]? = some old ∧
      old.valid = false ∧
      selectedSet (afterAccess (accessParams (some 256) "READ")
        (afterRead (some 0) (createdFrom noParams initialState))) (some 256) =
        some ([(⟨true, false, 0, 1⟩ : Block), emptyBlock, emptyBlock, emptyBlock].set v
          (installed "READ" "WRITE_THROUGH" 1 2)) := by
  obtain ⟨v, old, h1, h2, -, h4, -, -⟩ :=
    C10_invalid_slot_first (afterRead (some 0) (createdFrom noParams initialState))
      (accessParams (some 256) "READ") (configOf noParams)
      [⟨true, false, 0, 1⟩, emptyBlock, emptyBlock, emptyBlock] (by decide) (by decide)
      (by rintro ⟨b, hb, hv, ht⟩
          simp only [List.mem_cons, List.mem_singleton, List.not_mem_nil, or_false] at hb
          rcases hb with rfl | rfl | rfl | rfl
          · exact absurd ht (by decide)
          · exact absurd hv (by decide)
          · exact absurd hv (by decide)
          · exact absurd hv (by decide))
      ⟨emptyBlock, by simp, rfl⟩
  exact ⟨v, old, h1, h2, h4⟩

/-- C11: in every state reached from `/create`, with valid geometry or any
other, by `/access` and `/reset` calls, two different slots of one set never
both hold a valid block with the same tag. -/
theorem C11_no_duplicate_tags (p0 : Params) (s0 : SimulationState) (calls : List Call)
    (cache : List (List Block)) (blocks : List Block) (i j : Nat) (b c : Block)
    (hc : (runCalls calls (createdFrom p0 s0)).cache = some cache) (hmem : blocks ∈ cache)
    (hb : blocks[i]? = some b) (hcc : blocks[j]? = some c) (hij : i ≠ j)
    (hbv : b.valid = true) (hcv : c.valid = true) : b.tag ≠ c.tag :=
  fun htag => hij (distinct_runCalls calls _ (distinct_created p0 s0) cache hc blocks hmem i j
    b c hb hcc hbv hcv htag)

/-- C11, witness: the default cache after reading `0x1000` and `0x2000`, whose
set 0 holds the tags 16 and 32 in slots 0 and 1. -/
theorem C11_no_duplicate_tags_witness :
    (runCalls [Call.access (accessParams (some 4096) "READ"),
        Call.access (accessParams (some 8192) "READ")]
      (createdFrom (createParams (some 1024) (some 32) (some 4) none none none)
        initialState)).cache =
      some [[⟨true, false, 16, 1⟩, ⟨true, false, 32, 2⟩, emptyBlock, emptyBlock],
        [emptyBlock, emptyBlock, emptyBlock, emptyBlock],
        [emptyBlock, emptyBlock, emptyBlock, emptyBlock],
        [emptyBlock, emptyBlock, emptyBlock, emptyBlock],
        [emptyBlock, emptyBlock, emptyBlock, emptyBlock],
        [emptyBlock, emptyBlock, emptyBlock, emptyBlock],
        [emptyBlock, emptyBlock, emptyBlock, emptyBlock],
        [emptyBlock, emptyBlock, emptyBlock, emptyBlock]] ∧
    (⟨true, false, 16, 1⟩ : Block).tag ≠ (⟨true, false, 32, 2⟩ : Block).tag :=
  ⟨by decide,
    C11_no_duplicate_tags (createParams (some 1024) (some 32) (some 4) none none none)
      initialState
      [Call.access (accessParams (some 4096) "READ"),
        Call.access (accessParams (some 8192) "READ")]
      [[⟨true, false, 16, 1⟩, ⟨true, false, 32, 2⟩, emptyBlock, emptyBlock],
        [emptyBlock, emptyBlock, emptyBlock, emptyBlock],
        [emptyBlock, emptyBlock, emptyBlock, emptyBlock],
        [emptyBlock, emptyBlock, emptyBlock, emptyBlock],
        [emptyBlock, emptyBlock, emptyBlock, emptyBlock],
        [emptyBlock, emptyBlock, emptyBlock, emptyBlock],
        [emptyBlock, emptyBlock, emptyBlock, emptyBlock],
        [emptyBlock, emptyBlock, emptyBlock, emptyBlock]]
      [⟨true, false, 16, 1⟩, ⟨true, false, 32, 2⟩, emptyBlock, emptyBlock] 0 1
      ⟨true, false, 16, 1⟩ ⟨true, false, 32, 2⟩ (by decide) (by decide) (by decide) (by decide)
      (by decide) rfl rfl⟩

/-- C12: in every state that has a cache, `/reset` returns success, makes every
block the empty block (invalid, clean), keeps the number of sets and the number
of slots of each set, zeroes the three counters whatever they were, leaves the
configuration as it is, and a second `/reset` changes nothing more. -/
theorem C12_reset (p : Params) (s : SimulationState) (cache : List (List Block))
    (hc : s.cache = some cache) :
    (simulateResponse "/reset" p s).1.status? = some "success" ∧
    (simulateResponse "/reset" p s).2.cache =
      some (cache.map (fun blocks => blocks.map (fun _ => emptyBlock))) ∧
    (∀ blocks ∈ cache.map (fun blocks => blocks.map (fun _ => emptyBlock)),
      ∀ b ∈ blocks, b.valid = false ∧ b.dirty = false) ∧
    (cache.map (fun blocks => blocks.map (fun _ => emptyBlock))).map List.length =
      cache.map List.length ∧
    (simulateResponse "/reset" p s).2.accessCount = 0 ∧
    (simulateResponse "/reset" p s).2.hitCount = 0 ∧
    (simulateResponse "/reset" p s).2.missCount = 0 ∧
    statisticsOf (simulateResponse "/reset" p s).2 = ⟨0, 0, 0, ⟨0, 1⟩⟩ ∧
    (simulateResponse "/reset" p s).2.cacheConfig = s.cacheConfig ∧
    (simulateResponse "/reset" p (simulateResponse "/reset" p s).2).2 =
      (simulateResponse "/reset" p s).2 := by
  rw [simulateResponse_reset, reset_of_cache s cache hc]
  refine ⟨rfl, rfl, ?_, ?_, rfl, rfl, rfl, rfl, rfl, ?_⟩
  · intro blocks hb b hbb
    obtain ⟨x, -, rfl⟩ := List.mem_map.1 hb
    obtain ⟨y, -, rfl⟩ := List.mem_map.1 hbb
    exact ⟨rfl, rfl⟩
  · simp [List.map_map, Function.comp_def]
  · rw [simulateResponse_reset, reset_of_cache _ _ rfl]
    simp [List.map_map, Function.comp_def]

/-- C12, witness: `/reset` after two reads in the default cache. -/
theorem C12_reset_witness :
    (simulateResponse "/reset" noParams
      (afterRead (some 8192) (afterRead (some 4096) (createdFrom noParams initialState)))).2 =
      createdFrom noParams initialState :=
  ((C12_reset noParams
      (afterRead (some 8192) (afterRead (some 4096) (createdFrom noParams initialState)))
      [[⟨true, false, 16, 1⟩, ⟨true, false, 32, 2⟩, emptyBlock, emptyBlock],
        [emptyBlock, emptyBlock, emptyBlock, emptyBlock],
        [emptyBlock, emptyBlock, emptyBlock, emptyBlock],
        [emptyBlock, emptyBlock, emptyBlock, emptyBlock],
        [emptyBlock, emptyBlock, emptyBlock, emptyBlock],
        [emptyBlock, emptyBlock, emptyBlock, emptyBlock],
        [emptyBlock, emptyBlock, emptyBlock, emptyBlock],
        [emptyBlock, emptyBlock, emptyBlock, emptyBlock]] (by decide)).2.2.2.2.2.2.2.2.2).symm.trans
    (by decide)

/-- C13 (as amended): for every request whose associativity is an integer
`a ≠ 0`, with size `cs` and block size `bs` (after the defaults 1024 and 32 have
replaced a missing, unreadable or zero value), `/create` stores
`numSets = cs / (bs * a)`, builds as many sets as there are natural numbers
below `numSets`, each of `a` empty blocks (none when `a` is negative), and
zeroes the counters; when `cs = n * (bs * a)` with `bs * a > 0` the sets are
`n = numSets` in number. -/
theorem C13_create_geometry (p : Params) (s0 : SimulationState) (a : Int)
    (ha : p.associativity = some a) (hne : a ≠ 0) :
    (createdFrom p s0).cacheConfig.map CacheConfig.numSets =
      some ⟨parseIntOr p.cache_size 1024, parseIntOr p.block_size 32 * a⟩ ∧
    (createdFrom p s0).cacheConfig.map CacheConfig.associativity = some a ∧
    (createdFrom p s0).cache =
      some (List.replicate
        (loopCount ⟨parseIntOr p.cache_size 1024, parseIntOr p.block_size 32 * a⟩)
        (List.replicate a.toNat emptyBlock)) ∧
    (createdFrom p s0).accessCount = 0 ∧ (createdFrom p s0).hitCount = 0 ∧
    (createdFrom p s0).missCount = 0 ∧
    (∀ n : Nat, 0 < parseIntOr p.block_size 32 * a →
      parseIntOr p.cache_size 1024 = (n : Int) * (parseIntOr p.block_size 32 * a) →
      (createdFrom p s0).cache = some (List.replicate n (List.replicate a.toNat emptyBlock))) := by
  have hpa : parseIntOr p.associativity 4 = a := by simp [parseIntOr, ha, hne]
  have hways : waysOf (configOf p) = a.toNat := by
    simp only [waysOf, configOf, hpa, hne, if_false]
    exact loopCount_ofInt a
  have hnum : (configOf p).numSets =
      ⟨parseIntOr p.cache_size 1024, parseIntOr p.block_size 32 * a⟩ := by
    simp only [configOf, hpa, hne, if_false]
  rw [createdFrom_eq, create_state, hways, hnum]
  refine ⟨?_, ?_, rfl, rfl, rfl, rfl, ?_⟩
  · simp [hnum]
  · simp [configOf, hpa]
  · intro n hpos hcs
    rw [hcs, loopCount_of_multiple n _ hpos]

/-- C13, witness: size 1024, block size 32, associativity 4 give 8 sets of 4
blocks. -/
theorem C13_create_geometry_witness :
    (createdFrom (createParams (some 1024) (some 32) (some 4) none none none)
      initialState).cache = some (List.replicate 8 (List.replicate 4 emptyBlock)) :=
  (C13_create_geometry (createParams (some 1024) (some 32) (some 4) none none none)
    initialState 4 rfl (by decide)).2.2.2.2.2.2 8 (by decide) (by decide)

/-- C13, counterexample: for size 1000, block size 32 and associativity 4 the
stored `numSets` is 1000 / 128, which is no whole number, and `/create` builds 8
sets; for size 32 it is 32 / 128 and `/create` builds one set of four blocks. -/
theorem C13_counterexample :
    (createdFrom (createParams (some 1000) (some 32) (some 4) none none none)
      initialState).cacheConfig.map CacheConfig.numSets = some ⟨1000, 128⟩ ∧
    (createdFrom (createParams (some 1000) (some 32) (some 4) none none none)
      initialState).cache = some (List.replicate 8 (List.replicate 4 emptyBlock)) ∧
    (8 : Int) * 128 ≠ 1000 ∧
    (createdFrom (createParams (some 32) (some 32) (some 4) none none none)
      initialState).cacheConfig.map CacheConfig.numSets = some ⟨32, 128⟩ ∧
    (createdFrom (createParams (some 32) (some 32) (some 4) none none none)
      initialState).cache = some (List.replicate 1 (List.replicate 4 emptyBlock)) ∧
    (1 : Int) * 128 ≠ 32 := by
  decide

/-- C14 (as amended): `/create` validates nothing and never returns an error:
for every request and every prior state it returns success and replaces the
cache, the configuration and the counters by those of the request, a missing
or unreadable number being replaced by its default. -/
theorem C14_create_always_succeeds (p : Params) (s : SimulationState) :
    (simulateResponse "/create" p s).1 =
      Outcome.returned (Response.message "success" "Cache created (simulated)") ∧
    (simulateResponse "/create" p s).2 =
      ⟨some (List.replicate (loopCount (configOf p).numSets)
          (List.replicate (waysOf (configOf p)) emptyBlock)), 0, 0, 0, some (configOf p)⟩ := by
  rw [simulateResponse_create]
  exact ⟨rfl, create_state p s⟩

/-- C14, counterexample: after a read in the default cache, a `/create` with
size 1000, block size 24 and associativity 3 (no powers of two, 72 does not
divide 1000) returns success and replaces the cache and the counters. -/
theorem C14_counterexample :
    (afterRead (some 4096) (createdFrom noParams initialState)).accessCount = 1 ∧
    (simulateResponse "/create" (createParams (some 1000) (some 24) (some 3) none none none)
      (afterRead (some 4096) (createdFrom noParams initialState))).1.status? = some "success" ∧
    (simulateResponse "/create" (createParams (some 1000) (some 24) (some 3) none none none)
      (afterRead (some 4096) (createdFrom noParams initialState))).2 =
      ⟨some (List.replicate 14 (List.replicate 3 emptyBlock)), 0, 0, 0,
        some ⟨1000, 24, 3, ⟨1000, 72⟩, "WRITE_THROUGH", "LRU"⟩⟩ ∧
    (simulateResponse "/create" (createParams (some (-8)) (some 0) (some 4) none none none)
      initialState).1.status? = some "success" := by
  decide

/-- C15 (as amended): while no cache has been created, `/access`, `/contents`
and `/info` return the error response `No cache created`, `/reset` and `/trace`
return a success response, and none of the five changes the state. -/
theorem C15_before_create (p : Params) (s : SimulationState)
    (hc : s.cache = none) (hcfg : s.cacheConfig = none) :
    simulateResponse "/access" p s =
      (Outcome.returned (Response.message "error" "No cache created"), s) ∧
    simulateResponse "/contents" p s =
      (Outcome.returned (Response.message "error" "No cache created"), s) ∧
    simulateResponse "/info" p s =
      (Outcome.returned (Response.message "error" "No cache created"), s) ∧
    simulateResponse "/reset" p s =
      (Outcome.returned (Response.message "success" "Cache reset (simulated)"), s) ∧
    (simulateResponse "/trace" p s).1.status? = some "success" ∧
    (simulateResponse "/trace" p s).2 = s := by
  refine ⟨?_, ?_, ?_, ?_, ?_, ?_⟩
  · rw [simulateResponse_access]
    exact access_no_cache p s hc
  · rw [simulateResponse_contents]
    unfold contents
    rw [hc]
  · rw [simulateResponse_info]
    unfold info
    rw [hcfg]
  · rw [simulateResponse_reset]
    unfold reset
    rw [hc]
  · rw [simulateResponse_trace]
    rfl
  · rw [simulateResponse_trace]
    rfl

/-- C15, witness: the initial state. -/
theorem C15_before_create_witness :
    simulateResponse "/info" noParams initialState =
      (Outcome.returned (Response.message "error" "No cache created"), initialState) :=
  (C15_before_create noParams initialState rfl rfl).2.2.1

/-- C15, counterexample: in the initial state `/reset` and `/trace` return
status `success`, not `error`. -/
theorem C15_counterexample :
    (simulateResponse "/reset" noParams initialState).1.status? = some "success" ∧
    (simulateResponse "/trace" noParams initialState).1.status? = some "success" := by
  decide

/-- C16 (as amended): `/trace` reads neither its parameters nor the state: it
always returns the same response, with `processed_count` 5, the three results
`MISS`, `MISS`, `HIT` and the statistics 13, 7, 6 and 53.8, and it leaves the
cache and the counters as they are. -/
theorem C16_trace_is_fixed (p : Params) (s : SimulationState) :
    simulateResponse "/trace" p s =
      (Outcome.returned (Response.trace "success" 5
        [⟨"0x1000", "R", "MISS"⟩, ⟨"0x2000", "W", "MISS"⟩, ⟨"0x1000", "R", "HIT"⟩]
        ⟨13, 7, 6, ⟨538, 10⟩⟩), s) := by
  rw [simulateResponse_trace]
  rfl

/-- C16, counterexample: in the default cache the trace of the single entry
`0x1000 READ` gives, issued through `/access`, one result `MISS` and the counters
1, 0, 1; `/trace` returns three results and the statistics 13, 7, 6, and leaves
the access count at 0. -/
theorem C16_counterexample :
    (traceBySpec [⟨some 4096, "READ"⟩] (createdFrom noParams initialState)).1 =
      [some "MISS"] ∧
    statisticsOf (traceBySpec [⟨some 4096, "READ"⟩] (createdFrom noParams initialState)).2 =
      ⟨1, 0, 1, ⟨0, 1⟩⟩ ∧
    (simulateResponse "/trace"
      ⟨none, none, none, none, none, none, none, none, some "R 0x1000"⟩
      (createdFrom noParams initialState)).1.traceResults? = some ["MISS", "MISS", "HIT"] ∧
    (simulateResponse "/trace"
      ⟨none, none, none, none, none, none, none, none, some "R 0x1000"⟩
      (createdFrom noParams initialState)).1.traceStatistics? = some ⟨13, 7, 6, ⟨538, 10⟩⟩ ∧
    (simulateResponse "/trace"
      ⟨none, none, none, none, none, none, none, none, some "R 0x1000"⟩
      (createdFrom noParams initialState)).2.accessCount = 0 ∧
    (traceBySpec [⟨some 4096, "READ"⟩] (createdFrom noParams initialState)).2.accessCount
      = 1 := by
  decide

/-- C17: after `/create` with size 1024, block size 32, associativity 4, LRU,
WRITE_BACK and WRITE_ALLOCATE, the accesses `0x1000` READ, `0x1000` READ, `0x2000`
WRITE, `0x1000` READ return `MISS`, `HIT`, `WRITE_MISS` and `HIT`; the write
installs a dirty block (tag 32, slot 1 of set 0); the last response carries the
statistics total 4, hits 2, misses 2 and hit rate 2 / 4 * 100, and
`updateStatisticsFromAPI` shows hit rate 50 and miss rate 50. -/
theorem C17_end_to_end :
    (simulateResponse "/access" (accessParams (some 4096) "READ")
      (createdFrom (createParams (some 1024) (some 32) (some 4) (some "LRU")
        (some "WRITE_BACK") (some "WRITE_ALLOCATE")) initialState)).1.result? = some "MISS" ∧
    (simulateResponse "/access" (accessParams (some 4096) "READ")
      (afterAccess (accessParams (some 4096) "READ")
      (createdFrom (createParams (some 1024) (some 32) (some 4) (some "LRU")
        (some "WRITE_BACK") (some "WRITE_ALLOCATE")) initialState))).1.result? = some "HIT" ∧
    (simulateResponse "/access" (accessParams (some 8192) "WRITE")
      (afterAccess (accessParams (some 4096) "READ")
      (afterAccess (accessParams (some 4096) "READ")
      (createdFrom (createParams (some 1024) (some 32) (some 4) (some "LRU")
        (some "WRITE_BACK") (some "WRITE_ALLOCATE")) initialState)))).1.result?
      = some "WRITE_MISS" ∧
    selectedSet (afterAccess (accessParams (some 8192) "WRITE")
      (afterAccess (accessParams (some 4096) "READ")
      (afterAccess (accessParams (some 4096) "READ")
      (createdFrom (createParams (some 1024) (some 32) (some 4) (some "LRU")
        (some "WRITE_BACK") (some "WRITE_ALLOCATE")) initialState)))) (some 8192) =
      some [⟨true, false, 16, 2⟩, ⟨true, true, 32, 3⟩, emptyBlock, emptyBlock] ∧
    tagOf (configOf (createParams (some 1024) (some 32) (some 4) (some "LRU")
        (some "WRITE_BACK") (some "WRITE_ALLOCATE"))) (some 8192) = 32 ∧
    (simulateResponse "/access" (accessParams (some 4096) "READ")
      (afterAccess (accessParams (some 8192) "WRITE")
      (afterAccess (accessParams (some 4096) "READ")
      (afterAccess (accessParams (some 4096) "READ")
      (createdFrom (createParams (some 1024) (some 32) (some 4) (some "LRU")
        (some "WRITE_BACK") (some "WRITE_ALLOCATE")) initialState))))).1.result?
      = some "HIT" ∧
    (simulateResponse "/access" (accessParams (some 4096) "READ")
      (afterAccess (accessParams (some 8192) "WRITE")
      (afterAccess (accessParams (some 4096) "READ")
      (afterAccess (accessParams (some 4096) "READ")
      (createdFrom (createParams (some 1024) (some 32) (some 4) (some "LRU")
        (some "WRITE_BACK") (some "WRITE_ALLOCATE")) initialState))))).1.statistics?
      = some ⟨4, 2, 2, ⟨2 * 100, 4⟩⟩ ∧
    updateStatisticsFromAPI ⟨4, 2, 2, ⟨2 * 100, 4⟩⟩ = ⟨4, 2, 2, ⟨200, 4⟩, ⟨200, 4⟩⟩ ∧
    (updateStatisticsFromAPI ⟨4, 2, 2, ⟨2 * 100, 4⟩⟩).hitRate.Equals 50 ∧
    (updateStatisticsFromAPI ⟨4, 2, 2, ⟨2 * 100, 4⟩⟩).missRate.Equals 50 := by
  refine ⟨by decide, by decide, by decide, by decide, by decide, by decide, by decide,
    by decide, ?_, ?_⟩
  · exact ⟨by decide, by decide⟩
  · exact ⟨by decide, by decide⟩

/-- C18, the code at the failing input: for the statistics of a cache without
accesses (total 0, hit rate 0) `updateStatisticsFromAPI` shows hit rate 0 and
miss rate `100 - 0 = 100`; for every snapshot the miss rate shown is 100 minus
the hit rate shown, and the hit rate the simulation reports is
`hits / total * 100` when `total > 0` and 0 otherwise. -/
theorem C18_miss_rate_without_accesses :
    statisticsOf (createdFrom noParams initialState) = ⟨0, 0, 0, ⟨0, 1⟩⟩ ∧
    (updateStatisticsFromAPI ⟨0, 0, 0, ⟨0, 1⟩⟩).hitRate.Equals 0 ∧
    (updateStatisticsFromAPI ⟨0, 0, 0, ⟨0, 1⟩⟩).missRate = ⟨100, 1⟩ ∧
    (updateStatisticsFromAPI ⟨0, 0, 0, ⟨0, 1⟩⟩).missRate.Equals 100 ∧
    ¬ (updateStatisticsFromAPI ⟨0, 0, 0, ⟨0, 1⟩⟩).missRate.Equals 0 ∧
    (∀ st : Statistics, (updateStatisticsFromAPI st).missRate =
      (updateStatisticsFromAPI st).hitRate.complement) ∧
    (∀ s : SimulationState, (statisticsOf s).hit_rate =
      if 0 < s.accessCount then ⟨(s.hitCount : Int) * 100, (s.accessCount : Int)⟩
      else ⟨0, 1⟩) := by
  refine ⟨by decide, ⟨by decide, by decide⟩, by decide, ⟨by decide, by decide⟩, ?_,
    fun _ => rfl, fun _ => rfl⟩
  rintro ⟨-, h⟩
  revert h
  decide

/-- C19: in a state reached from `/create` with valid geometry, one `/access`
call keeps the number of sets and leaves every set but the selected one as it
was; the selected set keeps its length and all its slots but at most one; on a
hit every slot of it keeps its valid flag and its tag, the dirty flag staying
or becoming set, so that the same blocks are resident before and after. -/
theorem C19_access_frame (p0 : Params) (s0 : SimulationState) (calls : List Call)
    (p : Params) (hv : ValidGeometry p0) :
    ∃ (cache cache1 : List (List Block)) (blocks blocks1 : List Block) (n slot : Nat),
      (runCalls calls (createdFrom p0 s0)).cache = some cache ∧
      (afterAccess p (runCalls calls (createdFrom p0 s0))).cache = some cache1 ∧
      setIndexOf (configOf p0) p.address = Int.ofNat n ∧
      cache[n]? = some blocks ∧ cache1[n]? = some blocks1 ∧
      cache1.length = cache.length ∧
      (∀ j : Nat, j ≠ n → cache1[j]? = cache[j]?) ∧
      blocks1.length = blocks.length ∧
      (∀ j : Nat, j ≠ slot → blocks1[j]? = blocks[j]?) ∧
      (Holds blocks (tagOf (configOf p0) p.address) →
        (∀ (j : Nat) (b c : Block), blocks[j]? = some b → blocks1[j]? = some c →
          c.valid = b.valid ∧ c.tag = b.tag ∧ (c.dirty = b.dirty ∨ c.dirty = true)) ∧
        ∀ a : Option Int,
          Resident (afterAccess p (runCalls calls (createdFrom p0 s0))) a ↔
            Resident (runCalls calls (createdFrom p0 s0)) a) := by
  have hs := shaped_reachable p0 s0 calls
  have hvc := validConfig_configOf p0 hv
  obtain ⟨cache, blocks, hc, hset, -, -⟩ :=
    selected_of_valid (configOf p0) _ p.address hvc hs
  have hcfg := hs.1
  obtain ⟨h1, -, -⟩ := access_state p _ cache (configOf p0) blocks hc hcfg hset
  obtain ⟨n, hn, -⟩ := setIndexOf_lt (configOf p0) p.address hvc
  have hget : cache[n]? = some blocks := by
    have := (jsIndex_some cache _ blocks hset).2
    rw [hn] at this
    simpa using this
  have hlt : n < cache.length := (List.getElem?_eq_some_iff.1 hget).1
  obtain ⟨slot, hslot⟩ := nextSet_one_slot blocks (tagOf (configOf p0) p.address)
    (stringOr p.operation "READ") (configOf p0).writePolicy
    ((runCalls calls (createdFrom p0 s0)).accessCount + 1)
  have h1' : (afterAccess p (runCalls calls (createdFrom p0 s0))).cache =
      some (cache.set n (nextSet blocks (tagOf (configOf p0) p.address)
        (stringOr p.operation "READ") (configOf p0).writePolicy
        ((runCalls calls (createdFrom p0 s0)).accessCount + 1))) := by
    unfold afterAccess
    rw [simulateResponse_access, h1, hn]
    rfl
  refine ⟨cache, _, blocks, _, n, slot, hc, h1', hn, hget, ?_, by simp, ?_,
    length_nextSet _ _ _ _ _, hslot, ?_⟩
  · simp [List.getElem?_set, hlt]
  · intro j hj
    exact List.getElem?_set_ne (Ne.symm hj)
  · intro hhit
    exact ⟨fun j b c hb hcc => nextSet_hit_keeps _ _ _ _ _ hhit j b c hb hcc,
      fun a => resident_after_hit p _ cache (configOf p0) blocks hc hcfg hset hhit a⟩

/-- C19, witness: a second read of `0x1000` in the default cache. -/
theorem C19_access_frame_witness :
    ∃ (cache cache1 : List (List Block)) (n : Nat),
      (runCalls [Call.access (accessParams (some 4096) "READ")]
        (createdFrom (createParams (some 1024) (some 32) (some 4) none none none)
          initialState)).cache = some cache ∧
      (afterAccess (accessParams (some 4096) "READ")
        (runCalls [Call.access (accessParams (some 4096) "READ")]
          (createdFrom (createParams (some 1024) (some 32) (some 4) none none none)
            initialState))).cache = some cache1 ∧
      cache1.length = cache.length ∧ ∀ j : Nat, j ≠ n → cache1[j]? = cache[j]? := by
  obtain ⟨cache, cache1, -, -, n, -, h1, h2, -, -, -, h6, h7, -⟩ :=
    C19_access_frame (createParams (some 1024) (some 32) (some 4) none none none) initialState
      [Call.access (accessParams (some 4096) "READ")] (accessParams (some 4096) "READ")
      ⟨5, 2, 3, rfl, rfl, rfl⟩
  exact ⟨cache, cache1, n, h1, h2, h6, h7⟩

/-- C20: take a cache freshly created with valid geometry, or reset after any
calls, and a sequence of `/access` calls in which the accesses selecting any one
set use no more distinct tags than the set has slots.  Then an access to a pair
of set and tag accessed earlier in the sequence is a hit, an access to a new pair
is a miss that goes to an invalid slot, after every prefix of the sequence all
the blocks accessed so far are resident, and the final miss count is the number
of distinct pairs of set and tag accessed. -/
theorem C20_no_eviction_within_capacity (p0 : Params) (s0 fresh : SimulationState)
    (calls : List Call) (accs : List Params) (hv : ValidGeometry p0)
    (hfresh : fresh = createdFrom p0 s0 ∨
      fresh = (simulateResponse "/reset" noParams (runCalls calls (createdFrom p0 s0))).2)
    (hfit : ∀ q ∈ accs,
      (tagsFor (configOf p0) (keyOf (configOf p0) q).1 accs).dedup.length ≤
        waysOf (configOf p0)) :
    (∀ (pre post : List Params) (q : Params), accs = pre ++ q :: post →
      keyOf (configOf p0) q ∈ pre.map (keyOf (configOf p0)) →
      (simulateResponse "/access" q (runAccesses pre fresh)).1.result? =
        some (if stringOr q.operation "READ" = "READ" then "HIT" else "WRITE_HIT")) ∧
    (∀ (pre post : List Params) (q : Params), accs = pre ++ q :: post →
      keyOf (configOf p0) q ∉ pre.map (keyOf (configOf p0)) →
      (simulateResponse "/access" q (runAccesses pre fresh)).1.result? =
        some (if stringOr q.operation "READ" = "READ" then "MISS" else "WRITE_MISS") ∧
      ∃ blocks v old, selectedSet (runAccesses pre fresh) q.address = some blocks ∧
        blocks[v]? = some old ∧ old.valid = false ∧
        selectedSet (afterAccess q (runAccesses pre fresh)) q.address =
          some (blocks.set v (installed (stringOr q.operation "READ")
            (configOf p0).writePolicy (tagOf (configOf p0) q.address)
            ((runAccesses pre fresh).accessCount + 1)))) ∧
    (∀ (pre post : List Params) (q : Params), accs = pre ++ post → q ∈ pre →
      Resident (runAccesses pre fresh) q.address) ∧
    (runAccesses accs fresh).missCount = (accs.map (keyOf (configOf p0))).dedup.length := by
  have hf : fresh = createdFrom p0 s0 := by
    rcases hfresh with h | h
    · exact h
    · rw [h]; exact reset_reachable noParams p0 s0 calls
  subst hf
  have hvc := validConfig_configOf p0 hv
  have hstep : ∀ (pre post : List Params) (q : Params), accs = pre ++ q :: post →
      _ := fun pre post q h =>
    tracks_step (configOf p0) pre q _ hvc (shaped_runAccesses p0 s0 pre)
      (tracks_initial p0 s0 accs pre (q :: post) hv hfit h)
      (capacity_initial (configOf p0) accs pre post q (by rw [h]; simp) hfit)
  refine ⟨?_, ?_, ?_, ?_⟩
  · intro pre post q h hin
    exact (hstep pre post q h).2.1 hin
  · intro pre post q h hnot
    exact (hstep pre post q h).2.2 hnot
  · intro pre post q h hq
    obtain ⟨cache, hc, -, hsets⟩ := tracks_initial p0 s0 accs pre post hv hfit h
    have hs := shaped_runAccesses p0 s0 pre
    obtain ⟨cache1, blocks, hc1, hset, -, -⟩ :=
      selected_of_valid (configOf p0) _ q.address hvc hs
    have hcc : cache1 = cache := by rw [hc] at hc1; exact (Option.some.inj hc1).symm
    rw [hcc] at hset
    obtain ⟨n, hn, -⟩ := setIndexOf_lt (configOf p0) q.address hvc
    have hkey : keyOf (configOf p0) q = (n, tagOf (configOf p0) q.address) := by
      rw [keyOf_eq, hn]
      exact Prod.ext (Int.toNat_ofNat n) (Eq.refl _)
    have hget : cache[n]? = some blocks := by
      have := (jsIndex_some cache _ blocks hset).2
      rw [hn] at this
      simpa using this
    have hmem := (hsets n blocks hget).2 (tagOf (configOf p0) q.address)
    have htags : tagOf (configOf p0) q.address ∈ tagsFor (configOf p0) n pre := by
      rw [mem_tagsFor, ← hkey]
      exact List.mem_map_of_mem _ hq
    refine ⟨blocks, ?_, ?_⟩
    · rw [selectedSet_eq _ cache (configOf p0) _ hc hs.1]; exact hset
    · have : selectedTag (runAccesses pre (createdFrom p0 s0)) q.address =
          tagOf (configOf p0) q.address := by simp [selectedTag, hs.1]
      rw [this]
      exact (mem_validTags _ _).1 (hmem.2 htags)
  · obtain ⟨cache, -, hmc, -⟩ := tracks_initial p0 s0 accs accs [] hv hfit (by simp)
    exact hmc

/-- C20, witness: the default cache and the reads `0x1000`, `0x2000`, `0x1000`:
two distinct pairs, two misses, and the third read hits. -/
theorem C20_no_eviction_within_capacity_witness :
    (simulateResponse "/access" (accessParams (some 4096) "READ")
      (runAccesses [accessParams (some 4096) "READ", accessParams (some 8192) "READ"]
        (createdFrom (createParams (some 1024) (some 32) (some 4) none none none)
          initialState))).1.result? = some "HIT" ∧
    (runAccesses [accessParams (some 4096) "READ", accessParams (some 8192) "READ",
        accessParams (some 4096) "READ"]
      (createdFrom (createParams (some 1024) (some 32) (some 4) none none none)
        initialState)).missCount = 2 :=
  ⟨(C20_no_eviction_within_capacity
      (createParams (some 1024) (some 32) (some 4) none none none) initialState
      (createdFrom (createParams (some 1024) (some 32) (some 4) none none none) initialState)
      []
      [accessParams (some 4096) "READ", accessParams (some 8192) "READ",
        accessParams (some 4096) "READ"]
      ⟨5, 2, 3, rfl, rfl, rfl⟩ (Or.inl rfl) (by decide)).1
      [accessParams (some 4096) "READ", accessParams (some 8192) "READ"] []
      (accessParams (some 4096) "READ") rfl (by decide),
    ((C20_no_eviction_within_capacity
      (createParams (some 1024) (some 32) (some 4) none none none) initialState
      (createdFrom (createParams (some 1024) (some 32) (some 4) none none none) initialState)
      []
      [accessParams (some 4096) "READ", accessParams (some 8192) "READ",
        accessParams (some 4096) "READ"]
      ⟨5, 2, 3, rfl, rfl, rfl⟩ (Or.inl rfl) (by decide)).2.2.2).trans (by decide)⟩

/-- C21, the code at the failing input: whatever the prior counters, for
instance 5, 3, 2, `resetStatistics()` leaves `stats` at totalAccesses 1, hits 0,
misses 0, because the `updateStatistics()` it calls to refresh the page counts
one access; the page shows 1, 0, 0 and the rates 0 / 1 * 100. -/
theorem C21_resetStatistics_counts_one :
    (∀ prior : Stats, (resetStatistics prior).1 = ⟨1, 0, 0⟩) ∧
    (∀ prior : Stats, (resetStatistics prior).2 = ⟨1, 0, 0, ⟨0 * 100, 1⟩, ⟨0 * 100, 1⟩⟩) ∧
    (resetStatistics ⟨5, 3, 2⟩).1.totalAccesses = 1 ∧
    (resetStatistics ⟨5, 3, 2⟩).1.totalAccesses ≠ 0 ∧
    (resetStatistics ⟨5, 3, 2⟩).1.hits = 0 ∧
    (resetStatistics ⟨5, 3, 2⟩).1.misses = 0 ∧
    (updateStatistics (some "HIT") (resetStatistics ⟨5, 3, 2⟩).1).1 = ⟨2, 1, 0⟩ := by
  refine ⟨fun _ => rfl, fun _ => rfl, by decide, by decide, by decide, by decide,
    by decide⟩

end CacheSim
